import Mathlib

/-!
# HashPay: order ledger, reconciliation scheduler, rate aggregator, notifications

A shallow embedding of `internal/database/db.go`, `internal/payment/scheduler.go`,
`internal/api/handlers.go` (select-payment handler), `internal/service/order.go`,
`internal/service/rate.go` and `internal/service/notification.go`.

Conventions of the embedding.

* The SQL tables are in-memory lists of rows; a statement is the list operation it
  denotes (`UPDATE ... WHERE id = ?` rewrites every row with that id, `SELECT ... WHERE`
  filters, `INSERT` appends).  The `error` result of each operation is kept in the
  signatures; the in-memory table itself never fails.
* `sql.NullString`, `sql.NullInt64`, `sql.NullFloat64` are `Option`s (`Valid = false` is
  `none`).
* `decimal.Decimal` (shopspring) is exact: a value is carried as the rational number it
  denotes, `Mul`, `Sub`, `Abs` and the comparisons being the exact operations.  A
  `float64` column is carried as the rational that `decimal.NewFromFloat` yields for it.
* `decimal.Div` is the one rounding operation: the quotient to 16 decimal places, half
  away from zero.
* `time.Now().Unix()` is the parameter `now` of the operation that reads the clock; a
  `time.Time` of the rate cache is an instant in nanoseconds.
* The storage interface `Querier` of the services belongs to a generated package that is
  not among the sources; it is a parameter of the service functions.  Its instance
  `dbQuerier` over the same tables is modelled from the specification: the update of an
  order is the conditional update of §5 and §6, not the unconditional `UPDATE` of
  `DB.UpdateOrderStatus`, which is the store of the scheduler and of the HTTP handlers.
* Outgoing requests (rate sources, merchant callbacks) are functions giving the outcome
  of each request.
* Go maps are association lists visited in first-insertion order.
-/

namespace database

/-- Row of table `orders` (`database.Order`). -/
structure Order where
  ID : String
  Amount : ℚ
  Currency : String
  PayCurrency : Option String
  PayAmount : Option ℚ
  PayAddr : Option String
  PayChain : Option String
  PayMethod : Option String
  TxHash : Option String
  Status : Option Int
  SiteID : Option String
  Callback : Option String
  ExpireAt : Int
  PaidAt : Option Int
  CreatedAt : Int
  UpdatedAt : Int
deriving DecidableEq, Repr

/-- Row of table `payments` (`database.Payment`); `Kind` is the Go field `Type`. -/
structure Payment where
  ID : Int
  Kind : String
  Chain : Option String
  Currency : Option String
  Address : Option String
  ApiKey : Option String
  ApiSecret : Option String
  Enabled : Option Int
  Config : Option String
  CreatedAt : Int
  UpdatedAt : Int
deriving DecidableEq, Repr

/-- Row of table `transactions` (`database.Transaction`). -/
structure Transaction where
  ID : Int
  OrderID : String
  Chain : String
  TxHash : String
  FromAddr : String
  ToAddr : String
  Amount : ℚ
  Currency : String
  BlockNum : Option Int
  Confirmed : Option Int
  RawData : Option String
  CreatedAt : Int
deriving DecidableEq, Repr

/-- Row of table `sites` (`database.Site`). -/
structure Site where
  ID : String
  Name : String
  ApiKey : String
  Callback : Option String
  Notify : Option String
  CreatedAt : Int
  UpdatedAt : Int
deriving DecidableEq, Repr

/-- Modelled from the spec: the row type `Notification` of the generated storage package,
which is not among the sources.  A queued delivery attempt (§3): linked order id, delivery
kind (`Kind` is the Go field `Type`), target, content, status (0 pending, 1 sent, 2 dead),
retry count, next-retry time, created and sent times; the fields are those the callers
pass in `CreateNotificationParams` and `UpdateNotificationStatusParams`. -/
structure Notification where
  ID : Int
  OrderID : String
  Kind : String
  Target : String
  Content : String
  Status : Int
  RetryCount : Int
  NextRetry : Option Int
  CreatedAt : Int
  SentAt : Option Int
deriving DecidableEq, Repr

/-- The database: the tables the reconciliation code reads and writes. -/
structure DB where
  orders : List Order
  payments : List Payment
  transactions : List Transaction
  sites : List Site
  notifications : List Notification
deriving DecidableEq, Repr

/-- Function `GetOrder`: `SELECT ... FROM orders WHERE id = ?`, first row, or the not-found error. -/
def DB.GetOrder (db : DB) (id : String) : Except String Order :=
  match db.orders.find? (fun o => o.ID = id) with
  | some o => .ok o
  | none => .error "订单不存在"

/-- The row written by `UPDATE orders SET status = ?, tx_hash = ?, paid_at = ?,
updated_at = ?` with `paid_at = updated_at = now`. -/
def setStatus (now : Int) (status : Int) (txHash : String) (o : Order) : Order :=
  { o with Status := some status, TxHash := some txHash, PaidAt := some now, UpdatedAt := now }

/-- Function `UpdateOrderStatus(id, status, txHash)`: the unconditional
`UPDATE orders SET status = ?, tx_hash = ?, paid_at = ?, updated_at = ? WHERE id = ?`. -/
def DB.UpdateOrderStatus (db : DB) (now : Int) (id : String) (status : Int) (txHash : String) :
    Except String DB :=
  .ok { db with orders := db.orders.map (fun o => if o.ID = id then setStatus now status txHash o else o) }

/-- Function `GetPendingOrders`: `SELECT ... FROM orders WHERE status = 0 AND expire_at > now`. -/
def DB.GetPendingOrders (db : DB) (now : Int) : Except String (List Order) :=
  .ok (db.orders.filter (fun o => decide (o.Status = some 0) && decide (o.ExpireAt > now)))

/-- Function `GetAllPayments`: `SELECT ... FROM payments`. -/
def DB.GetAllPayments (db : DB) : Except String (List Payment) :=
  .ok db.payments

/-- Function `CreateTransaction`: `INSERT INTO transactions`; the new row gets the next row id,
which is also returned (`LastInsertId`). -/
def DB.CreateTransaction (db : DB) (t : Transaction) : Except String (DB × Int) :=
  let id : Int := (db.transactions.length : Int) + 1
  .ok ({ db with transactions := db.transactions ++ [{ t with ID := id }] }, id)

end database

namespace payment

abbrev ChainType := String

/-- An observed transfer (`payment.Transaction`). -/
structure Transaction where
  Hash : String
  From : String
  To : String
  Amount : ℚ
  Currency : String
  BlockNum : Int
  Timestamp : Int
  Status : String
deriving DecidableEq, Repr

/-- The adapter interface `ChainAPI`; each method is the function of its arguments that
the adapter computes during one poll cycle. -/
structure ChainAPI where
  GetTxs : String → Int → Except String (List Transaction)
  GetTx : String → Except String Transaction
  ValidateAddr : String → Bool

namespace APIScheduler

open database

/-- Function `confirmOrder`: write status 1 with the transfer hash, then record the transfer.
`Amount` of the record is `tx.Amount.InexactFloat64()`, carried unrounded. -/
def confirmOrder (db : DB) (now : Int) (order : Order) (tx : Transaction) : DB :=
  match db.UpdateOrderStatus now order.ID 1 tx.Hash with
  | .error _ => db
  | .ok db1 =>
    let transaction : database.Transaction :=
      { ID := 0
        OrderID := order.ID
        Chain := order.PayChain.getD ""
        TxHash := tx.Hash
        FromAddr := tx.From
        ToAddr := tx.To
        Amount := tx.Amount
        Currency := tx.Currency
        BlockNum := some tx.BlockNum
        Confirmed := some 1
        RawData := none
        CreatedAt := now }
    match db1.CreateTransaction transaction with
    | .error _ => db1
    | .ok (db2, _) => db2

/-- Function `matchTx`: scan the orders in list order; skip an order without pay amount; confirm
the first one whose amount differs from the transfer amount by at most 1% of the expected
amount, and stop. -/
def matchTx (db : DB) (now : Int) (tx : Transaction) : List Order → DB
  | [] => db
  | order :: rest =>
    match order.PayAmount with
    | none => matchTx db now tx rest
    | some f =>
      let expectedAmount : ℚ := f
      let tolerance : ℚ := expectedAmount * 0.01
      let diff : ℚ := |tx.Amount - expectedAmount|
      if diff ≤ tolerance then confirmOrder db now order tx
      else matchTx db now tx rest

/-- Function `checkAddress`: fetch the transfers of the last 24 hours for the address and run
`matchTx` for each of them against the same order list. -/
def checkAddress (db : DB) (now : Int) (api : ChainAPI) (addr : String) (orders : List Order) : DB :=
  let fromTime := now - 24 * 3600
  match api.GetTxs addr fromTime with
  | .error _ => db
  | .ok txs => txs.foldl (fun d tx => matchTx d now tx orders) db

/-- The step `m[k] = append(m[k], order)` on a map kept as an association list. -/
def mapAppend (k : String) (order : Order) : List (String × List Order) → List (String × List Order)
  | [] => [(k, [order])]
  | (k1, os) :: rest =>
    if k1 = k then (k1, os ++ [order]) :: rest else (k1, os) :: mapAppend k order rest

/-- Function `groupByChain`: group the orders that have a pay chain by that chain. -/
def groupByChain (orders : List Order) : List (ChainType × List Order) :=
  orders.foldl (fun grouped order =>
    match order.PayChain with
    | some chain => mapAppend chain order grouped
    | none => grouped) []

/-- Function `checkChain`: without a registered adapter do nothing; otherwise group the orders
that have a pay address by address and check each address. -/
def checkChain (chains : ChainType → Option ChainAPI) (db : DB) (now : Int) (chain : ChainType)
    (orders : List Order) : DB :=
  match chains chain with
  | none => db
  | some api =>
    let addrMap := orders.foldl (fun m order =>
      match order.PayAddr with
      | some addr => mapAppend addr order m
      | none => m) []
    addrMap.foldl (fun d g => checkAddress d now api g.1 g.2) db

/-- Function `checkAll`: one poll cycle over the pending, unexpired orders. -/
def checkAll (chains : ChainType → Option ChainAPI) (db : DB) (now : Int) : DB :=
  match db.GetPendingOrders now with
  | .error _ => db
  | .ok orders =>
    if orders.length = 0 then db
    else (groupByChain orders).foldl (fun d g => checkChain chains d now g.1 g.2) db

end APIScheduler

end payment

namespace payment.APIScheduler

open database

/-- The matching relation in the words of the specification: the order has a settlement
amount `A` and `|T - A| ≤ 0.01 * A` for the transfer amount `T`; an order without
settlement amount matches nothing. -/
def Matches (tx : Transaction) (order : Order) : Prop :=
  match order.PayAmount with
  | some A => |tx.Amount - A| ≤ 0.01 * A
  | none => False

instance instDecidableMatches (tx : Transaction) (order : Order) : Decidable (Matches tx order) := by
  unfold Matches
  split <;> infer_instance

/-- Transaction records present in `db2` beyond those of `db1`: the confirmations recorded
between the two states. -/
def newRecords (db1 db2 : DB) : List database.Transaction :=
  db2.transactions.drop db1.transactions.length

/-- Frame of a run of the scheduler that confirms only orders whose id satisfies `P`:
order ids and the payments table are kept, a row whose id is outside `P` is kept as it
is, an id all of whose rows have status 1 keeps that property, and the transaction table
grows by records of orders in `P` all of whose rows have status 1 afterwards. -/
def Touches (P : String → Prop) (db1 db2 : DB) : Prop :=
  db2.orders.map (fun o => o.ID) = db1.orders.map (fun o => o.ID) ∧
  (∀ o ∈ db1.orders, ¬ P o.ID → o ∈ db2.orders) ∧
  (∀ id : String, (∀ o ∈ db1.orders, o.ID = id → o.Status = some 1) →
    ∀ o ∈ db2.orders, o.ID = id → o.Status = some 1) ∧
  db2.payments = db1.payments ∧
  ∃ added : List database.Transaction,
    db2.transactions = db1.transactions ++ added ∧
    ∀ r ∈ added, P r.OrderID ∧ ∀ o ∈ db2.orders, o.ID = r.OrderID → o.Status = some 1

/-- The effect of `run` over successive ticks: one `checkAll` per tick, each with the
adapter registry and clock reading of that tick. -/
def runCycles (cycles : List ((ChainType → Option ChainAPI) × Int)) (db : DB) : DB :=
  cycles.foldl (fun d c => checkAll c.1 d c.2) db

end payment.APIScheduler

namespace decimal

/-- Method `Decimal.DivRound(d2, precision)`: the quotient rounded to `precision` decimal places,
half away from zero.  (The Go method panics on a zero divisor; here `d / 0 = 0`.) -/
def DivRound (d d2 : ℚ) (precision : ℕ) : ℚ :=
  let q : ℚ := d / d2
  let scaled : ℤ := ⌊|q| * 10 ^ precision + 1 / 2⌋
  (if q < 0 then -1 else 1) * (scaled : ℚ) / 10 ^ precision

/-- Method `Decimal.Div(d2)`: `DivRound` with `DivisionPrecision = 16`. -/
def Div (d d2 : ℚ) : ℚ := DivRound d d2 16

end decimal

namespace api

open database

/-- Function `getRate`: the fixed rate table of the handlers, default `1.0`. -/
def getRate (fromCur toCur : String) : ℚ :=
  if fromCur = "CNY" then
    if toCur = "USDT" then 7.2
    else if toCur = "USDC" then 7.2
    else if toCur = "TRX" then 0.5
    else if toCur = "TON" then 45.0
    else 1.0
  else if fromCur = "USD" then
    if toCur = "USDT" then 1.0
    else if toCur = "USDC" then 1.0
    else if toCur = "TRX" then 0.07
    else if toCur = "TON" then 6.5
    else 1.0
  else 1.0

/-- The JSON object returned by the select-payment handler; `address` and `redirect_url`
are the keys that are present only for some payment types. -/
structure SelectPaymentResponse where
  currency : Option String
  amount : ℚ
  chain : Option String
  address : Option (Option String)
  redirect_url : Option String
deriving DecidableEq, Repr

namespace Server

/-- Function `handleSelectPayment` for path parameter `orderId` and request body `body` (`none`: the
body does not parse, `some m`: `method_id = m`).  Returns the database after the request
and the HTTP result (status code and message, or the JSON response). -/
def handleSelectPayment (db : DB) (now : Int) (orderID : String) (body : Option Int) :
    DB × Except (Nat × String) SelectPaymentResponse :=
  match body with
  | none => (db, .error (400, "请求格式错误"))
  | some methodID =>
    match db.GetOrder orderID with
    | .error _ => (db, .error (404, "订单不存在"))
    | .ok order =>
      match db.GetAllPayments with
      | .error _ => (db, .error (500, "获取支付方式失败"))
      | .ok payments =>
        match payments.find? (fun p => p.ID = methodID) with
        | none => (db, .error (404, "支付方式不存在"))
        | some payment =>
          let rate := getRate order.Currency (payment.Currency.getD "")
          let payAmount := decimal.Div order.Amount rate
          match db.UpdateOrderStatus now orderID 0 "" with
          | .error _ => (db, .error (500, "更新订单失败"))
          | .ok db1 =>
            (db1, .ok
              { currency := payment.Currency
                amount := payAmount
                chain := payment.Chain
                address := if payment.Kind = "blockchain" then some payment.Address else none
                redirect_url :=
                  if payment.Kind = "blockchain" then none
                  else if payment.Kind = "exchange" then some ("/exchange/pay/" ++ orderID)
                  else if payment.Kind = "wallet" then some ("/wallet/pay/" ++ orderID)
                  else none })

end Server

end api

namespace service

open database

/-- The argument of the storage call `UpdateOrderStatus` of the order service. -/
structure UpdateOrderStatusParams where
  ID : String
  Status : Int
  TxHash : Option String
  PaidAt : Option Int
  UpdatedAt : Int
deriving DecidableEq, Repr

/-- The argument of the storage call `CreateNotification`; `Kind` is the Go field `Type`. -/
structure CreateNotificationParams where
  OrderID : String
  Kind : String
  Target : String
  Content : String
  Status : Int
  RetryCount : Int
  NextRetry : Option Int
  CreatedAt : Int
deriving DecidableEq, Repr

/-- The argument of the storage call `UpdateNotificationStatus`. -/
structure UpdateNotificationStatusParams where
  ID : Int
  Status : Int
  RetryCount : Int
  NextRetry : Option Int
  SentAt : Option Int
deriving DecidableEq, Repr

/-- The storage interface `Querier` of the services over a store of type `σ`: the
operations that the order service and the notification service call. -/
structure Querier (σ : Type) where
  GetOrder : σ → String → Except String Order
  UpdateOrderStatus : σ → UpdateOrderStatusParams → Except String σ
  GetSite : σ → String → Except String Site
  CreateNotification : σ → CreateNotificationParams → Except String (σ × Notification)
  GetPendingNotifications : σ → Int → Except String (List Notification)
  UpdateNotificationStatus : σ → UpdateNotificationStatusParams → Except String σ

namespace OrderService

/-- Function `ConfirmOrder(orderID, txHash)`: a single `UpdateOrderStatus` call with status 1, the
hash, and `PaidAt = UpdatedAt = now`; the order is not read first. -/
def ConfirmOrder {σ : Type} (q : Querier σ) (s : σ) (now : Int) (orderID : String) (txHash : String) :
    Except String σ :=
  q.UpdateOrderStatus s
    { ID := orderID
      Status := 1
      TxHash := some txHash
      PaidAt := some now
      UpdatedAt := now }

end OrderService

/-- Modelled from the spec: the statement behind `CreateNotification` of the generated
storage package, which is not among the sources: `Enqueue` persists a notification (§4.5);
the new row takes the values of the parameter struct, the next row id and no sent time. -/
def createNotification (db : DB) (p : CreateNotificationParams) : Except String (DB × Notification) :=
  let n : Notification :=
    { ID := (db.notifications.length : Int) + 1
      OrderID := p.OrderID
      Kind := p.Kind
      Target := p.Target
      Content := p.Content
      Status := p.Status
      RetryCount := p.RetryCount
      NextRetry := p.NextRetry
      CreatedAt := p.CreatedAt
      SentAt := none }
  .ok ({ db with notifications := db.notifications ++ [n] }, n)

/-- Modelled from the spec: the statement behind `GetPendingNotifications(now)` of the
generated storage package, which is not among the sources: `ProcessDue` selects the
notifications with `status = pending` and `nextRetry <= now` (§4.5); a row without
next-retry time is not selected. -/
def getPendingNotifications (db : DB) (now : Int) : Except String (List Notification) :=
  .ok (db.notifications.filter (fun n =>
    decide (n.Status = 0) &&
      (match n.NextRetry with
       | some t => decide (t ≤ now)
       | none => false)))

/-- Modelled from the spec: the statement behind `UpdateNotificationStatus` of the
generated storage package, which is not among the sources: the outcome of an attempt
(status, retry count, next-retry time, sent time, §4.5) is recorded in the row with the
given id, the four values being those of the parameter struct. -/
def updateNotificationStatus (db : DB) (p : UpdateNotificationStatusParams) : Except String DB :=
  .ok { db with notifications := db.notifications.map (fun n =>
    if n.ID = p.ID then
      { n with Status := p.Status, RetryCount := p.RetryCount, NextRetry := p.NextRetry,
               SentAt := p.SentAt }
    else n) }

/-- Modelled from the spec: the statement behind `GetSite(id)` of the generated storage
package, which is not among the sources: read of the site keyed by its id (§6), failing
when there is none. -/
def getSite (db : DB) (id : String) : Except String Site :=
  match db.sites.find? (fun st => st.ID = id) with
  | some st => .ok st
  | none => .error "sql: no rows in result set"

/-- Modelled from the spec: the statement behind `GetOrder(id)` of the generated storage
package, which is not among the sources: read of the order keyed by its id (§6), failing
when there is none, as `DB.GetOrder` does. -/
def getOrder (db : DB) (id : String) : Except String Order :=
  db.GetOrder id

/-- Modelled from the spec: the statement behind `UpdateOrderStatus` of the generated
storage package, which is not among the sources: the single-row conditional update of the
storage layer (§5; §6: atomic conditional status transitions, no-op or error on invalid
transition, never a silent overwrite).  A Pending row (status 0, also a NULL status) takes
the four values of the parameter struct.  A row in a terminal state is never modified
(§3: no transition away from a terminal state): a call with the row's own status is a
no-op, as confirming an already Paid order is (§4.3), and a call with another status is
an error, as confirming an Expired or Failed order is (§4.3).  An absent order is the
error `NotFound` (§7). -/
def updateOrderStatus (db : DB) (p : UpdateOrderStatusParams) : Except String DB :=
  match db.orders.find? (fun o => o.ID = p.ID) with
  | none => .error "order not found"
  | some r =>
    if r.Status.getD 0 = 0 then
      .ok { db with orders := db.orders.map (fun o =>
        if o.ID = p.ID then
          { o with Status := some p.Status, TxHash := p.TxHash, PaidAt := p.PaidAt, UpdatedAt := p.UpdatedAt }
        else o) }
    else if r.Status.getD 0 = p.Status then .ok db
    else .error "order not pending"

/-- Modelled from the spec: the generated storage package behind `Querier`, which is not
among the sources, over the tables of `database.DB`; each operation is the definition
above that is modelled from the spec. -/
def dbQuerier : Querier DB where
  GetSite := getSite
  CreateNotification := createNotification
  GetPendingNotifications := getPendingNotifications
  UpdateNotificationStatus := updateNotificationStatus
  GetOrder := getOrder
  UpdateOrderStatus := updateOrderStatus

end service

namespace time

/-- One second as a `time.Duration` (nanoseconds). -/
def Second : Int := 1000000000

/-- One minute as a `time.Duration` (nanoseconds). -/
def Minute : Int := 60 * Second

end time

namespace service

open database

/-- A cached rate (`service.Rate`); `Time` is the instant of the fetch, in nanoseconds. -/
structure Rate where
  From : String
  To : String
  Value : ℚ
  Time : Int
deriving DecidableEq, Repr

/-- The interface `RateSource`: `GetRate(from, to)` is the outcome of the request that the
source makes when it is asked. -/
structure RateSource where
  GetRate : String → String → Except String ℚ

/-- The rate aggregator `RateService`; the Go map `cache` is an association list. -/
structure RateService where
  sources : List RateSource
  cache : List (String × Rate)
  ttl : Int

/-- Function `NewRateService`: the two sources (Binance, CoinGecko), an empty cache and a
TTL of five minutes. -/
def NewRateService (binance coinGecko : RateSource) : RateService :=
  { sources := [binance, coinGecko]
    cache := []
    ttl := 5 * time.Minute }

namespace RateService

/-- The map read `cache[key]`. -/
def cacheGet (key : String) : List (String × Rate) → Option Rate
  | [] => none
  | (k, v) :: rest => if k = key then some v else cacheGet key rest

/-- The map write `cache[key] = rate`. -/
def cacheSet (key : String) (rate : Rate) : List (String × Rate) → List (String × Rate)
  | [] => [(key, rate)]
  | (k, v) :: rest => if k = key then (k, rate) :: rest else (k, v) :: cacheSet key rate rest

/-- Function `fetchRates`: ask every source and collect the rates of those that return no
error.  (The goroutines append in completion order; the list is given in source order.) -/
def fetchRates (s : RateService) (fromCur toCur : String) : List ℚ :=
  s.sources.filterMap (fun src =>
    match src.GetRate fromCur toCur with
    | .ok rate => some rate
    | .error _ => none)

/-- Function `calcMedian`: 1 for no rate, the rate itself for a single one, otherwise the
sum of the rates divided (`Decimal.Div`) by their number. -/
def calcMedian (rates : List ℚ) : ℚ :=
  if rates.length = 0 then 1
  else if rates.length = 1 then rates.headD 0
  else
    let sum : ℚ := rates.foldl (fun sum rate => sum + rate) 0
    decimal.Div sum (rates.length : ℚ)

/-- Function `GetRate(from, to)` with the clock reading `now` of the cache check and the
clock reading `stored` of the cache write.  Returns the rate and the service afterwards. -/
def GetRate (s : RateService) (now stored : Int) (fromCur toCur : String) : ℚ × RateService :=
  let key := fromCur ++ "_" ++ toCur
  let cached : Option ℚ :=
    match cacheGet key s.cache with
    | some rate => if now - rate.Time < s.ttl then some rate.Value else none
    | none => none
  match cached with
  | some value => (value, s)
  | none =>
    let rates := s.fetchRates fromCur toCur
    if rates.length = 0 then (1, s)
    else
      let median := calcMedian rates
      let entry : Rate := { From := fromCur, To := toCur, Value := median, Time := stored }
      (median, { s with cache := cacheSet key entry s.cache })

end RateService

/-- The median in the words of the specification: the middle element of the sorted list,
or the average of the two middle elements for an even length. -/
def specMedian (rates : List ℚ) : ℚ :=
  let sorted := rates.insertionSort (fun a b => a ≤ b)
  let n := sorted.length
  if n % 2 = 1 then sorted.getD (n / 2) 0
  else (sorted.getD (n / 2 - 1) 0 + sorted.getD (n / 2) 0) / 2

namespace OrderService

/-- Function `SetPaymentMethod(orderID, chain, currency, addr)` with the clock readings of
the rate service (`tRate`, `tStore`) and of the update (`now`).  The first component is
`none` when `amount.Div(rate)` panics on a zero rate, otherwise the returned error or the
store after the update; the second component is the rate service afterwards.  The
generated order type has a plain integer status: a NULL status reads as 0. -/
def SetPaymentMethod {σ : Type} (q : Querier σ) (rates : RateService) (s : σ)
    (tRate tStore now : Int) (orderID : String) (chain currency addr : String) :
    Option (Except String σ) × RateService :=
  match q.GetOrder s orderID with
  | .error e => (some (.error ("order not found: " ++ e)), rates)
  | .ok order =>
    let amount : ℚ := order.Amount
    let r := rates.GetRate tRate tStore order.Currency currency
    let rate := r.1
    if rate = 0 then (none, r.2)
    else
      let _payAmount := decimal.Div amount rate
      match q.UpdateOrderStatus s
          { ID := orderID
            Status := order.Status.getD 0
            TxHash := none
            PaidAt := none
            UpdatedAt := now } with
      | .error e => (some (.error ("update order: " ++ e)), r.2)
      | .ok s1 => (some (.ok s1), r.2)

end OrderService

/-- A JSON value as `encoding/json` renders it. -/
inductive JSON where
  | null : JSON
  | bool : Bool → JSON
  | num : ℚ → JSON
  | int : Int → JSON
  | str : String → JSON
  | obj : List (String × JSON) → JSON

/-- The rendering of a `sql.NullString`. -/
def JSON.nullString (v : Option String) : JSON :=
  .obj [("String", .str (v.getD "")), ("Valid", .bool v.isSome)]

/-- The rendering of a `sql.NullFloat64`. -/
def JSON.nullFloat64 (v : Option ℚ) : JSON :=
  .obj [("Float64", .num (v.getD 0)), ("Valid", .bool v.isSome)]

/-- The rendering of a `sql.NullInt64`. -/
def JSON.nullInt64 (v : Option Int) : JSON :=
  .obj [("Int64", .int (v.getD 0)), ("Valid", .bool v.isSome)]

/-- An outgoing HTTP request: method, URL, headers and the JSON object of the body. -/
structure Request where
  Method : String
  URL : String
  Header : List (String × String)
  Body : List (String × JSON)

/-- The HTTP side of the notification service: whether `http.NewRequest` accepts a URL,
and the outcome of `client.Do`, a transport error or the status code of the response. -/
structure HTTPClient where
  NewRequestOk : String → Bool
  Do : Request → Except String Nat

namespace NotificationService

/-- Function `saveFailedNotification`: store a pending notification with retry count 0
and next retry in 300 seconds; a storage error is only logged. -/
def saveFailedNotification {σ : Type} (q : Querier σ) (s : σ) (now : Int)
    (orderID notifType target reason : String) : σ :=
  let nextRetry := now + 300
  match q.CreateNotification s
      { OrderID := orderID
        Kind := notifType
        Target := target
        Content := reason
        Status := 0
        RetryCount := 0
        NextRetry := some nextRetry
        CreatedAt := now } with
  | .error _ => s
  | .ok (s1, _) => s1

/-- The object `callbackData` of `sendCallback`. -/
def callbackData (now : Int) (order : Order) : List (String × JSON) :=
  [("order_id", .str order.ID),
   ("status", .str "paid"),
   ("amount", .num order.Amount),
   ("currency", .str order.Currency),
   ("pay_amount", JSON.nullFloat64 order.PayAmount),
   ("pay_currency", JSON.nullString order.PayCurrency),
   ("tx_hash", JSON.nullString order.TxHash),
   ("paid_at", JSON.nullInt64 order.PaidAt),
   ("timestamp", .int now)]

/-- Function `sendCallback`: POST the callback data to the callback URL of the site with
the API key header.  A transport error or a status other than 200 stores a failed
notification; nothing is returned to the caller. -/
def sendCallback {σ : Type} (q : Querier σ) (client : HTTPClient) (s : σ) (now : Int)
    (order : Order) (site : Site) : σ :=
  let url := site.Callback.getD ""
  if client.NewRequestOk url then
    let req : Request :=
      { Method := "POST"
        URL := url
        Header := [("Content-Type", "application/json"), ("X-Api-Key", site.ApiKey)]
        Body := callbackData now order }
    match client.Do req with
    | .error e => saveFailedNotification q s now order.ID "callback" url e
    | .ok statusCode =>
      if statusCode ≠ 200 then
        saveFailedNotification q s now order.ID "callback" url ("status " ++ toString statusCode)
      else s
  else s

/-- Function `retryNotification`: one processing attempt for a due notification. -/
def retryNotification {σ : Type} (q : Querier σ) (client : HTTPClient) (s : σ) (now : Int)
    (notif : Notification) : σ :=
  match q.GetOrder s notif.OrderID with
  | .error _ => s
  | .ok order =>
    match q.GetSite s (order.SiteID.getD "") with
    | .error _ => s
    | .ok site =>
      let attempt : σ × Bool :=
        if notif.Kind = "callback" then (sendCallback q client s now order site, true)
        else (s, false)
      let s1 := attempt.1
      let success := attempt.2
      let outcome : Int × Option Int :=
        if success then (1, none)
        else
          let retryCount := notif.RetryCount + 1
          if retryCount < 5 then (0, some (now + 300 * retryCount))
          else (2, none)
      match q.UpdateNotificationStatus s1
          { ID := notif.ID
            Status := outcome.1
            RetryCount := notif.RetryCount + 1
            NextRetry := outcome.2
            SentAt := some now } with
      | .error _ => s1
      | .ok s2 => s2

/-- Function `ProcessPendingNotifications`: one attempt for every notification that is due
at `now`. -/
def ProcessPendingNotifications {σ : Type} (q : Querier σ) (client : HTTPClient) (s : σ)
    (now : Int) : σ :=
  match q.GetPendingNotifications s now with
  | .error _ => s
  | .ok notifications => notifications.foldl (fun st notif => retryNotification q client st now notif) s

end NotificationService

end service

namespace payment.APIScheduler

open database

/-- The control state of an `APIScheduler`: the flag `running`, whether the channel `stopCh`
made by `NewScheduler` has been closed, and the number of `run` goroutines that are in
their loop.  Calls of `Start` and `Stop` are taken one after the other. -/
structure Control where
  running : Bool
  stopClosed : Bool
  loops : Nat
deriving DecidableEq, Repr

/-- Function `NewScheduler`: not running, a fresh open `stopCh`, no loop. -/
def NewScheduler : Control :=
  { running := false
    stopClosed := false
    loops := 0 }

/-- Function `Start`: nothing when already running; otherwise set `running` and launch
`run`.  The `select` of `run` returns as soon as `stopCh` is ready, and a closed channel
is always ready while the ticker fires only after one interval: a loop launched with
`stopCh` closed leaves at once. -/
def Start (s : Control) : Control :=
  if s.running then s
  else
    { s with
      running := true
      loops := if s.stopClosed then s.loops else s.loops + 1 }

/-- Function `Stop`: nothing when not running; otherwise clear `running` and
`close(s.stopCh)`, which ends every loop.  The result is `none` when the close panics
because the channel is closed already. -/
def Stop (s : Control) : Option Control :=
  if !s.running then some s
  else if s.stopClosed then none
  else
    some
      { running := false
        stopClosed := true
        loops := 0 }

/-- A call on the scheduler. -/
inductive Call where
  | start : Call
  | stop : Call
deriving DecidableEq, Repr

/-- A finite sequence of `Start` and `Stop` calls, from left to right; `none` after a
panic. -/
def runCalls : List Call → Control → Option Control
  | [], s => some s
  | Call.start :: rest, s => runCalls rest (Start s)
  | Call.stop :: rest, s =>
    match Stop s with
    | none => none
    | some s1 => runCalls rest s1

/-- A lookup that the scheduler sends to an adapter: the chain of the adapter, the
arguments of `GetTxs`, and the orders of the group that the answer is matched against. -/
structure Lookup where
  chain : ChainType
  addr : String
  fromTime : Int
  orders : List Order
deriving DecidableEq, Repr

/-- Function `checkAddress` with the `GetTxs` call that it makes, as (address, from). -/
def checkAddressL (db : DB) (now : Int) (api : ChainAPI) (addr : String) (orders : List Order) :
    DB × List (String × Int) :=
  let fromTime := now - 24 * 3600
  match api.GetTxs addr fromTime with
  | .error _ => (db, [(addr, fromTime)])
  | .ok txs => (txs.foldl (fun d tx => matchTx d now tx orders) db, [(addr, fromTime)])

/-- Function `checkChain` with the lookups that it makes. -/
def checkChainL (chains : ChainType → Option ChainAPI) (db : DB) (now : Int) (chain : ChainType)
    (orders : List Order) : DB × List Lookup :=
  match chains chain with
  | none => (db, [])
  | some api =>
    let addrMap := orders.foldl (fun m order =>
      match order.PayAddr with
      | some addr => mapAppend addr order m
      | none => m) []
    addrMap.foldl (fun st g =>
      let r := checkAddressL st.1 now api g.1 g.2
      (r.1, st.2 ++ r.2.map (fun c => Lookup.mk chain c.1 c.2 g.2))) (db, [])

/-- Function `checkAll` with the lookups that it makes. -/
def checkAllL (chains : ChainType → Option ChainAPI) (db : DB) (now : Int) : DB × List Lookup :=
  match db.GetPendingOrders now with
  | .error _ => (db, [])
  | .ok orders =>
    if orders.length = 0 then (db, [])
    else
      (groupByChain orders).foldl (fun st g =>
        let r := checkChainL chains st.1 now g.1 g.2
        (r.1, st.2 ++ r.2)) (db, [])

/-- The groups that the grouping loops build: the step `m[k] = append(m[k], order)` for
every order that has a key. -/
def groupOf (sel : Order → Option String) (orders : List Order) : List (String × List Order) :=
  orders.foldl (fun m order =>
    match sel order with
    | some k => mapAppend k order m
    | none => m) []

/-- The map read `m[k]` on an association list, empty when the key is absent. -/
def groupGet (k : String) : List (String × List Order) → List Order
  | [] => []
  | (k1, os) :: rest => if k1 = k then os else groupGet k rest

/-- The loop body of `checkChain` run over a list of address groups in turn: each group is
checked by `checkAddress` with the adapter registered for its chain. -/
def runLookups (chains : ChainType → Option ChainAPI) (db : DB) (now : Int)
    (ls : List Lookup) : DB :=
  ls.foldl (fun d l =>
    match chains l.chain with
    | some api => checkAddress d now api l.addr l.orders
    | none => d) db

end payment.APIScheduler

namespace decimal

/-- The functions of `shopspring/decimal` that read a decimal from a string
(`NewFromString`, an error for an unparseable string) and raise to a power (`Pow`). -/
structure Lib where
  NewFromString : String → Except String ℚ
  Pow : ℚ → ℚ → ℚ

/-- The value of `d, _ := decimal.NewFromString(s)`: the zero decimal when the string is
unparseable. -/
def Lib.parse (lib : Lib) (s : String) : ℚ :=
  match lib.NewFromString s with
  | .ok d => d
  | .error _ => 0

/-- Method `Decimal.IntPart`: the integer part, truncated toward zero. -/
def IntPart (d : ℚ) : Int :=
  if d < 0 then -⌊-d⌋ else ⌊d⌋

end decimal

namespace payment

/-- One entry of `data` in the TronGrid response that `TronAPI.GetTxs` decodes. -/
structure TronTransfer where
  TransactionID : String
  From : String
  To : String
  Value : String
  Symbol : String
  Decimals : Int
  BlockTimestamp : Int
deriving DecidableEq, Repr

/-- One entry of `result` in the `tokentx` response that `BSCAPI.GetTxs`,
`EthereumAPI.GetTxs` and `PolygonAPI.GetTxs` decode (`BSCAPI` has no `BlockNumber`). -/
structure TokenTx where
  Hash : String
  From : String
  To : String
  Value : String
  TokenSymbol : String
  TokenDecimal : String
  TimeStamp : String
  BlockNumber : String
deriving DecidableEq, Repr

/-- One entry of `result` in the `getSignaturesForAddress` response of `SolanaAPI.GetTxs`. -/
structure SolSignature where
  Signature : String
  Slot : Int
  BlockTime : Int
  ConfirmationStatus : String
deriving DecidableEq, Repr

/-- One entry of `data` in the `splTransfers` response of `SolscanAPI.GetTxs`; the
`float64` amount is a rational. -/
structure SplTransfer where
  Signature : String
  BlockTime : Int
  From : String
  To : String
  Amount : ℚ
  Decimals : Int
  TokenSymbol : String
  Status : String
deriving DecidableEq, Repr

/-- One entry of `result` in the `getTransactions` response of `TONAPI.GetTxs`. -/
structure TonTx where
  Hash : String
  Source : String
  Destination : String
  Value : String
  Message : String
  Fee : String
  Utime : Int
deriving DecidableEq, Repr

/-- One entry of `transfers` in the jetton response of `TonScanAPI.GetTxs`. -/
structure JettonTransfer where
  QueryID : String
  Source : String
  Destination : String
  Amount : String
  JettonMaster : String
  Symbol : String
  TransactionHash : String
  TransactionTime : Int
deriving DecidableEq, Repr

/-- The adapter `TronAPI`: `fetch addr minTimestamp` is the outcome of the request and of
decoding its body, an error or the entries of `data`. -/
structure TronAPI where
  fetch : String → Int → Except String (List TronTransfer)

/-- Function `TronAPI.GetTxs(addr, from)`: every entry of the response becomes a transfer;
the amount is the value divided by ten to the power of the token decimals. -/
def TronAPI.GetTxs (t : TronAPI) (lib : decimal.Lib) (addr : String) (since : Int) :
    Except String (List Transaction) :=
  match t.fetch addr (since * 1000) with
  | .error e => .error e
  | .ok data =>
    .ok (data.map (fun tx =>
      let amount := lib.parse tx.Value
      let decimals := lib.Pow 10 (tx.Decimals : ℚ)
      { Hash := tx.TransactionID
        From := tx.From
        To := tx.To
        Amount := decimal.Div amount decimals
        Currency := tx.Symbol
        BlockNum := 0
        Timestamp := tx.BlockTimestamp.tdiv 1000
        Status := "confirmed" }))

/-- The adapter `BSCAPI`: `fetch addr startblock` is the outcome of the request and of
decoding its body, an error or the entries of `result`. -/
structure BSCAPI where
  fetch : String → Int → Except String (List TokenTx)

/-- Function `BSCAPI.GetTxs(addr, from)`: every entry of the response becomes a transfer. -/
def BSCAPI.GetTxs (b : BSCAPI) (lib : decimal.Lib) (addr : String) (since : Int) :
    Except String (List Transaction) :=
  match b.fetch addr since with
  | .error e => .error e
  | .ok result =>
    .ok (result.map (fun tx =>
      let amount := lib.parse tx.Value
      let decimals := lib.parse tx.TokenDecimal
      let divisor := lib.Pow 10 decimals
      let timestamp := lib.parse tx.TimeStamp
      { Hash := tx.Hash
        From := tx.From
        To := tx.To
        Amount := decimal.Div amount divisor
        Currency := tx.TokenSymbol
        BlockNum := 0
        Timestamp := decimal.IntPart timestamp
        Status := "confirmed" }))

/-- The adapter `EthereumAPI`: `fetch addr startblock` is the outcome of the request and
of decoding its body; `EqualFold` is `strings.EqualFold`. -/
structure EthereumAPI where
  fetch : String → Int → Except String (List TokenTx)
  EqualFold : String → String → Bool

/-- Function `EthereumAPI.GetTxs(addr, from)`: an entry whose `to` is not `addr` up to
case is skipped (`continue`); the others become transfers. -/
def EthereumAPI.GetTxs (e : EthereumAPI) (lib : decimal.Lib) (addr : String) (since : Int) :
    Except String (List Transaction) :=
  match e.fetch addr since with
  | .error err => .error err
  | .ok result =>
    .ok (result.filterMap (fun tx =>
      if !e.EqualFold tx.To addr then none
      else
        let amount := lib.parse tx.Value
        let decimals := lib.parse tx.TokenDecimal
        let divisor := lib.Pow 10 decimals
        let timestamp := lib.parse tx.TimeStamp
        let blockNum := lib.parse tx.BlockNumber
        some
          { Hash := tx.Hash
            From := tx.From
            To := tx.To
            Amount := decimal.Div amount divisor
            Currency := tx.TokenSymbol
            BlockNum := decimal.IntPart blockNum
            Timestamp := decimal.IntPart timestamp
            Status := "confirmed" }))

/-- The adapter `PolygonAPI`, with the response format of `EthereumAPI`. -/
structure PolygonAPI where
  fetch : String → Int → Except String (List TokenTx)
  EqualFold : String → String → Bool

/-- Function `PolygonAPI.GetTxs(addr, from)`: the same loop as `EthereumAPI.GetTxs`. -/
def PolygonAPI.GetTxs (p : PolygonAPI) (lib : decimal.Lib) (addr : String) (since : Int) :
    Except String (List Transaction) :=
  match p.fetch addr since with
  | .error err => .error err
  | .ok result =>
    .ok (result.filterMap (fun tx =>
      if !p.EqualFold tx.To addr then none
      else
        let amount := lib.parse tx.Value
        let decimals := lib.parse tx.TokenDecimal
        let divisor := lib.Pow 10 decimals
        let timestamp := lib.parse tx.TimeStamp
        let blockNum := lib.parse tx.BlockNumber
        some
          { Hash := tx.Hash
            From := tx.From
            To := tx.To
            Amount := decimal.Div amount divisor
            Currency := tx.TokenSymbol
            BlockNum := decimal.IntPart blockNum
            Timestamp := decimal.IntPart timestamp
            Status := "confirmed" }))

/-- The adapter `SolanaAPI`: `fetch addr` is the outcome of the signature request and of
decoding its body; `getTransactionDetail signature` is the outcome of the detail request,
an error, no transfer (`nil`) or a transfer. -/
structure SolanaAPI where
  fetch : String → Except String (List SolSignature)
  getTransactionDetail : String → Except String (Option Transaction)

/-- Function `SolanaAPI.GetTxs(addr, from)`: a signature older than `from` or not finalized
is skipped, as is one whose detail request fails; the transfer of the detail is kept, with
the block time of the signature, when its `To` is `addr`. -/
def SolanaAPI.GetTxs (s : SolanaAPI) (addr : String) (since : Int) :
    Except String (List Transaction) :=
  match s.fetch addr with
  | .error e => .error e
  | .ok result =>
    .ok (result.filterMap (fun sig =>
      if decide (sig.BlockTime < since) || decide (sig.ConfirmationStatus ≠ "finalized") then none
      else
        match s.getTransactionDetail sig.Signature with
        | .error _ => none
        | .ok none => none
        | .ok (some tx) =>
          if tx.To = addr then some { tx with Timestamp := sig.BlockTime } else none))

/-- The adapter `SolscanAPI`: `fetch addr` is the outcome of the request and of decoding
its body. -/
structure SolscanAPI where
  fetch : String → Except String (List SplTransfer)

/-- Function `SolscanAPI.GetTxs(addr, from)`: a transfer older than `from` or with another
destination is skipped. -/
def SolscanAPI.GetTxs (sol : SolscanAPI) (addr : String) (since : Int) :
    Except String (List Transaction) :=
  match sol.fetch addr with
  | .error e => .error e
  | .ok data =>
    .ok (data.filterMap (fun transfer =>
      if decide (transfer.BlockTime < since) || decide (transfer.To ≠ addr) then none
      else
        some
          { Hash := transfer.Signature
            From := transfer.From
            To := transfer.To
            Amount := transfer.Amount
            Currency := transfer.TokenSymbol
            BlockNum := 0
            Timestamp := transfer.BlockTime
            Status := "confirmed" }))

/-- The adapter `TONAPI`: `fetch addr` is the outcome of the request and of decoding its
body, an error or the fields `ok` and `result`. -/
structure TONAPI where
  fetch : String → Except String (Bool × List TonTx)

/-- Function `TONAPI.GetTxs(addr, from)`: an error when `ok` is false; a transaction older
than `from` or whose incoming message has another destination is skipped. -/
def TONAPI.GetTxs (t : TONAPI) (lib : decimal.Lib) (addr : String) (since : Int) :
    Except String (List Transaction) :=
  match t.fetch addr with
  | .error e => .error e
  | .ok result =>
    if !result.1 then .error "TON API error"
    else
      .ok (result.2.filterMap (fun tx =>
        if decide (tx.Utime < since) || decide (tx.Destination ≠ addr) then none
        else
          let amount := lib.parse tx.Value
          some
            { Hash := tx.Hash
              From := tx.Source
              To := tx.Destination
              Amount := decimal.Div amount 1000000000
              Currency := "TON"
              BlockNum := 0
              Timestamp := tx.Utime
              Status := "confirmed" }))

/-- The adapter `TonScanAPI`: `fetch addr` is the outcome of the request and of decoding
its body. -/
structure TonScanAPI where
  fetch : String → Except String (List JettonTransfer)

/-- Function `TonScanAPI.GetTxs(addr, from)`: a transfer older than `from` or with another
destination is skipped. -/
def TonScanAPI.GetTxs (t : TonScanAPI) (lib : decimal.Lib) (addr : String) (since : Int) :
    Except String (List Transaction) :=
  match t.fetch addr with
  | .error e => .error e
  | .ok transfers =>
    .ok (transfers.filterMap (fun transfer =>
      if decide (transfer.TransactionTime < since) || decide (transfer.Destination ≠ addr) then none
      else
        let amount := lib.parse transfer.Amount
        some
          { Hash := transfer.TransactionHash
            From := transfer.Source
            To := transfer.Destination
            Amount := decimal.Div amount 1000000
            Currency := transfer.Symbol
            BlockNum := 0
            Timestamp := transfer.TransactionTime
            Status := "confirmed" }))

end payment

namespace service

open database

/-- The source `BinanceRate`: `get url` is the outcome of `client.Get(url)`, a transport
error or a response whose body decodes with an error or to the string `price`. -/
structure BinanceRate where
  get : String → Except String (Except String String)

/-- Function `getCNYToUSDT`: the price of `USDTCNY`; the constant 7.3 without error when
the request fails, the body cannot be decoded or the price is zero. -/
def BinanceRate.getCNYToUSDT (b : BinanceRate) (lib : decimal.Lib) : Except String ℚ :=
  let url := "https://api.binance.com/api/v3/ticker/price?symbol=USDTCNY"
  match b.get url with
  | .error _ => .ok 7.3
  | .ok (.error _) => .ok 7.3
  | .ok (.ok priceStr) =>
    let price := lib.parse priceStr
    if price = 0 then .ok 7.3 else .ok price

/-- Function `BinanceRate.GetRate(from, to)`: `getCNYToUSDT` for the pair CNY, USDT;
otherwise the price of the symbol `to ++ from`, with every failure returned as an error. -/
def BinanceRate.GetRate (b : BinanceRate) (lib : decimal.Lib) (fromCur toCur : String) :
    Except String ℚ :=
  if fromCur = "CNY" ∧ toCur = "USDT" then b.getCNYToUSDT lib
  else
    let symbol := toCur ++ fromCur
    let url := "https://api.binance.com/api/v3/ticker/price?symbol=" ++ symbol
    match b.get url with
    | .error e => .error e
    | .ok (.error e) => .error e
    | .ok (.ok priceStr) =>
      match lib.NewFromString priceStr with
      | .error e => .error e
      | .ok price => .ok price

/-- The source `BinanceRate` as a `RateSource`. -/
def BinanceRate.toSource (b : BinanceRate) (lib : decimal.Lib) : RateSource :=
  { GetRate := fun fromCur toCur => b.GetRate lib fromCur toCur }

/-- The source `CoinGeckoRate`: `get url` is the outcome of `client.Get(url)`, a transport
error or a response whose body decodes with an error or to the map of maps `result`; the
`float64` prices are rationals. -/
structure CoinGeckoRate where
  get : String → Except String (Except String (List (String × List (String × ℚ))))

/-- The map `currencyMap` of `CoinGeckoRate.GetRate`. -/
def CoinGeckoRate.currencyMap : List (String × String) :=
  [("USDT", "tether"), ("USDC", "usd-coin"), ("TRX", "tron"), ("TON", "the-open-network")]

/-- Function `CoinGeckoRate.GetRate(from, to)`: an error for a currency outside
`currencyMap`, for a failed request or an undecodable body, and when the price is missing;
otherwise the price `result[coinID][vsCurrency]` as it is. -/
def CoinGeckoRate.GetRate (c : CoinGeckoRate) (fromCur toCur : String) : Except String ℚ :=
  match CoinGeckoRate.currencyMap.lookup toCur with
  | none => .error ("unsupported currency: " ++ toCur)
  | some coinID =>
    let vsCurrency := if fromCur = "CNY" then "cny" else "usd"
    let url := "https://api.coingecko.com/api/v3/simple/price?ids=" ++ coinID ++
      "&vs_currencies=" ++ vsCurrency
    match c.get url with
    | .error e => .error e
    | .ok (.error e) => .error e
    | .ok (.ok result) =>
      match ((result.lookup coinID).getD []).lookup vsCurrency with
      | some price => .ok price
      | none => .error "price not found"

/-- The source `CoinGeckoRate` as a `RateSource`. -/
def CoinGeckoRate.toSource (c : CoinGeckoRate) : RateSource :=
  { GetRate := fun fromCur toCur => c.GetRate fromCur toCur }

namespace NotificationService

/-- Function `formatPaymentMessage(order)`, with the renderings of `%.2f` (`fmt2`) and of
`time.Unix(t, 0).Format("01-02 15:04:05")` (`fmtTime`) as parameters.  The result is `none`
when the slice `order.TxHash.String[:16]` panics, which it does for a valid hash of fewer
than 16 bytes.  The prefix is the first 16 bytes; for a hash whose 16th byte falls inside
a multi-byte character the Go slice keeps the partial bytes, which a `String` cannot. -/
def formatPaymentMessage (fmt2 : ℚ → String) (fmtTime : Int → String) (order : Order) :
    Option String :=
  let payInfo : String :=
    if order.PayCurrency.isSome && order.PayAmount.isSome then
      fmt2 (order.PayAmount.getD 0) ++ " " ++ order.PayCurrency.getD ""
    else ""
  let txInfo : Option String :=
    match order.TxHash with
    | none => some ""
    | some hash =>
      if hash.utf8ByteSize < 16 then none
      else some ("\n‰∫§ÊòìÂìàÂ∏å: <code>" ++ (hash.extract 0 ⟨16⟩ ++ "...") ++ "</code>")
  match txInfo with
  | none => none
  | some txInfo =>
    some ("üí∞ <b>Êî∂Ê¨æÊàêÂäü</b>\n\nËÆ¢ÂçïÂè∑: <code>" ++ order.ID ++ "</code>\nÈáëÈ¢ù: " ++ fmt2 order.Amount ++ " " ++ order.Currency ++
      "\nÊîØ‰ªò: " ++ payInfo ++ txInfo ++ "\nÊó∂Èó¥: " ++ fmtTime (order.PaidAt.getD 0))

end NotificationService

end service

namespace scenario

open database payment

/-- An order with the given id, settlement amount, status and expiry, at address `TADDR`
on chain `TRON`, for 100 CNY. -/
def mkOrder (id : String) (payAmount : Option ℚ) (status : Option Int) (expireAt : Int) : Order :=
  { ID := id
    Amount := 100
    Currency := "CNY"
    PayCurrency := some "USDT"
    PayAmount := payAmount
    PayAddr := some "TADDR"
    PayChain := some "TRON"
    PayMethod := some "blockchain"
    TxHash := none
    Status := status
    SiteID := none
    Callback := none
    ExpireAt := expireAt
    PaidAt := none
    CreatedAt := 0
    UpdatedAt := 0 }

/-- A transfer of the given hash and amount to `TADDR`. -/
def mkTx (hash : String) (amount : ℚ) : payment.Transaction :=
  { Hash := hash
    From := "TSENDER"
    To := "TADDR"
    Amount := amount
    Currency := "USDT"
    BlockNum := 7
    Timestamp := 900
    Status := "SUCCESS" }

/-- An adapter that reports the given transfers for every address. -/
def apiOf (txs : List payment.Transaction) : ChainAPI :=
  { GetTxs := fun _ _ => .ok txs
    GetTx := fun _ => .error "not found"
    ValidateAddr := fun _ => true }

/-- A registry with the given adapter for chain `TRON` only. -/
def chainsOf (api : ChainAPI) : ChainType → Option ChainAPI :=
  fun c => if c = "TRON" then some api else none

/-- A database holding the given orders and one blockchain payment method. -/
def dbOf (orders : List Order) : DB :=
  { orders := orders
    payments :=
      [{ ID := 1
         Kind := "blockchain"
         Chain := some "TRON"
         Currency := some "USDT"
         Address := some "TADDR"
         ApiKey := none
         ApiSecret := none
         Enabled := some 1
         Config := none
         CreatedAt := 0
         UpdatedAt := 0 }]
    transactions := []
    sites := []
    notifications := [] }

/-- Scenario A and B: the order for 100 CNY at rate 7.2; its settlement amount
`100 / 7.2 = 13.888...` as stored in the `float64` column. -/
def orderA : Order := mkOrder "PAY01" (some 13.88888888888889) (some 0) 2000

/-- A pending order expecting exactly 100. -/
def order100 : Order := mkOrder "PAY02" (some 100) (some 0) 2000

/-- A pending order expecting exactly 101. -/
def order101 : Order := mkOrder "PAY03" (some 101) (some 0) 2000

/-- An order without settlement amount. -/
def orderUnset : Order := mkOrder "PAY04" none (some 0) 2000

/-- A second pending order expecting exactly 100, at the same address as `order100`. -/
def order100b : Order := mkOrder "PAY05" (some 100) (some 0) 2000

/-- Scenario C: an order expecting 100 whose expiry 999 has passed at time 1000 and that
the sweep has set to Expired (2). -/
def orderExpired : Order := mkOrder "PAY06" (some 100) (some 2) 999

/-- An order expecting 100 that is Paid (1) with hash `HPAID` since time 500. -/
def orderPaid : Order :=
  { mkOrder "PAY07" (some 100) (some 1) 2000 with TxHash := some "HPAID", PaidAt := some 500,
                                                   UpdatedAt := 500 }

/-- A rate source with a fixed outcome for every pair. -/
def sourceOf (r : Except String ℚ) : service.RateSource :=
  { GetRate := fun _ _ => r }

/-- A rate service with sources of the given outcomes, an empty cache and the TTL of
`NewRateService`. -/
def ratesOf (outcomes : List (Except String ℚ)) : service.RateService :=
  { sources := outcomes.map sourceOf
    cache := []
    ttl := 5 * time.Minute }

/-- A new order for 100 CNY for which no payment method has been selected. -/
def orderFresh : Order :=
  { ID := "PAY09"
    Amount := 100
    Currency := "CNY"
    PayCurrency := none
    PayAmount := none
    PayAddr := none
    PayChain := none
    PayMethod := none
    TxHash := none
    Status := some 0
    SiteID := none
    Callback := none
    ExpireAt := 2000
    PaidAt := none
    CreatedAt := 0
    UpdatedAt := 0 }

/-- A Paid order of the site `S1`. -/
def orderSite : Order :=
  { mkOrder "PAY08" (some 100) (some 1) 2000 with
    SiteID := some "S1", TxHash := some "HPAID", PaidAt := some 500, UpdatedAt := 500 }

/-- The site `S1` with API key `KEY1` and a callback URL. -/
def site1 : Site :=
  { ID := "S1"
    Name := "shop"
    ApiKey := "KEY1"
    Callback := some "http://shop.example/callback"
    Notify := none
    CreatedAt := 0
    UpdatedAt := 0 }

/-- A pending notification of the given kind for the order `PAY08`, as
`saveFailedNotification` stores it at time 0: retry count 0, next retry at 300. -/
def notifOf (kind : String) : Notification :=
  { ID := 1
    OrderID := "PAY08"
    Kind := kind
    Target := "http://shop.example/callback"
    Content := "status 500"
    Status := 0
    RetryCount := 0
    NextRetry := some 300
    CreatedAt := 0
    SentAt := none }

/-- A database with the order `PAY08`, the site `S1` and the given notifications. -/
def dbNotif (notifications : List Notification) : DB :=
  { orders := [orderSite]
    payments := []
    transactions := []
    sites := [site1]
    notifications := notifications }

/-- An HTTP client whose every request is answered with the given outcome. -/
def clientOf (outcome : Except String Nat) : service.HTTPClient :=
  { NewRequestOk := fun _ => true
    Do := fun _ => outcome }

/-- Successive runs of `ProcessPendingNotifications` at the given times, with the same
client. -/
def processAt (client : service.HTTPClient) (times : List Int) (db : DB) : DB :=
  times.foldl
    (fun st t => service.NotificationService.ProcessPendingNotifications service.dbQuerier client st t)
    db

/-- An adapter whose lookup fails for the address `bad` and reports the given transfers for
every other address. -/
def apiFailAt (bad : String) (txs : List payment.Transaction) : ChainAPI :=
  { GetTxs := fun addr _ => if addr = bad then .error "upstream unavailable" else .ok txs
    GetTx := fun _ => .error "not found"
    ValidateAddr := fun _ => true }

/-- A pending order expecting exactly 100 at the address `TOTHER`. -/
def order100other : Order :=
  { mkOrder "PAY10" (some 100) (some 0) 2000 with PayAddr := some "TOTHER" }

/-- A decimal library that reads the strings `0`, `1`, `6`, `7.25` and `100000000` and
rejects every other one, with exact powers of ten for natural exponents. -/
def libOf : decimal.Lib :=
  { NewFromString := fun s =>
      if s = "0" then .ok 0
      else if s = "1" then .ok 1
      else if s = "6" then .ok 6
      else if s = "7.25" then .ok 7.25
      else if s = "100000000" then .ok 100000000
      else .error ("not a decimal: " ++ s)
    Pow := fun b e => b ^ (decimal.IntPart e).toNat }

/-- A TronGrid entry: 100 USDT sent from the polled address `TADDR` to `TOTHER`. -/
def tronOutgoing : payment.TronTransfer :=
  { TransactionID := "HOUT"
    From := "TADDR"
    To := "TOTHER"
    Value := "100000000"
    Symbol := "USDT"
    Decimals := 6
    BlockTimestamp := 900000 }

/-- A `tokentx` entry: 100 USDT sent from the polled address `TADDR` to `TOTHER`. -/
def tokenOutgoing : payment.TokenTx :=
  { Hash := "HOUT"
    From := "TADDR"
    To := "TOTHER"
    Value := "100000000"
    TokenSymbol := "USDT"
    TokenDecimal := "6"
    TimeStamp := "1"
    BlockNumber := "1" }

/-- A Binance client whose every request is answered with the given outcome. -/
def binanceOf (outcome : Except String (Except String String)) : service.BinanceRate :=
  { get := fun _ => outcome }

/-- A CoinGecko client whose every request is answered with the given outcome. -/
def coinGeckoOf (outcome : Except String (Except String (List (String × List (String × ℚ))))) :
    service.CoinGeckoRate :=
  { get := fun _ => outcome }

/-- A new order for 100 USD for which no payment method has been selected. -/
def orderUSD : Order := { orderFresh with ID := "PAY11", Currency := "USD" }

/-- The Paid order `PAY07` with the empty string as transaction hash. -/
def orderEmptyHash : Order := { orderPaid with TxHash := some "" }

/-- The Paid order `PAY07` with a transaction hash of 5 bytes. -/
def orderShortHash : Order := { orderPaid with TxHash := some "HPAID" }

/-- The default sources with a Binance client that reports the price `0` and a CoinGecko
client whose request fails. -/
def ratesBinanceZero : service.RateService :=
  service.NewRateService ((binanceOf (.ok (.ok "0"))).toSource libOf)
    (coinGeckoOf (.error "timeout")).toSource

/-- The default sources with a Binance client whose request fails and a CoinGecko client
that reports the price 0 for `tether` in `usd`. -/
def ratesCoinGeckoZero : service.RateService :=
  service.NewRateService ((binanceOf (.error "timeout")).toSource libOf)
    (coinGeckoOf (.ok (.ok [("tether", [("usd", 0)])]))).toSource

end scenario

namespace payment.APIScheduler

open database

theorem confirmOrder_eq (db : DB) (now : Int) (order : Order) (tx : Transaction) :
    confirmOrder db now order tx =
      { orders := db.orders.map (fun o => if o.ID = order.ID then setStatus now 1 tx.Hash o else o)
        payments := db.payments
        sites := db.sites
        notifications := db.notifications
        transactions := db.transactions ++
          [{ ID := (db.transactions.length : Int) + 1
             OrderID := order.ID
             Chain := order.PayChain.getD ""
             TxHash := tx.Hash
             FromAddr := tx.From
             ToAddr := tx.To
             Amount := tx.Amount
             Currency := tx.Currency
             BlockNum := some tx.BlockNum
             Confirmed := some 1
             RawData := none
             CreatedAt := now }] } := by
  simp [confirmOrder, DB.UpdateOrderStatus, DB.CreateTransaction]

theorem confirmOrder_ne (db : DB) (now : Int) (order : Order) (tx : Transaction) :
    confirmOrder db now order tx ≠ db := by
  intro h
  have h2 := congrArg (fun d => d.transactions.length) h
  simp [confirmOrder_eq] at h2

theorem tol_iff (T A : ℚ) : |T - A| ≤ A * 0.01 ↔ |T - A| ≤ 0.01 * A := by
  rw [mul_comm]

theorem matches_some (tx : Transaction) (order : Order) (A : ℚ) (hA : order.PayAmount = some A) :
    Matches tx order ↔ |tx.Amount - A| ≤ 0.01 * A := by
  simp only [Matches, hA]

theorem matches_none (tx : Transaction) (order : Order) (hA : order.PayAmount = none) :
    ¬ Matches tx order := by
  simp only [Matches, hA, not_false_eq_true]

theorem matchTx_cons_hit (db : DB) (now : Int) (tx : Transaction) (order : Order)
    (rest : List Order) (h : Matches tx order) :
    matchTx db now tx (order :: rest) = confirmOrder db now order tx := by
  cases hA : order.PayAmount with
  | none => exact absurd h (matches_none tx order hA)
  | some A =>
    have hle := (tol_iff tx.Amount A).mpr ((matches_some tx order A hA).mp h)
    simp only [matchTx, hA]
    rw [if_pos hle]

theorem matchTx_cons_miss (db : DB) (now : Int) (tx : Transaction) (order : Order)
    (rest : List Order) (h : ¬ Matches tx order) :
    matchTx db now tx (order :: rest) = matchTx db now tx rest := by
  cases hA : order.PayAmount with
  | none => simp only [matchTx, hA]
  | some A =>
    have hnle : ¬ |tx.Amount - A| ≤ A * 0.01 := by
      intro hle
      exact h ((matches_some tx order A hA).mpr ((tol_iff tx.Amount A).mp hle))
    simp only [matchTx, hA]
    rw [if_neg hnle]

theorem matchTx_none (db : DB) (now : Int) (tx : Transaction) (orders : List Order)
    (h : ∀ o ∈ orders, ¬ Matches tx o) : matchTx db now tx orders = db := by
  induction orders with
  | nil => rfl
  | cons o rest ih =>
    rw [matchTx_cons_miss db now tx o rest (h o (List.mem_cons_self _ _))]
    exact ih (fun p hp => h p (List.mem_cons_of_mem _ hp))

theorem matchTx_first (db : DB) (now : Int) (tx : Transaction) (pre : List Order) (o : Order)
    (post : List Order) (hpre : ∀ p ∈ pre, ¬ Matches tx p) (ho : Matches tx o) :
    matchTx db now tx (pre ++ o :: post) = confirmOrder db now o tx := by
  induction pre with
  | nil => exact matchTx_cons_hit db now tx o post ho
  | cons p pre ih =>
    rw [List.cons_append, matchTx_cons_miss db now tx p _ (hpre p (List.mem_cons_self _ _))]
    exact ih (fun q hq => hpre q (List.mem_cons_of_mem _ hq))

theorem matchTx_find (db : DB) (now : Int) (tx : Transaction) (orders : List Order) :
    matchTx db now tx orders =
      match orders.find? (fun o => decide (Matches tx o)) with
      | some o => confirmOrder db now o tx
      | none => db := by
  induction orders with
  | nil => rfl
  | cons a rest ih =>
    by_cases ha : Matches tx a
    · rw [matchTx_cons_hit db now tx a rest ha]
      simp [List.find?, ha]
    · rw [matchTx_cons_miss db now tx a rest ha, ih]
      simp [List.find?, ha]

theorem matchTx_cases (db : DB) (now : Int) (tx : Transaction) (orders : List Order) :
    ((∀ o ∈ orders, ¬ Matches tx o) ∧ matchTx db now tx orders = db) ∨
    (∃ pre o post, orders = pre ++ o :: post ∧ (∀ p ∈ pre, ¬ Matches tx p) ∧ Matches tx o ∧
      matchTx db now tx orders = confirmOrder db now o tx) := by
  induction orders with
  | nil => exact Or.inl ⟨fun o ho => absurd ho (List.not_mem_nil o), rfl⟩
  | cons a rest ih =>
    by_cases ha : Matches tx a
    · exact Or.inr ⟨[], a, rest, rfl, fun p hp => absurd hp (List.not_mem_nil p), ha,
        matchTx_cons_hit db now tx a rest ha⟩
    · rcases ih with ⟨hnone, _⟩ | ⟨pre, o, post, heq, hpre, ho, _⟩
      · have hall : ∀ o ∈ a :: rest, ¬ Matches tx o := by
          intro o hmem
          rcases List.mem_cons.mp hmem with rfl | hmem
          · exact ha
          · exact hnone o hmem
        exact Or.inl ⟨hall, matchTx_none db now tx _ hall⟩
      · have hpre2 : ∀ p ∈ a :: pre, ¬ Matches tx p := by
          intro p hmem
          rcases List.mem_cons.mp hmem with rfl | hmem
          · exact ha
          · exact hpre p hmem
        refine Or.inr ⟨a :: pre, o, post, by rw [heq, List.cons_append], hpre2, ho, ?_⟩
        rw [heq, ← List.cons_append]
        exact matchTx_first db now tx (a :: pre) o post hpre2 ho

theorem newRecords_confirmOrder (db : DB) (now : Int) (order : Order) (tx : Transaction) :
    (newRecords db (confirmOrder db now order tx)).length = 1 := by
  simp [newRecords, confirmOrder_eq]

end payment.APIScheduler

namespace payment.APIScheduler

open database scenario

theorem getOrder_map_update (l : List Order) (id : String) (f : Order → Order)
    (hf : ∀ o, (f o).ID = o.ID) :
    (l.map (fun o => if o.ID = id then f o else o)).find? (fun o => decide (o.ID = id)) =
      (l.find? (fun o => decide (o.ID = id))).map f := by
  induction l with
  | nil => rfl
  | cons a rest ih =>
    by_cases ha : a.ID = id
    · simp [List.find?, ha, hf]
    · simp [List.find?, ha, ih]

theorem getOrder_confirmOrder (db : DB) (now : Int) (order r : Order) (tx : Transaction)
    (h : db.GetOrder order.ID = .ok r) :
    (confirmOrder db now order tx).GetOrder order.ID = .ok (setStatus now 1 tx.Hash r) := by
  have hfind : db.orders.find? (fun o => decide (o.ID = order.ID)) = some r := by
    unfold DB.GetOrder at h
    cases hf : db.orders.find? (fun o => decide (o.ID = order.ID)) with
    | none => rw [hf] at h; cases h
    | some x => rw [hf] at h; cases h; rfl
  rw [confirmOrder_eq]
  unfold DB.GetOrder
  simp only []
  rw [getOrder_map_update db.orders order.ID (setStatus now 1 tx.Hash) (fun o => rfl), hfind]
  rfl

theorem matches_1389 (h : String) : Matches (mkTx h 13.89) orderA := by
  rw [matches_some _ _ _ rfl]
  simp only [mkTx]
  rw [abs_le]
  constructor <;> norm_num

theorem not_matches_12 (h : String) : ¬ Matches (mkTx h 12.0) orderA := by
  rw [matches_some _ _ _ rfl]
  simp only [mkTx]
  rw [abs_le]
  norm_num

theorem matches_101_100 (h : String) : Matches (mkTx h (1.01 * 100)) order100 := by
  rw [matches_some _ _ _ rfl]
  simp only [mkTx]
  rw [abs_le]
  constructor <;> norm_num

/-- C1: for an order whose settlement amount `A` is set, `matchTx` confirms it (as the
only order, or at the head of a longer list) if and only if `|T - A| ≤ 0.01 * A`, and
otherwise passes on to the rest of the list; an order whose settlement amount is unset is
never confirmed. -/
theorem matchTx_tolerance (db : DB) (now : Int) (tx : Transaction) (order : Order)
    (rest : List Order) :
    (∀ A : ℚ, order.PayAmount = some A →
      (matchTx db now tx [order] = confirmOrder db now order tx ↔ |tx.Amount - A| ≤ 0.01 * A) ∧
      (|tx.Amount - A| ≤ 0.01 * A →
        matchTx db now tx (order :: rest) = confirmOrder db now order tx) ∧
      (¬ |tx.Amount - A| ≤ 0.01 * A →
        matchTx db now tx (order :: rest) = matchTx db now tx rest)) ∧
    (order.PayAmount = none →
      matchTx db now tx [order] = db ∧
      matchTx db now tx (order :: rest) = matchTx db now tx rest) := by
  refine ⟨fun A hA => ⟨⟨fun h => ?_, fun h => ?_⟩, fun h => ?_, fun h => ?_⟩, fun hA => ⟨?_, ?_⟩⟩
  · by_contra hn
    have hm : ¬ Matches tx order := fun hm => hn ((matches_some tx order A hA).mp hm)
    rw [matchTx_cons_miss db now tx order [] hm] at h
    exact confirmOrder_ne db now order tx h.symm
  · exact matchTx_cons_hit db now tx order [] ((matches_some tx order A hA).mpr h)
  · exact matchTx_cons_hit db now tx order rest ((matches_some tx order A hA).mpr h)
  · exact matchTx_cons_miss db now tx order rest
      (fun hm => h ((matches_some tx order A hA).mp hm))
  · exact matchTx_cons_miss db now tx order [] (matches_none tx order hA)
  · exact matchTx_cons_miss db now tx order rest (matches_none tx order hA)

/-- Witness of `matchTx_tolerance`: the order of 13.888... is confirmed by a transfer of
13.89, also at the head of a longer list; it is passed over by a transfer of 12.0; and an
order without settlement amount is not confirmed. -/
theorem matchTx_tolerance_witness :
    (matchTx (dbOf [orderA]) 1000 (mkTx "H1" 13.89) [orderA] =
        confirmOrder (dbOf [orderA]) 1000 orderA (mkTx "H1" 13.89) ↔
      |(mkTx "H1" 13.89).Amount - 13.88888888888889| ≤ 0.01 * 13.88888888888889) ∧
    matchTx (dbOf [orderA]) 1000 (mkTx "H1" 13.89) [orderA, order100] =
      confirmOrder (dbOf [orderA]) 1000 orderA (mkTx "H1" 13.89) ∧
    matchTx (dbOf [orderA]) 1000 (mkTx "H2" 12.0) [orderA, order100] =
      matchTx (dbOf [orderA]) 1000 (mkTx "H2" 12.0) [order100] ∧
    matchTx (dbOf [orderUnset]) 1000 (mkTx "H1" 13.89) [orderUnset] = dbOf [orderUnset] :=
  ⟨((matchTx_tolerance (dbOf [orderA]) 1000 (mkTx "H1" 13.89) orderA []).1
      13.88888888888889 rfl).1,
    ((matchTx_tolerance (dbOf [orderA]) 1000 (mkTx "H1" 13.89) orderA [order100]).1
      13.88888888888889 rfl).2.1 ((matches_some _ _ _ rfl).mp (matches_1389 "H1")),
    ((matchTx_tolerance (dbOf [orderA]) 1000 (mkTx "H2" 12.0) orderA [order100]).1
      13.88888888888889 rfl).2.2
      (fun h => not_matches_12 "H2" ((matches_some _ orderA _ rfl).mpr h)),
    ((matchTx_tolerance (dbOf [orderUnset]) 1000 (mkTx "H1" 13.89) orderUnset []).2 rfl).1⟩

/-- C2 fails as stated: with settlement amount 100 a transfer of exactly `1.01 * 100 = 101`
is confirmed by `matchTx` (the comparison is `≤`), and the database changes. -/
theorem matchTx_boundary_counterexample :
    (0 : ℚ) < 100 ∧ order100.PayAmount = some 100 ∧
    matchTx (dbOf [order100]) 1000 (mkTx "H1" (1.01 * 100)) [order100] =
      confirmOrder (dbOf [order100]) 1000 order100 (mkTx "H1" (1.01 * 100)) ∧
    matchTx (dbOf [order100]) 1000 (mkTx "H1" (1.01 * 100)) [order100] ≠ dbOf [order100] ∧
    (matchTx (dbOf [order100]) 1000 (mkTx "H1" (1.01 * 100)) [order100]).GetOrder "PAY02" =
      .ok (setStatus 1000 1 "H1" order100) := by
  have hm := matchTx_cons_hit (dbOf [order100]) 1000 (mkTx "H1" (1.01 * 100)) order100 []
    (matches_101_100 "H1")
  refine ⟨by norm_num, rfl, hm, ?_, ?_⟩
  · rw [hm]
    exact confirmOrder_ne _ _ _ _
  · rw [hm]
    exact getOrder_confirmOrder (dbOf [order100]) 1000 order100 order100 _ rfl

/-- C2 (amended): for a positive settlement amount `A`, a transfer of exactly `1.00 * A`
is confirmed, a transfer of exactly `1.01 * A` is confirmed as well (the bound is
inclusive), and a transfer of more than `1.01 * A` is not. -/
theorem matchTx_boundary (db : DB) (now : Int) (tx : Transaction) (order : Order)
    (rest : List Order) (A : ℚ) (hA : 0 < A) (hp : order.PayAmount = some A) :
    (tx.Amount = 1.00 * A → matchTx db now tx (order :: rest) = confirmOrder db now order tx) ∧
    (tx.Amount = 1.01 * A → matchTx db now tx (order :: rest) = confirmOrder db now order tx) ∧
    (tx.Amount > 1.01 * A → matchTx db now tx (order :: rest) = matchTx db now tx rest) := by
  refine ⟨fun hT => ?_, fun hT => ?_, fun hT => ?_⟩
  · apply matchTx_cons_hit
    rw [matches_some tx order A hp, hT, abs_le]
    constructor <;> norm_num <;> linarith
  · apply matchTx_cons_hit
    rw [matches_some tx order A hp, hT, abs_le]
    constructor <;> norm_num <;> linarith
  · apply matchTx_cons_miss
    rw [matches_some tx order A hp, abs_le]
    intro h
    have h2 := h.2
    norm_num at h2 hT
    linarith

/-- Witness of `matchTx_boundary` at `A = 100`: the transfer of exactly 100 is confirmed. -/
theorem matchTx_boundary_witness :
    (0 : ℚ) < 100 ∧
    matchTx (dbOf [order100]) 1000 (mkTx "H1" (1.00 * 100)) [order100] =
      confirmOrder (dbOf [order100]) 1000 order100 (mkTx "H1" (1.00 * 100)) :=
  ⟨by norm_num,
    (matchTx_boundary (dbOf [order100]) 1000 (mkTx "H1" (1.00 * 100)) order100 [] 100
      (by norm_num) rfl).1 rfl⟩

end payment.APIScheduler

namespace payment.APIScheduler

open database scenario

theorem matches_101_101 (h : String) : Matches (mkTx h 101) order101 := by
  rw [matches_some _ _ _ rfl]
  simp only [mkTx]
  rw [abs_le]
  constructor <;> norm_num

theorem matches_101_100b (h : String) : Matches (mkTx h 101) order100 := by
  rw [matches_some _ _ _ rfl]
  simp only [mkTx]
  rw [abs_le]
  constructor <;> norm_num

/-- C3: `matchTx` either finds no order within tolerance and leaves the database as it is,
or confirms exactly the first order of the list that is within tolerance; in both cases at
most one confirmation is recorded.  First match, not closest: against the orders expecting
100 and 101, in this order, a transfer of 101 confirms the order expecting 100. -/
theorem matchTx_first_match (db : DB) (now : Int) (tx : Transaction) (orders : List Order) :
    (((∀ o ∈ orders, ¬ Matches tx o) ∧ matchTx db now tx orders = db) ∨
      (∃ pre o post, orders = pre ++ o :: post ∧ (∀ p ∈ pre, ¬ Matches tx p) ∧ Matches tx o ∧
        matchTx db now tx orders = confirmOrder db now o tx)) ∧
    (newRecords db (matchTx db now tx orders)).length ≤ 1 ∧
    (Matches (mkTx "H1" 101) order101 ∧
      matchTx db now (mkTx "H1" 101) [order100, order101] =
        confirmOrder db now order100 (mkTx "H1" 101)) := by
  refine ⟨matchTx_cases db now tx orders, ?_, matches_101_101 "H1",
    matchTx_cons_hit db now _ order100 [order101] (matches_101_100b "H1")⟩
  rcases matchTx_cases db now tx orders with ⟨_, h⟩ | ⟨_, o, _, _, _, _, h⟩
  · rw [h]
    simp [newRecords]
  · rw [h, newRecords_confirmOrder]

/-- Witness of `matchTx_first_match`: with the two orders expecting 100 and 101 the
database changes, so the second alternative holds there. -/
theorem matchTx_first_match_witness :
    ∃ pre o post, [order100, order101] = pre ++ o :: post ∧
      (∀ p ∈ pre, ¬ Matches (mkTx "H1" 101) p) ∧ Matches (mkTx "H1" 101) o ∧
      matchTx (dbOf [order100, order101]) 1000 (mkTx "H1" 101) [order100, order101] =
        confirmOrder (dbOf [order100, order101]) 1000 o (mkTx "H1" 101) := by
  rcases (matchTx_first_match (dbOf [order100, order101]) 1000 (mkTx "H1" 101)
    [order100, order101]).1 with ⟨hnone, _⟩ | h
  · exact absurd (matches_101_100b "H1") (hnone order100 (List.mem_cons_self _ _))
  · exact h

/-- C9: when `o` is the first order within tolerance of the transfer, `matchTx` performs
the status update `(o.ID, 1, tx.Hash)` and the stored order then reads status 1 (Paid) with
the hash of that transfer and `paid_at = now`.  Scenario A: the order of
`100 / 7.2 = 13.888...` and a transfer of 13.89 with hash `HASH1389`. -/
theorem matchTx_confirms_paid :
    (∀ (db : DB) (now : Int) (tx : Transaction) (pre : List Order) (o : Order)
      (post : List Order) (r : Order),
      (∀ p ∈ pre, ¬ Matches tx p) → Matches tx o → db.GetOrder o.ID = .ok r →
      (∃ d, db.UpdateOrderStatus now o.ID 1 tx.Hash = .ok d ∧
        (matchTx db now tx (pre ++ o :: post)).orders = d.orders) ∧
      (matchTx db now tx (pre ++ o :: post)).GetOrder o.ID =
        .ok { r with Status := some 1, TxHash := some tx.Hash, PaidAt := some now,
                     UpdatedAt := now }) ∧
    (matchTx (dbOf [orderA]) 1000 (mkTx "HASH1389" 13.89) [orderA]).GetOrder "PAY01" =
      .ok { orderA with Status := some 1, TxHash := some "HASH1389", PaidAt := some 1000,
                        UpdatedAt := 1000 } := by
  refine ⟨fun db now tx pre o post r hpre ho hr => ⟨⟨_, rfl, ?_⟩, ?_⟩, ?_⟩
  · rw [matchTx_first db now tx pre o post hpre ho, confirmOrder_eq]
  · rw [matchTx_first db now tx pre o post hpre ho]
    exact getOrder_confirmOrder db now o r tx hr
  · rw [matchTx_cons_hit _ _ _ orderA [] (matches_1389 "HASH1389")]
    exact getOrder_confirmOrder (dbOf [orderA]) 1000 orderA orderA _ rfl

/-- Witness of `matchTx_confirms_paid`: the general part applied to scenario A. -/
theorem matchTx_confirms_paid_witness :
    Matches (mkTx "HASH1389" 13.89) orderA ∧
    (dbOf [orderA]).GetOrder orderA.ID = .ok orderA ∧
    ((matchTx (dbOf [orderA]) 1000 (mkTx "HASH1389" 13.89) ([] ++ orderA :: [])).GetOrder
        orderA.ID).toOption.bind (fun o => o.Status) = some 1 := by
  refine ⟨matches_1389 _, rfl, ?_⟩
  rw [(matchTx_confirms_paid.1 (dbOf [orderA]) 1000 (mkTx "HASH1389" 13.89) [] orderA []
    orderA (fun p hp => absurd hp (List.not_mem_nil p)) (matches_1389 _) rfl).2]
  rfl

/-- C10: when no order of the group is within tolerance of the transfer, `matchTx` returns
the database unchanged: no status update, no transaction record, every order as before.
Scenario B: a transfer of 12.0 against the settlement amount 13.888... leaves the order
Pending. -/
theorem matchTx_unmatched_unchanged :
    (∀ (db : DB) (now : Int) (tx : Transaction) (orders : List Order),
      (∀ o ∈ orders, ¬ Matches tx o) →
      matchTx db now tx orders = db ∧ newRecords db (matchTx db now tx orders) = []) ∧
    (¬ Matches (mkTx "HASH12" 12.0) orderA ∧
      matchTx (dbOf [orderA]) 1000 (mkTx "HASH12" 12.0) [orderA] = dbOf [orderA] ∧
      (matchTx (dbOf [orderA]) 1000 (mkTx "HASH12" 12.0) [orderA]).GetOrder "PAY01" =
        .ok orderA ∧
      orderA.Status = some 0) := by
  have hB : ∀ o ∈ [orderA], ¬ Matches (mkTx "HASH12" 12.0) o := by
    intro o ho
    rw [List.mem_singleton.mp ho]
    exact not_matches_12 _
  refine ⟨fun db now tx orders h => ?_, not_matches_12 _, matchTx_none _ _ _ _ hB, ?_, rfl⟩
  · rw [matchTx_none db now tx orders h]
    exact ⟨rfl, by simp [newRecords]⟩
  · rw [matchTx_none _ _ _ _ hB]
    rfl

/-- Witness of `matchTx_unmatched_unchanged`: the general part applied to scenario B. -/
theorem matchTx_unmatched_unchanged_witness :
    (∀ o ∈ [orderA], ¬ Matches (mkTx "HASH12" 12.0) o) ∧
    matchTx (dbOf [orderA]) 1000 (mkTx "HASH12" 12.0) [orderA] = dbOf [orderA] := by
  have hB : ∀ o ∈ [orderA], ¬ Matches (mkTx "HASH12" 12.0) o := by
    intro o ho
    rw [List.mem_singleton.mp ho]
    exact not_matches_12 _
  exact ⟨hB, (matchTx_unmatched_unchanged.1 (dbOf [orderA]) 1000 (mkTx "HASH12" 12.0)
    [orderA] hB).1⟩

end payment.APIScheduler

namespace payment.APIScheduler

open database scenario

theorem confirmOrder_transactions (db : DB) (now : Int) (order : Order) (tx : Transaction) :
    ∃ r : database.Transaction,
      (confirmOrder db now order tx).transactions = db.transactions ++ [r] ∧
      r.OrderID = order.ID ∧ r.TxHash = tx.Hash := by
  rw [confirmOrder_eq]
  exact ⟨_, rfl, rfl, rfl⟩

theorem foldl_matchTx_records (now : Int) (orders : List Order) (txs : List Transaction) :
    ∀ db : DB, ∃ added : List database.Transaction,
      (txs.foldl (fun d tx => matchTx d now tx orders) db).transactions =
        db.transactions ++ added ∧
      added.map (fun r => (r.OrderID, r.TxHash)) =
        txs.filterMap (fun tx =>
          (orders.find? (fun o => decide (Matches tx o))).map (fun o => (o.ID, tx.Hash))) := by
  induction txs with
  | nil => exact fun db => ⟨[], by simp, rfl⟩
  | cons tx rest ih =>
    intro db
    obtain ⟨added, h1, h2⟩ := ih (matchTx db now tx orders)
    rw [List.foldl_cons, h1, matchTx_find]
    cases hf : orders.find? (fun o => decide (Matches tx o)) with
    | none =>
      refine ⟨added, rfl, ?_⟩
      rw [h2]
      simp [List.filterMap_cons, hf]
    | some o =>
      obtain ⟨r, hr, hid, hhash⟩ := confirmOrder_transactions db now o tx
      refine ⟨r :: added, ?_, ?_⟩
      · simp only [hr, List.append_assoc, List.singleton_append]
      · rw [List.map_cons, h2, hid, hhash]
        simp [List.filterMap_cons, hf]

theorem checkAddress_records (db : DB) (now : Int) (api : ChainAPI) (addr : String)
    (orders : List Order) (txs : List Transaction)
    (h : api.GetTxs addr (now - 24 * 3600) = .ok txs) :
    (newRecords db (checkAddress db now api addr orders)).map (fun r => (r.OrderID, r.TxHash)) =
      txs.filterMap (fun tx =>
        (orders.find? (fun o => decide (Matches tx o))).map (fun o => (o.ID, tx.Hash))) := by
  obtain ⟨added, h1, h2⟩ := foldl_matchTx_records now orders txs db
  simp only [checkAddress, h, newRecords]
  rw [h1, List.drop_left, h2]

theorem matches_100_100 (h : String) : Matches (mkTx h 100) order100 := by
  rw [matches_some _ _ _ rfl]
  simp only [mkTx]
  rw [abs_le]
  constructor <;> norm_num

/-- C4 fails as stated: in one `checkAddress` call with two transfers of 100 (hashes `H1`,
`H2`) and the single order expecting 100, the order is confirmed by both transfers: two
confirmations are recorded for it and the stored hash is that of the second transfer. -/
theorem checkAddress_reconfirm_counterexample :
    (newRecords (dbOf [order100])
        (checkAddress (dbOf [order100]) 1000 (apiOf [mkTx "H1" 100, mkTx "H2" 100]) "TADDR"
          [order100])).map (fun r => (r.OrderID, r.TxHash)) =
      [("PAY02", "H1"), ("PAY02", "H2")] ∧
    (checkAddress (dbOf [order100]) 1000 (apiOf [mkTx "H1" 100, mkTx "H2" 100]) "TADDR"
        [order100]).GetOrder "PAY02" = .ok (setStatus 1000 1 "H2" order100) := by
  have hf : ∀ h : String,
      [order100].find? (fun o => decide (Matches (mkTx h 100) o)) = some order100 := by
    intro h
    simp [List.find?, matches_100_100]
  constructor
  · rw [checkAddress_records _ _ _ _ _ [mkTx "H1" 100, mkTx "H2" 100] rfl]
    simp only [List.filterMap_cons, List.filterMap_nil, hf, Option.map_some']
    rfl
  · simp only [checkAddress, apiOf, List.foldl_cons, List.foldl_nil]
    rw [matchTx_cons_hit _ _ _ order100 [] (matches_100_100 "H1"),
      matchTx_cons_hit _ _ _ order100 [] (matches_100_100 "H2")]
    rfl

/-- C4 (amended): in one `checkAddress` call every transfer is matched against the same,
full order list.  The confirmations recorded in the cycle are, transfer by transfer in the
order returned, the first order within tolerance of that transfer (none if there is none):
each transfer confirms at most one order, and there are at most as many confirmations as
transfers; a matched order stays in the list for the following transfers. -/
theorem checkAddress_confirmations (db : DB) (now : Int) (api : ChainAPI) (addr : String)
    (orders : List Order) (txs : List Transaction)
    (h : api.GetTxs addr (now - 24 * 3600) = .ok txs) :
    checkAddress db now api addr orders = txs.foldl (fun d tx => matchTx d now tx orders) db ∧
    (newRecords db (checkAddress db now api addr orders)).map (fun r => (r.OrderID, r.TxHash)) =
      txs.filterMap (fun tx =>
        (orders.find? (fun o => decide (Matches tx o))).map (fun o => (o.ID, tx.Hash))) ∧
    (newRecords db (checkAddress db now api addr orders)).length ≤ txs.length := by
  have hrec := checkAddress_records db now api addr orders txs h
  refine ⟨by simp only [checkAddress, h], hrec, ?_⟩
  have hlen := congrArg List.length hrec
  rw [List.length_map] at hlen
  rw [hlen]
  exact List.length_filterMap_le _ _

/-- Witness of `checkAddress_confirmations`: two transfers of 100 against the orders
expecting 100 and 101 record two confirmations, both of the first order. -/
theorem checkAddress_confirmations_witness :
    (apiOf [mkTx "H1" 100, mkTx "H2" 100]).GetTxs "TADDR" (1000 - 24 * 3600) =
      .ok [mkTx "H1" 100, mkTx "H2" 100] ∧
    (newRecords (dbOf [order100, order101])
        (checkAddress (dbOf [order100, order101]) 1000 (apiOf [mkTx "H1" 100, mkTx "H2" 100])
          "TADDR" [order100, order101])).length ≤ 2 :=
  ⟨rfl, (checkAddress_confirmations (dbOf [order100, order101]) 1000
    (apiOf [mkTx "H1" 100, mkTx "H2" 100]) "TADDR" [order100, order101]
    [mkTx "H1" 100, mkTx "H2" 100] rfl).2.2⟩

end payment.APIScheduler

namespace payment.APIScheduler

open database scenario

theorem touches_refl (P : String → Prop) (db : DB) : Touches P db db :=
  ⟨rfl, fun _ ho _ => ho, fun _ h => h, rfl, [], by simp,
    fun r hr => absurd hr (List.not_mem_nil r)⟩

theorem touches_trans {P : String → Prop} {a b c : DB} (h1 : Touches P a b)
    (h2 : Touches P b c) : Touches P a c := by
  obtain ⟨i1, f1, s1, p1, add1, t1, r1⟩ := h1
  obtain ⟨i2, f2, s2, p2, add2, t2, r2⟩ := h2
  refine ⟨i2.trans i1, fun o ho hP => f2 o (f1 o ho hP) hP, fun id h => s2 id (s1 id h),
    p2.trans p1, add1 ++ add2, by rw [t2, t1, List.append_assoc], ?_⟩
  intro r hr
  rcases List.mem_append.mp hr with h | h
  · exact ⟨(r1 r h).1, s2 r.OrderID (r1 r h).2⟩
  · exact r2 r h

theorem touches_mono {P Q : String → Prop} {a b : DB} (hPQ : ∀ id, P id → Q id)
    (h : Touches P a b) : Touches Q a b := by
  obtain ⟨i1, f1, s1, p1, add1, t1, r1⟩ := h
  exact ⟨i1, fun o ho hQ => f1 o ho (fun hP => hQ (hPQ _ hP)), s1, p1, add1, t1,
    fun r hr => ⟨hPQ _ (r1 r hr).1, (r1 r hr).2⟩⟩

theorem touches_confirmOrder (P : String → Prop) (db : DB) (now : Int) (order : Order)
    (tx : Transaction) (hP : P order.ID) : Touches P db (confirmOrder db now order tx) := by
  rw [confirmOrder_eq]
  refine ⟨?_, ?_, ?_, rfl, _, rfl, ?_⟩
  · simp only [List.map_map]
    apply List.map_congr_left
    intro o _
    simp only [Function.comp]
    split_ifs <;> rfl
  · intro o ho hnP
    have hne : o.ID ≠ order.ID := fun h => hnP (h ▸ hP)
    simp only [List.mem_map]
    exact ⟨o, ho, by rw [if_neg hne]⟩
  · intro id h o ho hid
    simp only [List.mem_map] at ho
    obtain ⟨o0, ho0, rfl⟩ := ho
    by_cases hc : o0.ID = order.ID
    · rw [if_pos hc]
      rfl
    · rw [if_neg hc] at hid ⊢
      exact h o0 ho0 hid
  · intro r hr
    rw [List.mem_singleton] at hr
    subst hr
    refine ⟨hP, ?_⟩
    intro o ho hid
    simp only [List.mem_map] at ho
    obtain ⟨o0, ho0, rfl⟩ := ho
    by_cases hc : o0.ID = order.ID
    · rw [if_pos hc]
      rfl
    · rw [if_neg hc] at hid
      exact absurd hid hc

theorem touches_matchTx (P : String → Prop) (db : DB) (now : Int) (tx : Transaction)
    (orders : List Order) (hP : ∀ o ∈ orders, P o.ID) :
    Touches P db (matchTx db now tx orders) := by
  rcases matchTx_cases db now tx orders with ⟨_, h⟩ | ⟨pre, o, post, heq, _, _, h⟩
  · rw [h]
    exact touches_refl P db
  · rw [h]
    apply touches_confirmOrder
    apply hP
    rw [heq]
    simp

theorem touches_foldl {α : Type} (P : String → Prop) (f : DB → α → DB) (l : List α)
    (h : ∀ d, ∀ a ∈ l, Touches P d (f d a)) : ∀ db, Touches P db (l.foldl f db) := by
  induction l with
  | nil => exact fun db => touches_refl P db
  | cons a rest ih =>
    intro db
    rw [List.foldl_cons]
    exact touches_trans (h db a (List.mem_cons_self _ _))
      (ih (fun d x hx => h d x (List.mem_cons_of_mem _ hx)) (f db a))

theorem touches_checkAddress (P : String → Prop) (db : DB) (now : Int) (api : ChainAPI)
    (addr : String) (orders : List Order) (hP : ∀ o ∈ orders, P o.ID) :
    Touches P db (checkAddress db now api addr orders) := by
  cases hg : api.GetTxs addr (now - 24 * 3600) with
  | error e =>
    simp only [checkAddress, hg]
    exact touches_refl P db
  | ok txs =>
    simp only [checkAddress, hg]
    exact touches_foldl P _ txs (fun d tx _ => touches_matchTx P d now tx orders hP) db

theorem mapAppend_mem (Q : Order → Prop) (k : String) (order : Order) (hq : Q order) :
    ∀ m : List (String × List Order), (∀ g ∈ m, ∀ x ∈ g.2, Q x) →
      ∀ g ∈ mapAppend k order m, ∀ x ∈ g.2, Q x := by
  intro m
  induction m with
  | nil =>
    intro _ g hg x hx
    simp only [mapAppend, List.mem_singleton] at hg
    subst hg
    simp only [List.mem_singleton] at hx
    subst hx
    exact hq
  | cons a rest ih =>
    intro hm g hg x hx
    obtain ⟨k1, os⟩ := a
    simp only [mapAppend] at hg
    split_ifs at hg with hk
    · rcases List.mem_cons.mp hg with rfl | hg
      · rcases List.mem_append.mp hx with hx | hx
        · exact hm (k1, os) (List.mem_cons_self _ _) x hx
        · rw [List.mem_singleton.mp hx]
          exact hq
      · exact hm g (List.mem_cons_of_mem _ hg) x hx
    · rcases List.mem_cons.mp hg with rfl | hg
      · exact hm (k1, os) (List.mem_cons_self _ _) x hx
      · exact ih (fun g2 hg2 => hm g2 (List.mem_cons_of_mem _ hg2)) g hg x hx

theorem foldl_groups_mem (Q : Order → Prop) (sel : Order → Option String) :
    ∀ (orders : List Order) (m : List (String × List Order)),
      (∀ g ∈ m, ∀ x ∈ g.2, Q x) → (∀ o ∈ orders, Q o) →
      ∀ g ∈ orders.foldl (fun m order =>
          match sel order with
          | some k => mapAppend k order m
          | none => m) m,
        ∀ x ∈ g.2, Q x := by
  intro orders
  induction orders with
  | nil => exact fun m hm _ => hm
  | cons a rest ih =>
    intro m hm ho
    rw [List.foldl_cons]
    apply ih
    · cases hs : sel a with
      | none => exact hm
      | some k => exact mapAppend_mem Q k a (ho a (List.mem_cons_self _ _)) m hm
    · exact fun o h => ho o (List.mem_cons_of_mem _ h)

end payment.APIScheduler

namespace payment.APIScheduler

open database scenario

theorem touches_checkChain (P : String → Prop) (chains : ChainType → Option ChainAPI) (db : DB)
    (now : Int) (chain : ChainType) (orders : List Order) (hP : ∀ o ∈ orders, P o.ID) :
    Touches P db (checkChain chains db now chain orders) := by
  cases hc : chains chain with
  | none =>
    simp only [checkChain, hc]
    exact touches_refl P db
  | some api =>
    simp only [checkChain, hc]
    apply touches_foldl
    intro d g hg
    apply touches_checkAddress
    intro o ho
    exact foldl_groups_mem (fun o => P o.ID) (fun o => o.PayAddr) orders []
      (fun g hg => absurd hg (List.not_mem_nil g)) hP g hg o ho

theorem touches_checkAll (chains : ChainType → Option ChainAPI) (db : DB) (now : Int) :
    Touches (fun id => ∃ o ∈ db.orders, (o.Status = some 0 ∧ o.ExpireAt > now) ∧ o.ID = id)
      db (checkAll chains db now) := by
  simp only [checkAll, DB.GetPendingOrders]
  split_ifs with hlen
  · exact touches_refl _ db
  · apply touches_foldl
    intro d g hg
    apply touches_checkChain
    intro o ho
    have hmem := foldl_groups_mem
      (fun o => o ∈ db.orders.filter
        (fun o => decide (o.Status = some 0) && decide (o.ExpireAt > now)))
      (fun o => o.PayChain) _ [] (fun g hg => absurd hg (List.not_mem_nil g))
      (fun o h => h) g hg o ho
    have hmem2 := List.mem_filter.mp hmem
    refine ⟨o, hmem2.1, ?_, rfl⟩
    simpa using hmem2.2

theorem touches_runCycles (cycles : List ((ChainType → Option ChainAPI) × Int)) (db : DB) :
    Touches (fun _ => True) db (runCycles cycles db) := by
  unfold runCycles
  apply touches_foldl
  intro d c _
  exact touches_mono (fun _ _ => trivial) (touches_checkAll c.1 d c.2)

theorem touches_newRecords {P : String → Prop} {a b : DB} (h : Touches P a b) :
    ∀ r ∈ newRecords a b, P r.OrderID ∧ ∀ o ∈ b.orders, o.ID = r.OrderID → o.Status = some 1 := by
  obtain ⟨_, _, _, _, added, t1, r1⟩ := h
  intro r hr
  unfold newRecords at hr
  rw [t1, List.drop_left] at hr
  exact r1 r hr

theorem find_of_nodup (l : List Order) (o : Order) (hnd : (l.map (fun o => o.ID)).Nodup)
    (ho : o ∈ l) : l.find? (fun x => decide (x.ID = o.ID)) = some o := by
  induction l with
  | nil => exact absurd ho (List.not_mem_nil o)
  | cons a rest ih =>
    rw [List.map_cons, List.nodup_cons] at hnd
    rcases List.mem_cons.mp ho with rfl | hmem
    · simp [List.find?]
    · have hne : a.ID ≠ o.ID := by
        intro h
        apply hnd.1
        rw [h]
        exact List.mem_map_of_mem (fun o => o.ID) hmem
      simp [List.find?, hne, ih hnd.2 hmem]

theorem getOrder_of_nodup (db : DB) (o : Order) (hnd : (db.orders.map (fun o => o.ID)).Nodup)
    (ho : o ∈ db.orders) : db.GetOrder o.ID = .ok o := by
  unfold DB.GetOrder
  rw [find_of_nodup db.orders o hnd ho]

end payment.APIScheduler

namespace payment.APIScheduler

open database scenario

theorem newRecords_confirmOrder_eq (db : DB) (now : Int) (order : Order) (tx : Transaction) :
    (newRecords db (confirmOrder db now order tx)).map (fun r => (r.OrderID, r.TxHash)) =
      [(order.ID, tx.Hash)] := by
  simp [newRecords, confirmOrder_eq]

theorem matches_100_100b (h : String) : Matches (mkTx h 100) order100b := by
  rw [matches_some _ _ _ rfl]
  simp only [mkTx]
  rw [abs_le]
  constructor <;> norm_num

theorem cycle1_eval :
    checkAll (chainsOf (apiOf [mkTx "H1" 100])) (dbOf [order100, order100b]) 1000 =
      confirmOrder (dbOf [order100, order100b]) 1000 order100 (mkTx "H1" 100) := by
  have h : checkAll (chainsOf (apiOf [mkTx "H1" 100])) (dbOf [order100, order100b]) 1000 =
      matchTx (dbOf [order100, order100b]) 1000 (mkTx "H1" 100) [order100, order100b] := rfl
  rw [h, matchTx_cons_hit _ _ _ order100 [order100b] (matches_100_100 "H1")]

theorem cycle2_eval :
    checkAll (chainsOf (apiOf [mkTx "H1" 100]))
        (confirmOrder (dbOf [order100, order100b]) 1000 order100 (mkTx "H1" 100)) 1030 =
      confirmOrder (confirmOrder (dbOf [order100, order100b]) 1000 order100 (mkTx "H1" 100))
        1030 order100b (mkTx "H1" 100) := by
  have h : checkAll (chainsOf (apiOf [mkTx "H1" 100]))
        (confirmOrder (dbOf [order100, order100b]) 1000 order100 (mkTx "H1" 100)) 1030 =
      matchTx (confirmOrder (dbOf [order100, order100b]) 1000 order100 (mkTx "H1" 100)) 1030
        (mkTx "H1" 100) [order100b] := rfl
  rw [h, matchTx_cons_hit _ _ _ order100b [] (matches_100_100b "H1")]

/-- C5 fails as stated: two pending orders expecting 100 at the same address and one
transfer of 100 with hash `H1`.  The cycle at time 1000 confirms the first order with `H1`;
the adapter returns the same transfer in the cycle at time 1030, where it confirms the
second order, again with `H1`: one transfer, two orders confirmed. -/
theorem checkAll_same_transfer_counterexample :
    (newRecords (dbOf [order100, order100b])
        (checkAll (chainsOf (apiOf [mkTx "H1" 100])) (dbOf [order100, order100b]) 1000)).map
      (fun r => (r.OrderID, r.TxHash)) = [("PAY02", "H1")] ∧
    (newRecords (checkAll (chainsOf (apiOf [mkTx "H1" 100])) (dbOf [order100, order100b]) 1000)
        (checkAll (chainsOf (apiOf [mkTx "H1" 100]))
          (checkAll (chainsOf (apiOf [mkTx "H1" 100])) (dbOf [order100, order100b]) 1000)
          1030)).map
      (fun r => (r.OrderID, r.TxHash)) = [("PAY05", "H1")] := by
  rw [cycle1_eval, cycle2_eval, newRecords_confirmOrder_eq, newRecords_confirmOrder_eq]
  exact ⟨rfl, rfl⟩

/-- C5 (amended): across any sequence of poll cycles, an order that a transfer confirmed in
one cycle is confirmed by no transfer in any later cycle (it is no longer pending), so a
transfer returned again never confirms the same order twice.  Transfers are not remembered
by hash: the returned transfer is matched afresh against the orders that are still
pending. -/
theorem runCycles_no_reconfirm (c1 c2 : ChainType → Option ChainAPI) (n1 n2 : Int)
    (mid : List ((ChainType → Option ChainAPI) × Int)) (db0 : DB)
    (r1 r2 : database.Transaction)
    (h1 : r1 ∈ newRecords db0 (checkAll c1 db0 n1))
    (h2 : r2 ∈ newRecords (runCycles mid (checkAll c1 db0 n1))
      (checkAll c2 (runCycles mid (checkAll c1 db0 n1)) n2)) :
    r2.OrderID ≠ r1.OrderID ∧
    ∀ o ∈ (runCycles mid (checkAll c1 db0 n1)).orders, o.ID = r1.OrderID → o.Status = some 1 := by
  have hs1 := (touches_newRecords (touches_checkAll c1 db0 n1) r1 h1).2
  have hsm := (touches_runCycles mid (checkAll c1 db0 n1)).2.2.1 r1.OrderID hs1
  obtain ⟨⟨p, hp, ⟨hst, _⟩, hid⟩, _⟩ :=
    touches_newRecords (touches_checkAll c2 (runCycles mid (checkAll c1 db0 n1)) n2) r2 h2
  refine ⟨fun heq => ?_, hsm⟩
  have h1s := hsm p hp (hid.trans heq)
  rw [hst] at h1s
  cases h1s

/-- Witness of `runCycles_no_reconfirm`: in the two cycles of the counterexample the
record of the second cycle is for another order than the record of the first. -/
theorem runCycles_no_reconfirm_witness :
    ∃ r1 r2 : database.Transaction,
      r1 ∈ newRecords (dbOf [order100, order100b])
        (checkAll (chainsOf (apiOf [mkTx "H1" 100])) (dbOf [order100, order100b]) 1000) ∧
      r2 ∈ newRecords
        (runCycles [] (checkAll (chainsOf (apiOf [mkTx "H1" 100])) (dbOf [order100, order100b]) 1000))
        (checkAll (chainsOf (apiOf [mkTx "H1" 100]))
          (runCycles []
            (checkAll (chainsOf (apiOf [mkTx "H1" 100])) (dbOf [order100, order100b]) 1000))
          1030) ∧
      r1.TxHash = r2.TxHash ∧ r2.OrderID ≠ r1.OrderID := by
  obtain ⟨r1, hr1, hh1⟩ := confirmOrder_transactions (dbOf [order100, order100b]) 1000 order100
    (mkTx "H1" 100)
  obtain ⟨r2, hr2, hh2⟩ := confirmOrder_transactions
    (confirmOrder (dbOf [order100, order100b]) 1000 order100 (mkTx "H1" 100)) 1030 order100b
    (mkTx "H1" 100)
  have m1 : r1 ∈ newRecords (dbOf [order100, order100b])
      (checkAll (chainsOf (apiOf [mkTx "H1" 100])) (dbOf [order100, order100b]) 1000) := by
    rw [cycle1_eval]
    unfold newRecords
    rw [hr1, List.drop_left]
    exact List.mem_singleton_self r1
  have m2 : r2 ∈ newRecords
      (runCycles [] (checkAll (chainsOf (apiOf [mkTx "H1" 100])) (dbOf [order100, order100b]) 1000))
      (checkAll (chainsOf (apiOf [mkTx "H1" 100]))
        (runCycles []
          (checkAll (chainsOf (apiOf [mkTx "H1" 100])) (dbOf [order100, order100b]) 1000))
        1030) := by
    simp only [runCycles, List.foldl_nil]
    rw [cycle1_eval, cycle2_eval]
    unfold newRecords
    rw [hr2, List.drop_left]
    exact List.mem_singleton_self r2
  exact ⟨r1, r2, m1, m2, hh1.2.trans hh2.2.symm,
    (runCycles_no_reconfirm _ _ 1000 1030 [] _ r1 r2 m1 m2).1⟩

/-- C8: `GetPendingOrders` returns exactly the stored orders with status 0 (Pending) and
expiry strictly greater than `now`.  With order ids unique (the key of the table), an order
that is expired (`expiry ≤ now`) or not Pending is left by `checkAll` exactly as stored and
no confirmation is recorded for it, whatever transfers the adapters return. -/
theorem checkAll_only_pending (chains : ChainType → Option ChainAPI) (db : DB) (now : Int) :
    (∀ l, db.GetPendingOrders now = .ok l →
      ∀ x, x ∈ l ↔ (x ∈ db.orders ∧ x.Status = some 0 ∧ x.ExpireAt > now)) ∧
    (∀ o ∈ db.orders, (db.orders.map (fun o => o.ID)).Nodup →
      ¬ (o.Status = some 0 ∧ o.ExpireAt > now) →
      (∀ l, db.GetPendingOrders now = .ok l → o ∉ l) ∧
      (checkAll chains db now).GetOrder o.ID = .ok o ∧
      o ∈ (checkAll chains db now).orders ∧
      ∀ r ∈ newRecords db (checkAll chains db now), r.OrderID ≠ o.ID) := by
  have hget : ∀ l, db.GetPendingOrders now = .ok l →
      ∀ x, x ∈ l ↔ (x ∈ db.orders ∧ x.Status = some 0 ∧ x.ExpireAt > now) := by
    intro l hl x
    simp only [DB.GetPendingOrders, Except.ok.injEq] at hl
    rw [← hl, List.mem_filter]
    simp
  refine ⟨hget, fun o ho hnd hnp => ?_⟩
  have hT := touches_checkAll chains db now
  have hnotP : ¬ ∃ p ∈ db.orders, (p.Status = some 0 ∧ p.ExpireAt > now) ∧ p.ID = o.ID := by
    rintro ⟨p, hp, hpend, hid⟩
    have hpo : p = o := List.inj_on_of_nodup_map hnd hp ho hid
    exact hnp (hpo ▸ hpend)
  have hmem : o ∈ (checkAll chains db now).orders := hT.2.1 o ho hnotP
  refine ⟨fun l hl hmem => hnp ((hget l hl o).mp hmem).2, ?_, hmem, ?_⟩
  · exact getOrder_of_nodup _ o (by rw [hT.1]; exact hnd) hmem
  · intro r hr heq
    exact hnotP (heq ▸ (touches_newRecords hT r hr).1)

/-- Witness of `checkAll_only_pending`, scenario C: the order with expiry 999, swept to
Expired, is not confirmed at time 1000 by a transfer of exactly its amount. -/
theorem checkAll_only_pending_witness :
    orderExpired ∈ (dbOf [orderExpired]).orders ∧
    ((dbOf [orderExpired]).orders.map (fun o => o.ID)).Nodup ∧
    ¬ (orderExpired.Status = some 0 ∧ orderExpired.ExpireAt > 1000) ∧
    (checkAll (chainsOf (apiOf [mkTx "H1" 100])) (dbOf [orderExpired]) 1000).GetOrder "PAY06" =
      .ok orderExpired :=
  ⟨List.mem_singleton_self _, by decide, by decide,
    (((checkAll_only_pending (chainsOf (apiOf [mkTx "H1" 100])) (dbOf [orderExpired]) 1000).2
      orderExpired (List.mem_singleton_self _) (by decide) (by decide)).2).1⟩

end payment.APIScheduler

namespace api.Server

open database scenario

/-- C6, evaluated at the failing input: the order `PAY07` is Paid (1) with hash `HPAID`,
paid at 500.  The select-payment request for it with the existing method 1 succeeds, and
afterwards the stored order has status 0 (Pending), an empty hash and `paid_at = 1000`:
the handler writes `UpdateOrderStatus(orderID, 0, "")` whatever the current status is. -/
theorem handleSelectPayment_resets_paid :
    (dbOf [orderPaid]).GetOrder "PAY07" = .ok orderPaid ∧
    orderPaid.Status = some 1 ∧
    ((handleSelectPayment (dbOf [orderPaid]) 1000 "PAY07" (some 1)).2.toOption.map
      (fun resp => resp.currency)) = some (some "USDT") ∧
    (handleSelectPayment (dbOf [orderPaid]) 1000 "PAY07" (some 1)).1.GetOrder "PAY07" =
      .ok { orderPaid with Status := some 0, TxHash := some "", PaidAt := some 1000,
                           UpdatedAt := 1000 } :=
  ⟨rfl, rfl, rfl, rfl⟩

end api.Server

namespace service.OrderService

open database scenario

theorem find_of_getOrder (db : DB) (id : String) (r : Order) (h : db.GetOrder id = .ok r) :
    db.orders.find? (fun o => decide (o.ID = id)) = some r := by
  unfold DB.GetOrder at h
  cases hf : db.orders.find? (fun o => decide (o.ID = id)) with
  | none => rw [hf] at h; cases h
  | some x => rw [hf] at h; cases h; rfl

theorem dbQuerier_update_pending (db : DB) (p : UpdateOrderStatusParams) (r : Order)
    (h : db.GetOrder p.ID = .ok r) (hp : r.Status.getD 0 = 0) :
    dbQuerier.UpdateOrderStatus db p =
        .ok { db with orders := db.orders.map (fun o =>
          if o.ID = p.ID then
            { o with Status := some p.Status, TxHash := p.TxHash, PaidAt := p.PaidAt,
                     UpdatedAt := p.UpdatedAt }
          else o) } ∧
      DB.GetOrder { db with orders := db.orders.map (fun o =>
          if o.ID = p.ID then
            { o with Status := some p.Status, TxHash := p.TxHash, PaidAt := p.PaidAt,
                     UpdatedAt := p.UpdatedAt }
          else o) } p.ID =
        .ok { r with Status := some p.Status, TxHash := p.TxHash,
                     PaidAt := p.PaidAt, UpdatedAt := p.UpdatedAt } := by
  have hfind := find_of_getOrder db p.ID r h
  constructor
  · show updateOrderStatus db p = _
    simp only [updateOrderStatus, hfind, hp, if_true]
  · unfold DB.GetOrder
    simp only []
    rw [payment.APIScheduler.getOrder_map_update db.orders p.ID
      (fun o => { o with Status := some p.Status, TxHash := p.TxHash, PaidAt := p.PaidAt,
                         UpdatedAt := p.UpdatedAt }) (fun o => rfl), hfind]
    rfl

theorem dbQuerier_update_terminal (db : DB) (p : UpdateOrderStatusParams) (r : Order)
    (h : db.GetOrder p.ID = .ok r) (hp : r.Status.getD 0 ≠ 0) :
    dbQuerier.UpdateOrderStatus db p =
      if r.Status.getD 0 = p.Status then .ok db else .error "order not pending" := by
  have hfind := find_of_getOrder db p.ID r h
  show updateOrderStatus db p = _
  simp only [updateOrderStatus, hfind, if_neg hp]

theorem dbQuerier_update_absent (db : DB) (p : UpdateOrderStatusParams)
    (h : db.orders.find? (fun o => decide (o.ID = p.ID)) = none) :
    dbQuerier.UpdateOrderStatus db p = .error "order not found" := by
  show updateOrderStatus db p = _
  simp only [updateOrderStatus, h]

theorem ConfirmOrder_again (db d : DB) (id h1 h2 : String) (n1 n2 : Int)
    (h : ConfirmOrder dbQuerier db n1 id h1 = .ok d) :
    ConfirmOrder dbQuerier d n2 id h2 = .ok d := by
  unfold ConfirmOrder at h ⊢
  cases hf : db.orders.find? (fun o => decide (o.ID = id)) with
  | none =>
    rw [dbQuerier_update_absent db _ hf] at h
    cases h
  | some r =>
    have hg : db.GetOrder id = .ok r := by
      unfold DB.GetOrder
      rw [hf]
    by_cases hp : r.Status.getD 0 = 0
    · obtain ⟨e1, g1⟩ := dbQuerier_update_pending db
        { ID := id, Status := 1, TxHash := some h1, PaidAt := some n1, UpdatedAt := n1 } r hg hp
      rw [e1] at h
      cases h
      rw [dbQuerier_update_terminal _
        { ID := id, Status := 1, TxHash := some h2, PaidAt := some n2, UpdatedAt := n2 } _ g1
        (by simp)]
      simp
    · rw [dbQuerier_update_terminal db
        { ID := id, Status := 1, TxHash := some h1, PaidAt := some n1, UpdatedAt := n1 } r hg hp]
        at h
      by_cases hs : r.Status.getD 0 = 1
      · simp only [hs, if_true] at h
        cases h
        rw [dbQuerier_update_terminal db
          { ID := id, Status := 1, TxHash := some h2, PaidAt := some n2, UpdatedAt := n2 } r hg hp]
        simp only [hs, if_true]
      · simp only [hs, if_false] at h
        cases h

/-- C7: confirmation is idempotent over the store of the specification.  For a stored
Pending order, `ConfirmOrder(id, h1)` at time `n1` succeeds and leaves the order with
status Paid, transaction hash `h1` and paid-at `n1`, and `ConfirmOrder(id, h2)` at time
`n2` then succeeds and changes nothing, so the order keeps status Paid, the hash `h1` and
the paid-at of the first call, for equal and for different hashes.  For every store state
and order id, a `ConfirmOrder` after one that succeeded leaves the store as it is.
`ConfirmOrder` itself is a single `UpdateOrderStatus` call and does not read the order. -/
theorem ConfirmOrder_idempotent (db : DB) (id h1 h2 : String) (n1 n2 : Int) (r : Order)
    (hr : db.GetOrder id = .ok r) (hp : r.Status.getD 0 = 0) :
    (∃ d1,
      ConfirmOrder dbQuerier db n1 id h1 = .ok d1 ∧
      d1.GetOrder id = .ok { r with Status := some 1, TxHash := some h1, PaidAt := some n1,
                                    UpdatedAt := n1 } ∧
      ConfirmOrder dbQuerier d1 n2 id h2 = .ok d1 ∧
      ((ConfirmOrder dbQuerier db n1 id h1).bind
          (fun d => ConfirmOrder dbQuerier d n2 id h2)).bind (fun d => d.GetOrder id) =
        .ok { r with Status := some 1, TxHash := some h1, PaidAt := some n1,
                     UpdatedAt := n1 }) ∧
    (∀ db0 d : DB, ConfirmOrder dbQuerier db0 n1 id h1 = .ok d →
      ConfirmOrder dbQuerier d n2 id h2 = .ok d) ∧
    (∀ (σ : Type) (q : Querier σ) (s : σ) (now : Int) (h : String),
      ConfirmOrder q s now id h =
        q.UpdateOrderStatus s
          { ID := id, Status := 1, TxHash := some h, PaidAt := some now, UpdatedAt := now }) := by
  refine ⟨?_, fun db0 d h => ConfirmOrder_again db0 d id h1 h2 n1 n2 h,
    fun σ q s now h => rfl⟩
  obtain ⟨e1, g1⟩ := dbQuerier_update_pending db
    { ID := id, Status := 1, TxHash := some h1, PaidAt := some n1, UpdatedAt := n1 } r hr hp
  have e1b : ConfirmOrder dbQuerier db n1 id h1 = .ok _ := e1
  have e2 := ConfirmOrder_again db _ id h1 h2 n1 n2 e1b
  refine ⟨_, e1b, g1, e2, ?_⟩
  rw [e1b]
  show (ConfirmOrder dbQuerier _ n2 id h2).bind (fun d => d.GetOrder id) = _
  rw [e2]
  exact g1

/-- Witness of `ConfirmOrder_idempotent` for the Pending order `PAY02`: after
`ConfirmOrder("PAY02", "H1")` at time 1000 and `ConfirmOrder("PAY02", "H2")` at time 1060
the order is Paid with hash `H1` and `paid_at = 1000`. -/
theorem ConfirmOrder_idempotent_witness :
    (dbOf [order100]).GetOrder "PAY02" = .ok order100 ∧
    order100.Status.getD 0 = 0 ∧
    ((ConfirmOrder dbQuerier (dbOf [order100]) 1000 "PAY02" "H1").bind
        (fun d => ConfirmOrder dbQuerier d 1060 "PAY02" "H2")).bind
        (fun d => d.GetOrder "PAY02") =
      .ok { order100 with Status := some 1, TxHash := some "H1", PaidAt := some 1000,
                          UpdatedAt := 1000 } := by
  obtain ⟨_, _, _, _, h⟩ :=
    (ConfirmOrder_idempotent (dbOf [order100]) "PAY02" "H1" "H2" 1000 1060 order100 rfl rfl).1
  exact ⟨rfl, rfl, h⟩

end service.OrderService

namespace payment.APIScheduler

open database scenario

theorem notifications_confirmOrder (db : DB) (now : Int) (order : Order) (tx : Transaction) :
    (confirmOrder db now order tx).notifications = db.notifications := by
  rw [confirmOrder_eq]

theorem notifications_matchTx (db : DB) (now : Int) (tx : Transaction) (orders : List Order) :
    (matchTx db now tx orders).notifications = db.notifications := by
  rcases matchTx_cases db now tx orders with ⟨_, h⟩ | ⟨_, o, _, _, _, _, h⟩
  · rw [h]
  · rw [h, notifications_confirmOrder]

theorem notifications_foldl {α : Type} (f : DB → α → DB) (l : List α)
    (h : ∀ d a, (f d a).notifications = d.notifications) :
    ∀ db, (l.foldl f db).notifications = db.notifications := by
  induction l with
  | nil => exact fun db => rfl
  | cons a rest ih =>
    intro db
    rw [List.foldl_cons, ih, h]

theorem notifications_checkAddress (db : DB) (now : Int) (api : ChainAPI) (addr : String)
    (orders : List Order) :
    (checkAddress db now api addr orders).notifications = db.notifications := by
  cases hg : api.GetTxs addr (now - 24 * 3600) with
  | error e => simp only [checkAddress, hg]
  | ok txs =>
    simp only [checkAddress, hg]
    exact notifications_foldl _ txs (fun d tx => notifications_matchTx d now tx orders) db

theorem notifications_checkChain (chains : ChainType → Option ChainAPI) (db : DB) (now : Int)
    (chain : ChainType) (orders : List Order) :
    (checkChain chains db now chain orders).notifications = db.notifications := by
  cases hc : chains chain with
  | none => simp only [checkChain, hc]
  | some api =>
    simp only [checkChain, hc]
    exact notifications_foldl _ _
      (fun d (g : String × List Order) => notifications_checkAddress d now api g.1 g.2) db

theorem notifications_checkAll (chains : ChainType → Option ChainAPI) (db : DB) (now : Int) :
    (checkAll chains db now).notifications = db.notifications := by
  simp only [checkAll, DB.GetPendingOrders]
  split_ifs
  · rfl
  · exact notifications_foldl _ _
      (fun d (g : String × List Order) => notifications_checkChain chains d now g.1 g.2) db

/-- C11 fails as stated: in scenario A the transfer of 13.89 matches the order `PAY01`,
`confirmOrder` runs and the status update succeeds (the order reads Paid with the hash),
and no notification exists for the order afterwards. -/
theorem matchTx_no_notification_counterexample :
    (matchTx (dbOf [orderA]) 1000 (mkTx "HASH1389" 13.89) [orderA]).GetOrder "PAY01" =
      .ok { orderA with Status := some 1, TxHash := some "HASH1389", PaidAt := some 1000,
                        UpdatedAt := 1000 } ∧
    ¬ ∃ n ∈ (matchTx (dbOf [orderA]) 1000 (mkTx "HASH1389" 13.89) [orderA]).notifications,
        n.OrderID = "PAY01" := by
  constructor
  · rw [matchTx_cons_hit _ _ _ orderA [] (matches_1389 "HASH1389")]
    exact getOrder_confirmOrder (dbOf [orderA]) 1000 orderA orderA _ rfl
  · rw [notifications_matchTx]
    rintro ⟨n, hn, _⟩
    exact absurd hn (List.not_mem_nil n)

/-- C11 (amended): on a match `confirmOrder` performs the status update
`(order.ID, 1, tx.Hash)` and then inserts one transaction record for the order and the
transfer; it creates no notification: `confirmOrder`, `matchTx` and the whole poll cycle
`checkAll` leave the notifications table as it is. -/
theorem confirmOrder_records_no_notification (db : DB) (now : Int) (order : Order)
    (tx : Transaction) :
    (∃ d, db.UpdateOrderStatus now order.ID 1 tx.Hash = .ok d ∧
      (confirmOrder db now order tx).orders = d.orders) ∧
    (newRecords db (confirmOrder db now order tx)).map (fun r => (r.OrderID, r.TxHash)) =
      [(order.ID, tx.Hash)] ∧
    (confirmOrder db now order tx).notifications = db.notifications ∧
    (∀ orders, (matchTx db now tx orders).notifications = db.notifications) ∧
    (∀ chains, (checkAll chains db now).notifications = db.notifications) := by
  refine ⟨⟨_, rfl, ?_⟩, newRecords_confirmOrder_eq db now order tx,
    notifications_confirmOrder db now order tx,
    fun orders => notifications_matchTx db now tx orders,
    fun chains => notifications_checkAll chains db now⟩
  rw [confirmOrder_eq]

end payment.APIScheduler

namespace service.OrderService

open database scenario

theorem SetPaymentMethod_notFound {σ : Type} (q : Querier σ) (rates : RateService) (s : σ)
    (tRate tStore now : Int) (orderID chain currency addr e : String)
    (h : q.GetOrder s orderID = .error e) :
    SetPaymentMethod q rates s tRate tStore now orderID chain currency addr =
      (some (.error ("order not found: " ++ e)), rates) := by
  simp only [SetPaymentMethod, h]

theorem SetPaymentMethod_found {σ : Type} (q : Querier σ) (rates : RateService) (s : σ)
    (tRate tStore now : Int) (orderID chain currency addr : String) (order : Order)
    (h : q.GetOrder s orderID = .ok order)
    (hr : (rates.GetRate tRate tStore order.Currency currency).1 ≠ 0) :
    (SetPaymentMethod q rates s tRate tStore now orderID chain currency addr).1 =
      some ((q.UpdateOrderStatus s
        { ID := orderID
          Status := order.Status.getD 0
          TxHash := none
          PaidAt := none
          UpdatedAt := now }).mapError (fun e => "update order: " ++ e)) := by
  simp only [SetPaymentMethod, h, if_neg hr]
  cases q.UpdateOrderStatus s
    { ID := orderID
      Status := order.Status.getD 0
      TxHash := none
      PaidAt := none
      UpdatedAt := now } <;> rfl

theorem ratesOf_single (v : ℚ) (tRate tStore : Int) (fromCur toCur : String) :
    ((ratesOf [.ok v]).GetRate tRate tStore fromCur toCur).1 = v := rfl

/-- C12 fails as stated: for the order `PAY07`, which is Paid, `SetPaymentMethod` returns
no error: it issues the update call with the order's own status, and returns the answer
of the store, which is a success. -/
theorem SetPaymentMethod_paid_counterexample :
    orderPaid.Status = some 1 ∧
    (SetPaymentMethod dbQuerier (ratesOf [.ok 7.2]) (dbOf [orderPaid]) 0 0 1000 "PAY07"
        "TRON" "USDT" "TADDR").1 = some (.ok (dbOf [orderPaid])) ∧
    (SetPaymentMethod dbQuerier (ratesOf [.ok 7.2]) (dbOf [orderPaid]) 0 0 1000 "PAY07"
        "TRON" "USDT" "TADDR").1 =
      some ((dbQuerier.UpdateOrderStatus (dbOf [orderPaid])
        { ID := "PAY07"
          Status := 1
          TxHash := none
          PaidAt := none
          UpdatedAt := 1000 }).mapError (fun e => "update order: " ++ e)) := by
  have hr : ((ratesOf [.ok 7.2]).GetRate 0 0 orderPaid.Currency "USDT").1 ≠ 0 := by
    rw [ratesOf_single]
    norm_num
  have h := SetPaymentMethod_found dbQuerier (ratesOf [.ok 7.2]) (dbOf [orderPaid]) 0 0 1000
    "PAY07" "TRON" "USDT" "TADDR" orderPaid rfl hr
  exact ⟨rfl, h, h⟩

/-- C12 (amended): `SetPaymentMethod` fails with an error and changes nothing when the
order does not exist.  For an existing order it does not look at the status: whatever the
status is (also Paid, Expired or Failed), with a non-zero rate it issues the
`UpdateOrderStatus` call with the order's own status and the new `updated_at`, and returns
the result of that call. -/
theorem SetPaymentMethod_no_status_check {σ : Type} (q : Querier σ) (rates : RateService)
    (s : σ) (tRate tStore now : Int) (orderID chain currency addr : String) :
    (∀ e, q.GetOrder s orderID = .error e →
      SetPaymentMethod q rates s tRate tStore now orderID chain currency addr =
        (some (.error ("order not found: " ++ e)), rates)) ∧
    (∀ order, q.GetOrder s orderID = .ok order →
      (rates.GetRate tRate tStore order.Currency currency).1 ≠ 0 →
      (SetPaymentMethod q rates s tRate tStore now orderID chain currency addr).1 =
        some ((q.UpdateOrderStatus s
          { ID := orderID
            Status := order.Status.getD 0
            TxHash := none
            PaidAt := none
            UpdatedAt := now }).mapError (fun e => "update order: " ++ e))) :=
  ⟨fun e h => SetPaymentMethod_notFound q rates s tRate tStore now orderID chain currency addr e h,
    fun order h hr =>
      SetPaymentMethod_found q rates s tRate tStore now orderID chain currency addr order h hr⟩

/-- Witness of `SetPaymentMethod_no_status_check`: an unknown order id gives the error and
the unchanged rate service; the Paid order `PAY07` gives the result of the update call. -/
theorem SetPaymentMethod_no_status_check_witness :
    (SetPaymentMethod dbQuerier (ratesOf [.ok 7.2]) (dbOf [orderPaid]) 0 0 1000 "NOPE"
        "TRON" "USDT" "TADDR").1 = some (.error "order not found: 订单不存在") ∧
    (SetPaymentMethod dbQuerier (ratesOf [.ok 7.2]) (dbOf [orderPaid]) 0 0 1000 "PAY07"
        "TRON" "USDT" "TADDR").1 =
      some ((dbQuerier.UpdateOrderStatus (dbOf [orderPaid])
        { ID := "PAY07"
          Status := 1
          TxHash := none
          PaidAt := none
          UpdatedAt := 1000 }).mapError (fun e => "update order: " ++ e)) := by
  constructor
  · rw [(SetPaymentMethod_no_status_check dbQuerier (ratesOf [.ok 7.2]) (dbOf [orderPaid]) 0 0
      1000 "NOPE" "TRON" "USDT" "TADDR").1 "订单不存在" rfl]
    rfl
  · exact (SetPaymentMethod_no_status_check dbQuerier (ratesOf [.ok 7.2]) (dbOf [orderPaid]) 0 0
      1000 "PAY07" "TRON" "USDT" "TADDR").2 orderPaid rfl
      (by rw [ratesOf_single]; norm_num)

/-- C13, evaluated at the failing input: `SetPaymentMethod("PAY09", "TRON", "USDT",
"TADDR")` on a new order for 100 CNY, with the rate 7.2, succeeds, and the stored order
still has no settlement chain, currency, address or amount.  In general the outcome does
not depend on the arguments `chain` and `addr` at all. -/
theorem SetPaymentMethod_stores_no_settlement :
    (∀ (σ : Type) (q : Querier σ) (rates : RateService) (s : σ) (tRate tStore now : Int)
      (orderID chain chain2 currency addr addr2 : String),
      SetPaymentMethod q rates s tRate tStore now orderID chain currency addr =
        SetPaymentMethod q rates s tRate tStore now orderID chain2 currency addr2) ∧
    ∃ d, (SetPaymentMethod dbQuerier (ratesOf [.ok 7.2]) (dbOf [orderFresh]) 0 0 1000 "PAY09"
        "TRON" "USDT" "TADDR").1 = some (.ok d) ∧
      d.GetOrder "PAY09" = .ok { orderFresh with UpdatedAt := 1000 } ∧
      orderFresh.PayChain = none ∧ orderFresh.PayCurrency = none ∧
      orderFresh.PayAddr = none ∧ orderFresh.PayAmount = none := by
  refine ⟨fun σ q rates s tRate tStore now orderID chain chain2 currency addr addr2 => rfl, ?_⟩
  have hr : ((ratesOf [.ok 7.2]).GetRate 0 0 orderFresh.Currency "USDT").1 ≠ 0 := by
    rw [ratesOf_single]
    norm_num
  exact ⟨_, SetPaymentMethod_found dbQuerier (ratesOf [.ok 7.2]) (dbOf [orderFresh]) 0 0 1000
    "PAY09" "TRON" "USDT" "TADDR" orderFresh rfl hr, rfl, rfl, rfl, rfl, rfl⟩

end service.OrderService
namespace decimal

theorem divRound_close (d d2 : ℚ) (p : ℕ) :
    |DivRound d d2 p - d / d2| ≤ 1 / (2 * 10 ^ p) := by
  have hp : (0 : ℚ) < 10 ^ p := by positivity
  have h1 := Int.floor_le (|d / d2| * 10 ^ p + 1 / 2)
  have h2 := Int.lt_floor_add_one (|d / d2| * 10 ^ p + 1 / 2)
  simp only [DivRound]
  generalize (⌊|d / d2| * 10 ^ p + 1 / 2⌋ : ℤ) = n at h1 h2
  generalize d / d2 = q at h1 h2
  generalize (10 : ℚ) ^ p = P at hp h1 h2
  have key : |(if q < 0 then -1 else 1) * (n : ℚ) - q * P| ≤ 1 / 2 := by
    rw [abs_le]
    by_cases hq : q < 0
    · rw [if_pos hq]
      rw [abs_of_neg hq] at h1 h2
      constructor <;> linarith
    · rw [if_neg hq]
      rw [abs_of_nonneg (not_lt.mp hq)] at h1 h2
      constructor <;> linarith
  have e : (if q < 0 then -1 else 1) * (n : ℚ) / P - q =
      ((if q < 0 then -1 else 1) * (n : ℚ) - q * P) / P := by
    field_simp
    ring
  rw [e, abs_div, abs_of_pos hp, div_le_iff₀ hp]
  have e2 : 1 / (2 * P) * P = 1 / 2 := by
    field_simp
    ring
  rw [e2]
  exact key

theorem divRound_exact (d d2 : ℚ) (p : ℕ) (z : ℤ) (h : d / d2 = (z : ℚ) / 10 ^ p) :
    DivRound d d2 p = d / d2 := by
  have hp : (0 : ℚ) < 10 ^ p := by positivity
  have hclose := divRound_close d d2 p
  simp only [DivRound] at hclose ⊢
  rw [h] at hclose ⊢
  generalize (⌊|(z : ℚ) / 10 ^ p| * 10 ^ p + 1 / 2⌋ : ℤ) = n at hclose ⊢
  generalize hs : (if (z : ℚ) / 10 ^ p < 0 then (-1 : ℤ) else 1) = sg
  have hsq : (if (z : ℚ) / 10 ^ p < 0 then (-1 : ℚ) else 1) = (sg : ℚ) := by
    rw [← hs]
    split_ifs <;> simp
  rw [hsq] at hclose ⊢
  have e : (sg : ℚ) * (n : ℚ) / 10 ^ p - (z : ℚ) / 10 ^ p = ((sg * n - z : ℤ) : ℚ) / 10 ^ p := by
    push_cast
    ring
  rw [e, abs_div, abs_of_pos hp, div_le_iff₀ hp] at hclose
  have e2 : (1 : ℚ) / (2 * 10 ^ p) * 10 ^ p = 1 / 2 := by
    field_simp
    ring
  rw [e2] at hclose
  have hz : sg * n - z = 0 := by
    have h3 : |((sg * n - z : ℤ) : ℚ)| < 1 := lt_of_le_of_lt hclose (by norm_num)
    rw [← Int.cast_abs] at h3
    have h4 : |sg * n - z| < 1 := by exact_mod_cast h3
    exact Int.abs_lt_one_iff.mp h4
  have hz2 : ((sg * n : ℤ) : ℚ) = (z : ℚ) := by
    have := sub_eq_zero.mp hz
    exact_mod_cast this
  push_cast at hz2
  rw [hz2]

end decimal

namespace service.RateService

open scenario

theorem foldl_add_eq_sum (l : List ℚ) :
    ∀ a : ℚ, l.foldl (fun sum rate => sum + rate) a = a + l.sum := by
  induction l with
  | nil => intro a; simp
  | cons x rest ih =>
    intro a
    rw [List.foldl_cons, ih, List.sum_cons, add_assoc]

theorem calcMedian_single (r : ℚ) : calcMedian [r] = r := by
  simp [calcMedian]

theorem calcMedian_many (rates : List ℚ) (h : 2 ≤ rates.length) :
    calcMedian rates = decimal.DivRound rates.sum (rates.length : ℚ) 16 := by
  have h0 : ¬ rates.length = 0 := by omega
  have h1 : ¬ rates.length = 1 := by omega
  simp only [calcMedian, if_neg h0, if_neg h1, foldl_add_eq_sum, zero_add, decimal.Div]

theorem calcMedian_close (rates : List ℚ) (hne : rates ≠ []) :
    |calcMedian rates - rates.sum / (rates.length : ℚ)| ≤ 1 / (2 * 10 ^ 16) := by
  match rates, hne with
  | [r], _ =>
    rw [calcMedian_single]
    simp
  | a :: b :: rest, _ =>
    rw [calcMedian_many _ (by simp)]
    exact decimal.divRound_close _ _ 16

theorem calcMedian_exact (rates : List ℚ) (hne : rates ≠ []) (z : ℤ)
    (h : rates.sum / (rates.length : ℚ) = (z : ℚ) / 10 ^ 16) :
    calcMedian rates = rates.sum / (rates.length : ℚ) := by
  match rates, hne, h with
  | [r], _, _ =>
    rw [calcMedian_single]
    simp
  | a :: b :: rest, _, h =>
    rw [calcMedian_many _ (by simp)]
    exact decimal.divRound_exact _ _ 16 z h

theorem calcMedian_70_74 : calcMedian [7.0, 7.4] = 7.2 := by
  rw [calcMedian_exact [7.0, 7.4] (by simp) 72000000000000000 (by norm_num)]
  norm_num

theorem calcMedian_rounds :
    calcMedian [0.07, 0.07000000000000002] = 0.07 := by
  rw [calcMedian_many _ (by simp)]
  simp only [decimal.DivRound]
  have hq : ([0.07, 0.07000000000000002] : List ℚ).sum /
      ((([0.07, 0.07000000000000002] : List ℚ).length : ℕ) : ℚ) = 7000000000000001 / 10 ^ 17 := by
    norm_num
  rw [hq]
  have hfl : ⌊|(7000000000000001 : ℚ) / 10 ^ 17| * 10 ^ 16 + 1 / 2⌋ = 700000000000000 := by
    rw [Int.floor_eq_iff]
    constructor <;> norm_num [abs_of_pos]
  rw [hfl]
  norm_num

end service.RateService

namespace service.RateService

open scenario

/-- C14 fails as stated: for the rates 0.07 and 0.07000000000000002 the arithmetic mean is
0.07000000000000001, and `calcMedian` returns 0.07: `Div` rounds the quotient to 16
decimal places. -/
theorem calcMedian_mean_counterexample :
    ([0.07, 0.07000000000000002] : List ℚ).sum /
        ((([0.07, 0.07000000000000002] : List ℚ).length : ℕ) : ℚ) = 0.07000000000000001 ∧
    calcMedian [0.07, 0.07000000000000002] = 0.07 ∧
    calcMedian [0.07, 0.07000000000000002] ≠
      ([0.07, 0.07000000000000002] : List ℚ).sum /
        ((([0.07, 0.07000000000000002] : List ℚ).length : ℕ) : ℚ) := by
  have hmean : ([0.07, 0.07000000000000002] : List ℚ).sum /
      ((([0.07, 0.07000000000000002] : List ℚ).length : ℕ) : ℚ) = 0.07000000000000001 := by
    norm_num
  refine ⟨hmean, calcMedian_rounds, ?_⟩
  rw [calcMedian_rounds, hmean]
  norm_num

/-- C14 (amended): for every non-empty list of rates, a single rate is returned as it is,
and for two or more rates `calcMedian` is the arithmetic mean `sum / len` rounded to 16
decimal places (half away from zero): it differs from the exact mean by at most
`1 / (2 * 10^16)` and equals it whenever the mean has at most 16 decimal places.  The
rates 7.0 and 7.4 aggregate to exactly 7.2, and each of them alone to itself. -/
theorem calcMedian_mean (rates : List ℚ) (hne : rates ≠ []) :
    (∀ r, rates = [r] → calcMedian rates = r) ∧
    (2 ≤ rates.length → calcMedian rates = decimal.DivRound rates.sum (rates.length : ℚ) 16) ∧
    |calcMedian rates - rates.sum / (rates.length : ℚ)| ≤ 1 / (2 * 10 ^ 16) ∧
    (∀ z : ℤ, rates.sum / (rates.length : ℚ) = (z : ℚ) / 10 ^ 16 →
      calcMedian rates = rates.sum / (rates.length : ℚ)) ∧
    calcMedian [7.0, 7.4] = 7.2 ∧ calcMedian [7.0] = 7.0 ∧ calcMedian [7.4] = 7.4 := by
  refine ⟨fun r hr => ?_, calcMedian_many rates, calcMedian_close rates hne,
    fun z hz => calcMedian_exact rates hne z hz, calcMedian_70_74, calcMedian_single _,
    calcMedian_single _⟩
  rw [hr, calcMedian_single]

/-- Witness of `calcMedian_mean` at the rates 7.0 and 7.4, whose mean 7.2 has one decimal
place. -/
theorem calcMedian_mean_witness :
    ([7.0, 7.4] : List ℚ) ≠ [] ∧
    calcMedian [7.0, 7.4] =
      ([7.0, 7.4] : List ℚ).sum / ((([7.0, 7.4] : List ℚ).length : ℕ) : ℚ) :=
  ⟨by simp, (calcMedian_mean [7.0, 7.4] (by simp)).2.2.2.1 72000000000000000 (by norm_num)⟩

theorem specMedian_single (r : ℚ) : specMedian [r] = r := by
  simp [specMedian]

theorem specMedian_pair (a b : ℚ) : specMedian [a, b] = (a + b) / 2 := by
  by_cases h : a ≤ b
  · simp [specMedian, List.insertionSort, List.orderedInsert, h]
  · simp [specMedian, List.insertionSort, List.orderedInsert, h, add_comm]

theorem specMedian_114 : specMedian [1, 1, 4] = 1 := by
  simp [specMedian, List.insertionSort, List.orderedInsert]

theorem calcMedian_114 : calcMedian [1, 1, 4] = 2 := by
  rw [calcMedian_exact [1, 1, 4] (by simp) 20000000000000000 (by norm_num)]
  norm_num

/-- C15 fails as stated: for the rates 1, 1 and 4 the median is 1 and `calcMedian`
returns their mean 2. -/
theorem calcMedian_median_counterexample :
    specMedian [1, 1, 4] = 1 ∧ calcMedian [1, 1, 4] = 2 ∧
    calcMedian [1, 1, 4] ≠ specMedian [1, 1, 4] := by
  refine ⟨specMedian_114, calcMedian_114, ?_⟩
  rw [specMedian_114, calcMedian_114]
  norm_num

/-- C15 (amended): `calcMedian` aggregates by the arithmetic mean as `Div` computes it.
For the one or two rates that the two sources of `NewRateService` can deliver, this is the
median: a single rate is its own median, and for two rates the value is `Div` of their sum
by 2, within `1 / (2 * 10^16)` of their median `(a + b) / 2`.  For more rates the value is
the mean of all of them. -/
theorem calcMedian_median_of_two :
    (∀ r : ℚ, calcMedian [r] = specMedian [r]) ∧
    (∀ a b : ℚ, specMedian [a, b] = (a + b) / 2 ∧
      calcMedian [a, b] = decimal.Div (a + b) 2 ∧
      |calcMedian [a, b] - specMedian [a, b]| ≤ 1 / (2 * 10 ^ 16)) ∧
    (∀ (binance coinGecko : RateSource) (fromCur toCur : String),
      ((NewRateService binance coinGecko).fetchRates fromCur toCur).length ≤ 2) ∧
    (∀ rates : List ℚ, 2 ≤ rates.length →
      calcMedian rates = decimal.Div rates.sum (rates.length : ℚ)) := by
  refine ⟨fun r => ?_, fun a b => ⟨specMedian_pair a b, ?_, ?_⟩, fun binance coinGecko f t => ?_,
    fun rates h => calcMedian_many rates h⟩
  · rw [calcMedian_single, specMedian_single]
  · rw [calcMedian_many _ (by simp)]
    simp [decimal.Div]
  · have h := calcMedian_close [a, b] (by simp)
    rw [specMedian_pair]
    simpa using h
  · exact le_trans (List.length_filterMap_le _ _) (by simp [NewRateService])

/-- Witness of `calcMedian_median_of_two`: the mean of the three rates 1, 1, 4 as `Div`
computes it. -/
theorem calcMedian_median_of_two_witness :
    2 ≤ ([1, 1, 4] : List ℚ).length ∧
    calcMedian [1, 1, 4] =
      decimal.Div ([1, 1, 4] : List ℚ).sum ((([1, 1, 4] : List ℚ).length : ℕ) : ℚ) :=
  ⟨by simp, calcMedian_median_of_two.2.2.2 [1, 1, 4] (by simp)⟩

end service.RateService

namespace service.RateService

open scenario

theorem cacheGet_cacheSet_same (key : String) (rate : Rate) (m : List (String × Rate)) :
    cacheGet key (cacheSet key rate m) = some rate := by
  induction m with
  | nil => simp [cacheSet, cacheGet]
  | cons a rest ih =>
    obtain ⟨k, v⟩ := a
    by_cases hk : k = key
    · simp [cacheSet, cacheGet, hk]
    · simp [cacheSet, cacheGet, hk, ih]

theorem cacheGet_cacheSet_other (key k2 : String) (rate : Rate) (m : List (String × Rate))
    (hne : k2 ≠ key) : cacheGet k2 (cacheSet key rate m) = cacheGet k2 m := by
  induction m with
  | nil =>
    have hne2 : ¬ key = k2 := fun h => hne h.symm
    simp [cacheSet, cacheGet, hne2]
  | cons a rest ih =>
    obtain ⟨k, v⟩ := a
    by_cases hk : k = key
    · have hk2 : ¬ key = k2 := fun h => hne h.symm
      simp [cacheSet, cacheGet, hk, hk2]
    · by_cases hkk : k = k2
      · subst hkk
        simp [cacheSet, cacheGet, hk]
      · simp [cacheSet, cacheGet, hk, hkk, ih]

theorem GetRate_hit (s : RateService) (now stored : Int) (fromCur toCur : String) (rate : Rate)
    (hc : cacheGet (fromCur ++ "_" ++ toCur) s.cache = some rate)
    (hfresh : now - rate.Time < s.ttl) :
    GetRate s now stored fromCur toCur = (rate.Value, s) := by
  simp only [GetRate, hc, if_pos hfresh]

theorem GetRate_miss (s : RateService) (now stored : Int) (fromCur toCur : String)
    (hstale : ∀ rate, cacheGet (fromCur ++ "_" ++ toCur) s.cache = some rate →
      ¬ now - rate.Time < s.ttl) :
    GetRate s now stored fromCur toCur =
      if (s.fetchRates fromCur toCur).length = 0 then (1, s)
      else (calcMedian (s.fetchRates fromCur toCur),
        { s with cache := (cacheSet (fromCur ++ "_" ++ toCur)
            (Rate.mk fromCur toCur (calcMedian (s.fetchRates fromCur toCur)) stored) s.cache) }) := by
  cases hc : cacheGet (fromCur ++ "_" ++ toCur) s.cache with
  | none => simp only [GetRate, hc]
  | some rate => simp only [GetRate, hc, if_neg (hstale rate hc)]

theorem fetchRates_all_fail (s : RateService) (fromCur toCur : String)
    (hfail : ∀ src ∈ s.sources, ∃ e, src.GetRate fromCur toCur = .error e) :
    s.fetchRates fromCur toCur = [] := by
  unfold fetchRates
  rw [List.filterMap_eq_nil_iff]
  intro src hsrc
  obtain ⟨e, he⟩ := hfail src hsrc
  rw [he]

theorem list_split_unique {α : Type} (x : α) :
    ∀ (a c b d : List α), x ∉ a → x ∉ c → a ++ x :: b = c ++ x :: d → a = c ∧ b = d := by
  intro a
  induction a with
  | nil =>
    intro c b d _ hc h
    cases c with
    | nil => simpa using h
    | cons y c =>
      simp only [List.nil_append, List.cons_append, List.cons.injEq] at h
      exact absurd (h.1 ▸ List.mem_cons_self _ _) hc
  | cons y a ih =>
    intro c b d ha hc h
    cases c with
    | nil =>
      simp only [List.nil_append, List.cons_append, List.cons.injEq] at h
      exact absurd (h.1 ▸ List.mem_cons_self _ _) ha
    | cons z c =>
      simp only [List.cons_append, List.cons.injEq] at h
      obtain ⟨h1, h2⟩ := ih c b d (fun hm => ha (List.mem_cons_of_mem _ hm))
        (fun hm => hc (List.mem_cons_of_mem _ hm)) h.2
      exact ⟨by rw [h.1, h1], h2⟩

theorem key_inj (f t f2 t2 : String) (hf : '_' ∉ f.data) (hf2 : '_' ∉ f2.data)
    (h : f ++ "_" ++ t = f2 ++ "_" ++ t2) : f = f2 ∧ t = t2 := by
  have hd := congrArg String.data h
  simp only [String.data_append] at hd
  rw [List.append_assoc, List.append_assoc, List.singleton_append, List.singleton_append] at hd
  obtain ⟨h1, h2⟩ := list_split_unique '_' f.data f2.data t.data t2.data hf hf2 hd
  exact ⟨String.ext h1, String.ext h2⟩

/-- C16: when the cache holds no fresh entry for the pair, so that the sources are asked,
and none of them succeeds, `GetRate` returns exactly 1 and the service, cache included, is
unchanged.  The next call for the pair at a later time, whatever the sources then answer,
again takes its result from the sources: 1 if none succeeds, otherwise the aggregate of
the fetched rates, which is then cached. -/
theorem GetRate_fallback_not_cached (s : RateService) (now stored : Int)
    (fromCur toCur : String)
    (hstale : ∀ rate, cacheGet (fromCur ++ "_" ++ toCur) s.cache = some rate →
      ¬ now - rate.Time < s.ttl)
    (hfail : ∀ src ∈ s.sources, ∃ e, src.GetRate fromCur toCur = .error e) :
    GetRate s now stored fromCur toCur = (1, s) ∧
    ∀ (now2 stored2 : Int) (sources2 : List RateSource), now ≤ now2 →
      GetRate { (GetRate s now stored fromCur toCur).2 with sources := sources2 } now2 stored2
          fromCur toCur =
        if (fetchRates { s with sources := sources2 } fromCur toCur).length = 0 then
          (1, { s with sources := sources2 })
        else
          (calcMedian (fetchRates { s with sources := sources2 } fromCur toCur),
            { s with
              sources := sources2
              cache := (cacheSet (fromCur ++ "_" ++ toCur)
                (Rate.mk fromCur toCur
                  (calcMedian (fetchRates { s with sources := sources2 } fromCur toCur))
                  stored2) s.cache) }) := by
  have h1 : GetRate s now stored fromCur toCur = (1, s) := by
    rw [GetRate_miss s now stored fromCur toCur hstale,
      fetchRates_all_fail s fromCur toCur hfail]
    rfl
  refine ⟨h1, fun now2 stored2 sources2 hle => ?_⟩
  rw [h1]
  exact GetRate_miss { s with sources := sources2 } now2 stored2 fromCur toCur
    (fun rate hc hfresh => hstale rate hc (by
      have h2 : now2 - rate.Time < s.ttl := hfresh
      omega))

/-- Witness of `GetRate_fallback_not_cached`: two failing sources and an empty cache give
1 and leave the cache empty; when a source answers 7.2 on the next call, 7.2 is
returned. -/
theorem GetRate_fallback_not_cached_witness :
    GetRate (ratesOf [.error "down", .error "down"]) 0 0 "CNY" "USDT" =
      (1, ratesOf [.error "down", .error "down"]) ∧
    (GetRate { (GetRate (ratesOf [.error "down", .error "down"]) 0 0 "CNY" "USDT").2 with
        sources := [sourceOf (.ok 7.2)] } 1 1 "CNY" "USDT").1 = 7.2 := by
  have hw := GetRate_fallback_not_cached (ratesOf [.error "down", .error "down"]) 0 0 "CNY"
    "USDT" (fun rate hc => by cases hc)
    (fun src hsrc => by
      simp only [ratesOf, List.map_cons, List.map_nil, List.mem_cons, List.mem_singleton,
        List.not_mem_nil, or_false, or_self] at hsrc
      rw [hsrc]
      exact ⟨"down", rfl⟩)
  refine ⟨hw.1, ?_⟩
  rw [hw.2 1 1 [sourceOf (.ok 7.2)] (by norm_num)]
  rfl

end service.RateService

namespace service.RateService

open scenario

/-- C17: a `GetRate(from, to)` that finds no fresh entry and fetches successfully stores
the aggregate `v` with the time `t0` of the write.  While the cache holds that entry, in a
service with the TTL of five minutes, every `GetRate(from, to)` at a time `t` with
`t - t0 < 5 min` returns `v` and leaves the service as it is, whatever the sources would
answer (they are not asked); every call with `t - t0 ≥ 5 min` takes its result from the
sources: 1 if none succeeds, otherwise the aggregate of the newly fetched rates. -/
theorem GetRate_ttl (s : RateService) (now t0 : Int) (fromCur toCur : String)
    (hstale : ∀ rate, cacheGet (fromCur ++ "_" ++ toCur) s.cache = some rate →
      ¬ now - rate.Time < s.ttl)
    (hfetch : s.fetchRates fromCur toCur ≠ []) :
    (GetRate s now t0 fromCur toCur).1 = calcMedian (s.fetchRates fromCur toCur) ∧
    cacheGet (fromCur ++ "_" ++ toCur) (GetRate s now t0 fromCur toCur).2.cache =
      some (Rate.mk fromCur toCur (GetRate s now t0 fromCur toCur).1 t0) ∧
    ∀ s1 : RateService, s1.ttl = 5 * time.Minute →
      cacheGet (fromCur ++ "_" ++ toCur) s1.cache =
        some (Rate.mk fromCur toCur (GetRate s now t0 fromCur toCur).1 t0) →
      (∀ (t stored : Int) (sources2 : List RateSource), t - t0 < 5 * time.Minute →
        GetRate { s1 with sources := sources2 } t stored fromCur toCur =
          ((GetRate s now t0 fromCur toCur).1, { s1 with sources := sources2 })) ∧
      (∀ (t stored : Int), t - t0 ≥ 5 * time.Minute →
        GetRate s1 t stored fromCur toCur =
          if (s1.fetchRates fromCur toCur).length = 0 then (1, s1)
          else (calcMedian (s1.fetchRates fromCur toCur),
            { s1 with cache := (cacheSet (fromCur ++ "_" ++ toCur)
                (Rate.mk fromCur toCur (calcMedian (s1.fetchRates fromCur toCur)) stored)
                s1.cache) })) := by
  have hlen : ¬ (s.fetchRates fromCur toCur).length = 0 := by
    intro h
    exact hfetch (List.length_eq_zero.mp h)
  have hres := GetRate_miss s now t0 fromCur toCur hstale
  rw [if_neg hlen] at hres
  refine ⟨by rw [hres], ?_, fun s1 httl hc => ⟨fun t stored sources2 ht => ?_,
    fun t stored ht => ?_⟩⟩
  · rw [hres]
    exact cacheGet_cacheSet_same _ _ _
  · exact GetRate_hit { s1 with sources := sources2 } t stored fromCur toCur _ hc
      (by
        show t - t0 < s1.ttl
        rw [httl]
        exact ht)
  · apply GetRate_miss
    intro rate hr
    rw [hc] at hr
    cases hr
    show ¬ t - t0 < s1.ttl
    rw [httl]
    omega

/-- Witness of `GetRate_ttl`: the fetch of 7.0 and 7.4 at time 0 caches 7.2; four minutes
later 7.2 is returned although the sources now answer 9; five minutes later the sources
are asked and 9 is returned. -/
theorem GetRate_ttl_witness :
    (ratesOf [.ok 7.0, .ok 7.4]).fetchRates "CNY" "USDT" ≠ [] ∧
    (GetRate (ratesOf [.ok 7.0, .ok 7.4]) 0 0 "CNY" "USDT").1 = 7.2 ∧
    (GetRate { (GetRate (ratesOf [.ok 7.0, .ok 7.4]) 0 0 "CNY" "USDT").2 with
        sources := [sourceOf (.ok 9)] } (4 * time.Minute) (4 * time.Minute) "CNY" "USDT").1 =
      (GetRate (ratesOf [.ok 7.0, .ok 7.4]) 0 0 "CNY" "USDT").1 ∧
    (GetRate { (GetRate (ratesOf [.ok 7.0, .ok 7.4]) 0 0 "CNY" "USDT").2 with
        sources := [sourceOf (.ok 9)] } (5 * time.Minute) (5 * time.Minute) "CNY" "USDT").1 =
      9 := by
  have hne : (ratesOf [.ok 7.0, .ok 7.4]).fetchRates "CNY" "USDT" ≠ [] := by
    simp [fetchRates, ratesOf, sourceOf]
  have hw := GetRate_ttl (ratesOf [.ok 7.0, .ok 7.4]) 0 0 "CNY" "USDT"
    (fun rate hc => by cases hc) hne
  have hfr : (ratesOf [.ok 7.0, .ok 7.4]).fetchRates "CNY" "USDT" = [7.0, 7.4] := rfl
  have hs1 := hw.2.2 { (GetRate (ratesOf [.ok 7.0, .ok 7.4]) 0 0 "CNY" "USDT").2 with
    sources := [sourceOf (.ok 9)] } rfl hw.2.1
  refine ⟨hne, ?_, ?_, ?_⟩
  · rw [hw.1, hfr, calcMedian_70_74]
  · have h4 := hs1.1 (4 * time.Minute) (4 * time.Minute) [sourceOf (.ok 9)]
      (by norm_num [time.Minute, time.Second])
    have h4b := congrArg Prod.fst h4
    exact h4b
  · have h5 := hs1.2 (5 * time.Minute) (5 * time.Minute) (by norm_num)
    rw [h5]
    rfl

/-- C18 fails as stated: the value fetched and cached for the pair (`CNY_USD`, `T`) is
served from the cache for the different pair (`CNY`, `USD_T`), whose key `CNY_USD_T` is
the same string, although the source would answer 5 for it. -/
theorem GetRate_key_collision_counterexample :
    (GetRate (ratesOf [.ok 2]) 0 0 "CNY_USD" "T").1 = 2 ∧
    ("CNY", "USD_T") ≠ ("CNY_USD", "T") ∧
    ((ratesOf [.ok 5]).GetRate 1 1 "CNY" "USD_T").1 = 5 ∧
    GetRate { (GetRate (ratesOf [.ok 2]) 0 0 "CNY_USD" "T").2 with
        sources := [sourceOf (.ok 5)] } 1 1 "CNY" "USD_T" =
      (2, { (GetRate (ratesOf [.ok 2]) 0 0 "CNY_USD" "T").2 with
        sources := [sourceOf (.ok 5)] }) := by
  refine ⟨rfl, by decide, rfl, ?_⟩
  exact GetRate_hit _ 1 1 "CNY" "USD_T" (Rate.mk "CNY_USD" "T" 2 0) rfl
    (by
      show (1 : Int) - 0 < 5 * time.Minute
      norm_num [time.Minute, time.Second])

theorem GetRate_value_congr (s s1 : RateService) (now stored : Int) (f t : String)
    (hs : s1.sources = s.sources) (ht : s1.ttl = s.ttl)
    (hc : cacheGet (f ++ "_" ++ t) s1.cache = cacheGet (f ++ "_" ++ t) s.cache) :
    (GetRate s1 now stored f t).1 = (GetRate s now stored f t).1 := by
  have hf : s1.fetchRates f t = s.fetchRates f t := by
    simp only [fetchRates, hs]
  simp only [GetRate, hc, ht, hf]
  cases cacheGet (f ++ "_" ++ t) s.cache with
  | none =>
    simp only []
    split_ifs <;> rfl
  | some rate =>
    simp only []
    by_cases hfresh : now - rate.Time < s.ttl
    · simp only [if_pos hfresh]
    · simp only [if_neg hfresh]
      split_ifs <;> rfl

theorem GetRate_sources_ttl (s : RateService) (now stored : Int) (f t : String) :
    (GetRate s now stored f t).2.sources = s.sources ∧
    (GetRate s now stored f t).2.ttl = s.ttl := by
  simp only [GetRate]
  split
  · exact ⟨rfl, rfl⟩
  · split_ifs
    · exact ⟨rfl, rfl⟩
    · exact ⟨rfl, rfl⟩

theorem GetRate_cache_other (s : RateService) (now stored : Int) (f t : String) (k : String)
    (hne : k ≠ f ++ "_" ++ t) :
    cacheGet k (GetRate s now stored f t).2.cache = cacheGet k s.cache := by
  simp only [GetRate]
  split
  · rfl
  · split_ifs
    · rfl
    · exact cacheGet_cacheSet_other _ _ _ _ hne

/-- C18 (amended): the cache is keyed by the string `from_to`.  A `GetRate(from, to)`
leaves the entry of every other key as it is, and serves or stores only under its own
key: it returns the value of the entry of its own key when that entry is fresh, and
otherwise asks the sources and stores the aggregate under its own key; an entry under
another key, whether set directly or by an earlier `GetRate` for a pair with another key,
does not change what it returns.  Two pairs have the same key only if
`from ++ "_" ++ to` is the same string, which for currency strings `from`, `from'`
without an underscore holds only if `from' = from` and `to' = to`: distinct ordered pairs
of such strings never share a cache entry. -/
theorem GetRate_key (s : RateService) (now stored : Int) (f t f2 t2 : String) :
    (f2 ++ "_" ++ t2 ≠ f ++ "_" ++ t →
      cacheGet (f2 ++ "_" ++ t2) (GetRate s now stored f t).2.cache =
        cacheGet (f2 ++ "_" ++ t2) s.cache) ∧
    ('_' ∉ f.data → '_' ∉ f2.data →
      (f2 ++ "_" ++ t2 = f ++ "_" ++ t ↔ f2 = f ∧ t2 = t)) ∧
    (∀ rate : Rate, cacheGet (f ++ "_" ++ t) s.cache = some rate → now - rate.Time < s.ttl →
      GetRate s now stored f t = (rate.Value, s)) ∧
    ((∀ rate : Rate, cacheGet (f ++ "_" ++ t) s.cache = some rate →
        ¬ now - rate.Time < s.ttl) →
      GetRate s now stored f t =
        if (s.fetchRates f t).length = 0 then (1, s)
        else (calcMedian (s.fetchRates f t),
          { s with cache := (cacheSet (f ++ "_" ++ t)
              (Rate.mk f t (calcMedian (s.fetchRates f t)) stored) s.cache) })) ∧
    (∀ (k : String) (e : Rate), k ≠ f ++ "_" ++ t →
      (GetRate { s with cache := (cacheSet k e s.cache) } now stored f t).1 =
        (GetRate s now stored f t).1) ∧
    (f2 ++ "_" ++ t2 ≠ f ++ "_" ++ t → ∀ now2 stored2 : Int,
      (GetRate (GetRate s now stored f t).2 now2 stored2 f2 t2).1 =
        (GetRate s now2 stored2 f2 t2).1) := by
  refine ⟨fun hne => GetRate_cache_other s now stored f t _ hne, ?_, ?_, ?_, ?_, ?_⟩
  · intro hf hf2
    constructor
    · exact fun h => key_inj f2 t2 f t hf2 hf h
    · rintro ⟨h1, h2⟩
      rw [h1, h2]
  · intro rate hc hfresh
    exact GetRate_hit s now stored f t rate hc hfresh
  · intro hstale
    exact GetRate_miss s now stored f t hstale
  · intro k e hne
    exact GetRate_value_congr s { s with cache := (cacheSet k e s.cache) } now stored f t rfl rfl
      (cacheGet_cacheSet_other k (f ++ "_" ++ t) e s.cache (fun h => hne h.symm))
  · intro hne now2 stored2
    exact GetRate_value_congr s (GetRate s now stored f t).2 now2 stored2 f2 t2
      (GetRate_sources_ttl s now stored f t).1 (GetRate_sources_ttl s now stored f t).2
      (GetRate_cache_other s now stored f t _ hne)

/-- Witness of `GetRate_key`: after the fetch of 7.2 for (`CNY`, `USDT`) the key of
(`USD`, `USDT`) has no entry and the two keys differ; a `GetRate` for (`USD`, `USDT`) on
the service after that fetch returns what it returns without it, the answer 7.2 of the
source being fetched anew, and a `GetRate` for (`CNY`, `USDT`) one second later is served
the cached 7.2 although the source now answers 9. -/
theorem GetRate_key_witness :
    "USD" ++ "_" ++ "USDT" ≠ "CNY" ++ "_" ++ "USDT" ∧
    cacheGet ("USD" ++ "_" ++ "USDT") (GetRate (ratesOf [.ok 7.2]) 0 0 "CNY" "USDT").2.cache =
      none ∧
    ("USD" ++ "_" ++ "USDT" = "CNY" ++ "_" ++ "USDT" ↔ "USD" = "CNY" ∧ "USDT" = "USDT") ∧
    (GetRate (GetRate (ratesOf [.ok 7.2]) 0 0 "CNY" "USDT").2 1 1 "USD" "USDT").1 =
      (GetRate (ratesOf [.ok 7.2]) 1 1 "USD" "USDT").1 ∧
    GetRate { (GetRate (ratesOf [.ok 7.2]) 0 0 "CNY" "USDT").2 with
        sources := [sourceOf (.ok 9)] } time.Second time.Second "CNY" "USDT" =
      (7.2, { (GetRate (ratesOf [.ok 7.2]) 0 0 "CNY" "USDT").2 with
        sources := [sourceOf (.ok 9)] }) :=
  ⟨by decide,
    (GetRate_key (ratesOf [.ok 7.2]) 0 0 "CNY" "USDT" "USD" "USDT").1 (by decide),
    (GetRate_key (ratesOf [.ok 7.2]) 0 0 "CNY" "USDT" "USD" "USDT").2.1 (by decide) (by decide),
    (GetRate_key (ratesOf [.ok 7.2]) 0 0 "CNY" "USDT" "USD" "USDT").2.2.2.2.2 (by decide) 1 1,
    (GetRate_key { (GetRate (ratesOf [.ok 7.2]) 0 0 "CNY" "USDT").2 with
        sources := [sourceOf (.ok 9)] } time.Second time.Second "CNY" "USDT" "USD" "USDT").2.2.1
      (Rate.mk "CNY" "USDT" 7.2 0) rfl
      (by
        show time.Second - 0 < 5 * time.Minute
        norm_num [time.Minute, time.Second])⟩

end service.RateService

namespace service.NotificationService

open database scenario

/-- C19, evaluated at the failing input: a merchant callback notification with retry count
0 whose every delivery is answered with status 500.  Five processing runs, each at the
time the pending notification is due, leave no dead notification: each run marks the due
notification sent (status 1, retry count 1) and `sendCallback` stores a new pending one
with retry count 0.  For a kind other than `callback` the same five failures end with
status dead (2), retry count 5 and no next retry, and a later run selects nothing. -/
theorem ProcessPendingNotifications_callback_never_dead :
    (processAt (clientOf (.ok 500)) [1000, 1300, 1600, 1900, 2200]
        (dbNotif [notifOf "callback"])).notifications.map
          (fun n => (n.ID, n.Kind, n.Status, n.RetryCount)) =
      [(1, "callback", 1, 1), (2, "callback", 1, 1), (3, "callback", 1, 1),
       (4, "callback", 1, 1), (5, "callback", 1, 1), (6, "callback", 0, 0)] ∧
    (processAt (clientOf (.ok 500)) [1000, 1300, 1900, 2800, 4000]
        (dbNotif [notifOf "webhook"])).notifications.map
          (fun n => (n.ID, n.Status, n.RetryCount, n.NextRetry)) =
      [(1, 2, 5, none)] ∧
    processAt (clientOf (.ok 500)) [1000, 1300, 1900, 2800, 4000, 10000]
        (dbNotif [notifOf "webhook"]) =
      processAt (clientOf (.ok 500)) [1000, 1300, 1900, 2800, 4000]
        (dbNotif [notifOf "webhook"]) :=
  ⟨rfl, rfl, rfl⟩

/-- C20, evaluated at the failing input: one `retryNotification` of a due merchant
callback notification whose delivery fails, with response status 500 or with a transport
error.  The notification is stored with status sent (1) and `sent_at = 1000` all the
same, next to the new pending notification that `sendCallback` saves for the failure.
With response status 200 it is stored as sent as well, and nothing else is saved. -/
theorem retryNotification_failed_callback_marked_sent :
    (retryNotification dbQuerier (clientOf (.ok 500)) (dbNotif [notifOf "callback"]) 1000
        (notifOf "callback")).notifications.map
          (fun n => (n.ID, n.Status, n.RetryCount, n.NextRetry, n.SentAt)) =
      [(1, 1, 1, none, some 1000), (2, 0, 0, some 1300, none)] ∧
    (retryNotification dbQuerier (clientOf (.error "timeout")) (dbNotif [notifOf "callback"])
        1000 (notifOf "callback")).notifications.map
          (fun n => (n.ID, n.Status, n.RetryCount, n.NextRetry, n.SentAt)) =
      [(1, 1, 1, none, some 1000), (2, 0, 0, some 1300, none)] ∧
    (retryNotification dbQuerier (clientOf (.ok 200)) (dbNotif [notifOf "callback"]) 1000
        (notifOf "callback")).notifications.map
          (fun n => (n.ID, n.Status, n.RetryCount, n.NextRetry, n.SentAt)) =
      [(1, 1, 1, none, some 1000)] :=
  ⟨rfl, rfl, rfl⟩

end service.NotificationService

namespace service.NotificationService

open database scenario

theorem retryNotification_backoff {σ : Type} (q : Querier σ) (client : HTTPClient) (s : σ)
    (now : Int) (notif : Notification) (order : Order) (site : Site)
    (ho : q.GetOrder s notif.OrderID = .ok order)
    (hs : q.GetSite s (order.SiteID.getD "") = .ok site)
    (hk : notif.Kind ≠ "callback") (hn : notif.RetryCount + 1 < 5) :
    retryNotification q client s now notif =
      match q.UpdateNotificationStatus s
          { ID := notif.ID
            Status := 0
            RetryCount := notif.RetryCount + 1
            NextRetry := some (now + 300 * (notif.RetryCount + 1))
            SentAt := some now } with
      | .error _ => s
      | .ok s2 => s2 := by
  simp only [retryNotification, ho, hs, if_neg hk, if_pos hn]
  rfl

/-- C21, evaluated at the failing input: a due merchant callback notification with prior
retry count 2 whose delivery is answered with status 500 is stored with retry count 3,
status 1 (sent) and no next retry, instead of status 0 and next retry at
`1000 + 300 * 3`.  For a kind other than `callback` the schedule is the claimed one: with
prior retry counts 0, 1, 2, 3 the attempt at time 1000 stores status 0, the count plus one
and the next retry at 1300, 1600, 1900, 2200. -/
theorem retryNotification_backoff_skipped_for_callback :
    (retryNotification dbQuerier (clientOf (.ok 500))
        (dbNotif [{ notifOf "callback" with RetryCount := 2 }]) 1000
        { notifOf "callback" with RetryCount := 2 }).notifications.map
          (fun n => (n.ID, n.Status, n.RetryCount, n.NextRetry)) =
      [(1, 1, 3, none), (2, 0, 0, some 1300)] ∧
    [0, 1, 2, 3].map (fun k : Int =>
        (retryNotification dbQuerier (clientOf (.ok 500))
          (dbNotif [{ notifOf "webhook" with RetryCount := k }]) 1000
          { notifOf "webhook" with RetryCount := k }).notifications.map
            (fun n => (n.Status, n.RetryCount, n.NextRetry))) =
      [[(0, 1, some 1300)], [(0, 2, some 1600)], [(0, 3, some 1900)], [(0, 4, some 2200)]] :=
  ⟨rfl, rfl⟩

/-- C22 fails as stated: the callback body has no key `settlement_amount` and no key
`settlement_currency`. -/
theorem callbackData_keys_counterexample :
    "settlement_amount" ∉ (callbackData 1000 orderSite).map Prod.fst ∧
    "settlement_currency" ∉ (callbackData 1000 orderSite).map Prod.fst := by
  constructor <;> decide

/-- C22 (amended): the callback body built by `sendCallback` is the JSON object with the
keys `order_id`, `status`, `amount`, `currency`, `pay_amount`, `pay_currency`, `tx_hash`,
`paid_at` and `timestamp` (the settlement amount and currency go under `pay_amount` and
`pay_currency`), and it is sent by POST to the callback URL of the site with the header
`X-Api-Key` equal to the API key of the site. -/
theorem sendCallback_request {σ : Type} (q : Querier σ) (client : HTTPClient) (s : σ)
    (now : Int) (order : Order) (site : Site)
    (hurl : client.NewRequestOk (site.Callback.getD "") = true) :
    (callbackData now order).map Prod.fst =
      ["order_id", "status", "amount", "currency", "pay_amount", "pay_currency", "tx_hash",
       "paid_at", "timestamp"] ∧
    ∃ req : Request,
      req.Method = "POST" ∧ req.URL = site.Callback.getD "" ∧
      req.Header.lookup "X-Api-Key" = some site.ApiKey ∧
      req.Body = callbackData now order ∧
      sendCallback q client s now order site =
        match client.Do req with
        | .error e => saveFailedNotification q s now order.ID "callback" (site.Callback.getD "") e
        | .ok statusCode =>
          if statusCode ≠ 200 then
            saveFailedNotification q s now order.ID "callback" (site.Callback.getD "")
              ("status " ++ toString statusCode)
          else s := by
  refine ⟨rfl, ⟨"POST", site.Callback.getD "",
    [("Content-Type", "application/json"), ("X-Api-Key", site.ApiKey)],
    callbackData now order⟩, rfl, rfl, rfl, rfl, ?_⟩
  simp only [sendCallback, hurl, if_true]

/-- Witness of `sendCallback_request` for the site `S1`: the header carries `KEY1`. -/
theorem sendCallback_request_witness :
    (clientOf (.ok 200)).NewRequestOk (site1.Callback.getD "") = true ∧
    ∃ req : Request,
      req.Method = "POST" ∧ req.URL = "http://shop.example/callback" ∧
      req.Header.lookup "X-Api-Key" = some "KEY1" ∧
      req.Body = callbackData 1000 orderSite ∧
      sendCallback dbQuerier (clientOf (.ok 200)) (dbNotif []) 1000 orderSite site1 =
        match (clientOf (.ok 200)).Do req with
        | .error e =>
          saveFailedNotification dbQuerier (dbNotif []) 1000 orderSite.ID "callback"
            (site1.Callback.getD "") e
        | .ok statusCode =>
          if statusCode ≠ 200 then
            saveFailedNotification dbQuerier (dbNotif []) 1000 orderSite.ID "callback"
              (site1.Callback.getD "") ("status " ++ toString statusCode)
          else dbNotif [] :=
  ⟨rfl, (sendCallback_request dbQuerier (clientOf (.ok 200)) (dbNotif []) 1000 orderSite site1
    rfl).2⟩

end service.NotificationService

namespace payment.APIScheduler

theorem Start_idem (s : Control) : Start (Start s) = Start s := by
  by_cases h : s.running = true
  · simp [Start, h]
  · simp [Start, h]

theorem Stop_idem (s s1 : Control) (h : Stop s = some s1) : Stop s1 = some s1 := by
  unfold Stop at h
  by_cases hr : s.running = true
  · by_cases hc : s.stopClosed = true
    · simp [hr, hc] at h
    · simp [hr, hc] at h
      subst h
      simp [Stop]
  · simp [hr] at h
    subst h
    simp [Stop, hr]

/-- C26: `Start` on a running scheduler is a no-op (`Start; Start` leaves the state of
`Start`: `running` set, one loop), `Stop` on a scheduler that is not running is a no-op,
and whenever a `Stop` completes a second `Stop` leaves its state unchanged.  On a new
scheduler `Start; Stop; Stop` ends like `Start; Stop`, not running, with the stop channel
closed once and no loop. -/
theorem Start_Stop_noop :
    (∀ s : Control, Start (Start s) = Start s) ∧
    (∀ s : Control, s.running = true → Start s = s) ∧
    (∀ s : Control, s.running = false → Stop s = some s) ∧
    (∀ s s1 : Control, Stop s = some s1 → Stop s1 = some s1 ∧ s1.running = false) ∧
    Start (Start NewScheduler) = { running := true, stopClosed := false, loops := 1 } ∧
    Stop NewScheduler = some NewScheduler ∧
    runCalls [Call.start, Call.stop, Call.stop] NewScheduler =
      runCalls [Call.start, Call.stop] NewScheduler ∧
    runCalls [Call.start, Call.stop] NewScheduler =
      some { running := false, stopClosed := true, loops := 0 } := by
  refine ⟨Start_idem, fun s h => by simp [Start, h], fun s h => by simp [Stop, h],
    fun s s1 h => ⟨Stop_idem s s1 h, ?_⟩, rfl, rfl, rfl, rfl⟩
  unfold Stop at h
  by_cases hr : s.running = true
  · by_cases hc : s.stopClosed = true
    · simp [hr, hc] at h
    · simp [hr, hc] at h
      subst h
      rfl
  · simp [hr] at h
    subst h
    simpa using hr

/-- Witness of `Start_Stop_noop`: on a started scheduler `Start` changes nothing, and after
its `Stop` a second `Stop` changes nothing. -/
theorem Start_Stop_noop_witness :
    (Start NewScheduler).running = true ∧
    Start (Start NewScheduler) = Start NewScheduler ∧
    Stop (Start NewScheduler) = some { running := false, stopClosed := true, loops := 0 } ∧
    Stop { running := false, stopClosed := true, loops := 0 } =
      some { running := false, stopClosed := true, loops := 0 } :=
  ⟨rfl, Start_Stop_noop.2.1 (Start NewScheduler) rfl, rfl,
    (Start_Stop_noop.2.2.2.1 (Start NewScheduler)
      { running := false, stopClosed := true, loops := 0 } rfl).1⟩

/-- C27, evaluated at the failing input: on a new scheduler, after `Start; Stop; Start` the
flag `running` is set while no loop is polling (the `run` launched by the second `Start`
finds `stopCh` closed and returns), and a further `Stop` closes the closed channel again
and panics.  `Start` never makes a new channel. -/
theorem Start_Stop_Start_not_polling :
    runCalls [Call.start, Call.stop, Call.start] NewScheduler =
      some { running := true, stopClosed := true, loops := 0 } ∧
    runCalls [Call.start, Call.stop, Call.start, Call.stop] NewScheduler = none ∧
    (∀ s : Control,
      (Start { s with stopClosed := true }).stopClosed = true ∧
      (Start { s with stopClosed := true }).loops = s.loops) := by
  refine ⟨rfl, rfl, fun s => ?_⟩
  by_cases hr : s.running = true
  · simp [Start, hr]
  · simp [Start, hr]

end payment.APIScheduler

namespace payment.APIScheduler

open database

theorem groupGet_mapAppend (k k2 : String) (o : Order) (m : List (String × List Order)) :
    groupGet k2 (mapAppend k o m) = if k2 = k then groupGet k m ++ [o] else groupGet k2 m := by
  induction m with
  | nil =>
    by_cases h : k2 = k
    · subst h
      simp [mapAppend, groupGet]
    · have h2 : ¬ k = k2 := fun e => h e.symm
      simp [mapAppend, groupGet, h, h2]
  | cons a rest ih =>
    obtain ⟨k1, os⟩ := a
    by_cases h1 : k1 = k
    · subst h1
      by_cases h : k2 = k1
      · subst h
        simp [mapAppend, groupGet]
      · have h2 : ¬ k1 = k2 := fun e => h e.symm
        simp [mapAppend, groupGet, h, h2]
    · by_cases h : k2 = k
      · subst h
        simp [mapAppend, groupGet, h1, ih]
      · by_cases h3 : k1 = k2
        · simp [mapAppend, groupGet, h1, h, h3]
        · simp [mapAppend, groupGet, h1, h, h3, ih]

theorem keys_mapAppend (k : String) (o : Order) (m : List (String × List Order)) :
    (mapAppend k o m).map Prod.fst =
      if k ∈ m.map Prod.fst then m.map Prod.fst else m.map Prod.fst ++ [k] := by
  induction m with
  | nil => simp [mapAppend]
  | cons a rest ih =>
    obtain ⟨k1, os⟩ := a
    by_cases h1 : k1 = k
    · subst h1
      simp [mapAppend]
    · have h2 : ¬ k = k1 := fun e => h1 e.symm
      by_cases hm : k ∈ rest.map Prod.fst
      · simp [mapAppend, h1, h2, ih, hm]
      · simp [mapAppend, h1, h2, ih, hm]

theorem nodup_keys_mapAppend (k : String) (o : Order) (m : List (String × List Order))
    (h : (m.map Prod.fst).Nodup) : ((mapAppend k o m).map Prod.fst).Nodup := by
  rw [keys_mapAppend]
  split_ifs with hm
  · exact h
  · exact List.Nodup.append h (List.nodup_singleton k)
      (by
        intro x hx hx2
        rw [List.mem_singleton] at hx2
        exact hm (hx2 ▸ hx))

theorem mem_iff_groupGet (m : List (String × List Order)) (h : (m.map Prod.fst).Nodup)
    (k : String) (os : List Order) :
    (k, os) ∈ m ↔ k ∈ m.map Prod.fst ∧ groupGet k m = os := by
  induction m with
  | nil => simp
  | cons a rest ih =>
    obtain ⟨k1, os1⟩ := a
    rw [List.map_cons, List.nodup_cons] at h
    by_cases h1 : k1 = k
    · subst h1
      constructor
      · intro hmem
        rcases List.mem_cons.mp hmem with heq | hmem
        · simp only [Prod.mk.injEq] at heq
          simp [groupGet, heq.2]
        · exact absurd (List.mem_map_of_mem Prod.fst hmem) h.1
      · rintro ⟨_, hget⟩
        simp only [groupGet, if_true] at hget
        rw [hget]
        exact List.mem_cons_self _ _
    · have h2 : ¬ k = k1 := fun e => h1 e.symm
      simp only [List.mem_cons, Prod.mk.injEq, h2, false_and, false_or, List.map_cons, groupGet,
        if_neg h1]
      exact ih h.2

theorem groupOf_append (sel : Order → Option String) (l : List Order) (o : Order) :
    groupOf sel (l ++ [o]) =
      match sel o with
      | some k => mapAppend k o (groupOf sel l)
      | none => groupOf sel l := by
  simp only [groupOf, List.foldl_append, List.foldl_cons, List.foldl_nil]

theorem groupOf_nodup (sel : Order → Option String) (orders : List Order) :
    ((groupOf sel orders).map Prod.fst).Nodup := by
  induction orders using List.reverseRecOn with
  | nil => simp [groupOf]
  | append_singleton l o ih =>
    rw [groupOf_append]
    cases sel o with
    | none => exact ih
    | some k => exact nodup_keys_mapAppend k o _ ih

theorem groupOf_get (sel : Order → Option String) (orders : List Order) (k : String) :
    groupGet k (groupOf sel orders) = orders.filter (fun o => decide (sel o = some k)) := by
  induction orders using List.reverseRecOn with
  | nil => simp [groupOf, groupGet]
  | append_singleton l o ih =>
    rw [groupOf_append, List.filter_append]
    cases hs : sel o with
    | none => simp [ih, hs]
    | some k1 =>
      simp only []
      rw [groupGet_mapAppend]
      by_cases h : k = k1
      · subst h
        simp [ih, hs]
      · have h2 : ¬ k1 = k := fun e => h e.symm
        simp [ih, hs, h, h2]

theorem groupOf_keys (sel : Order → Option String) (orders : List Order) (k : String) :
    k ∈ (groupOf sel orders).map Prod.fst ↔ ∃ o ∈ orders, sel o = some k := by
  induction orders using List.reverseRecOn with
  | nil => simp [groupOf]
  | append_singleton l o ih =>
    rw [groupOf_append]
    cases hs : sel o with
    | none =>
      simp only []
      rw [ih]
      constructor
      · rintro ⟨x, hx, hsel⟩
        exact ⟨x, List.mem_append_left _ hx, hsel⟩
      · rintro ⟨x, hx, hsel⟩
        rcases List.mem_append.mp hx with hx | hx
        · exact ⟨x, hx, hsel⟩
        · rw [List.mem_singleton.mp hx, hs] at hsel
          cases hsel
    | some k1 =>
      simp only []
      rw [keys_mapAppend]
      constructor
      · intro hmem
        by_cases hk : k = k1
        · exact ⟨o, by simp, by rw [hs, hk]⟩
        · have hin : k ∈ (groupOf sel l).map Prod.fst := by
            split_ifs at hmem with hm
            · exact hmem
            · rcases List.mem_append.mp hmem with h | h
              · exact h
              · exact absurd (List.mem_singleton.mp h) hk
          obtain ⟨x, hx, hsel⟩ := ih.mp hin
          exact ⟨x, List.mem_append_left _ hx, hsel⟩
      · rintro ⟨x, hx, hsel⟩
        rcases List.mem_append.mp hx with hx | hx
        · have hin := ih.mpr ⟨x, hx, hsel⟩
          split_ifs with hm
          · exact hin
          · exact List.mem_append_left _ hin
        · rw [List.mem_singleton.mp hx, hs] at hsel
          cases hsel
          split_ifs with hm
          · exact hm
          · simp

theorem groupOf_mem (sel : Order → Option String) (orders : List Order) (k : String)
    (os : List Order) :
    (k, os) ∈ groupOf sel orders ↔
      (∃ o ∈ orders, sel o = some k) ∧ os = orders.filter (fun o => decide (sel o = some k)) := by
  rw [mem_iff_groupGet _ (groupOf_nodup sel orders), groupOf_keys, groupOf_get]
  constructor
  · rintro ⟨h1, h2⟩
    exact ⟨h1, h2.symm⟩
  · rintro ⟨h1, h2⟩
    exact ⟨h1, h2.symm⟩

end payment.APIScheduler

namespace payment.APIScheduler

open database scenario

theorem foldl_log {α β : Type} (F : DB → α → DB) (L : α → List β) (l : List α) :
    ∀ (d : DB) (acc : List β),
      l.foldl (fun (st : DB × List β) g => (F st.1 g, st.2 ++ L g)) (d, acc) =
        (l.foldl F d, acc ++ l.flatMap L) := by
  induction l with
  | nil => intro d acc; simp
  | cons a rest ih =>
    intro d acc
    rw [List.foldl_cons, ih, List.foldl_cons, List.flatMap_cons, List.append_assoc]

theorem flatMap_single {α β : Type} (f : α → β) (l : List α) :
    l.flatMap (fun g => [f g]) = l.map f := by
  induction l with
  | nil => rfl
  | cons a rest ih => rw [List.flatMap_cons, ih, List.map_cons, List.singleton_append]

theorem checkAddressL_eq (db : DB) (now : Int) (api : ChainAPI) (addr : String)
    (orders : List Order) :
    checkAddressL db now api addr orders =
      (checkAddress db now api addr orders, [(addr, now - 24 * 3600)]) := by
  cases hg : api.GetTxs addr (now - 24 * 3600) with
  | error e => simp only [checkAddressL, checkAddress, hg]
  | ok txs => simp only [checkAddressL, checkAddress, hg]

theorem checkChainL_eq (chains : ChainType → Option ChainAPI) (db : DB) (now : Int)
    (chain : ChainType) (orders : List Order) :
    checkChainL chains db now chain orders =
      (checkChain chains db now chain orders,
        if (chains chain).isSome then
          (groupOf (fun o => o.PayAddr) orders).map
            (fun g => Lookup.mk chain g.1 (now - 24 * 3600) g.2)
        else []) := by
  cases hc : chains chain with
  | none => simp [checkChainL, checkChain, hc]
  | some api =>
    simp only [checkChainL, checkChain, hc, checkAddressL_eq, List.map_cons, List.map_nil,
      Option.isSome_some, if_true]
    rw [foldl_log (fun d (g : String × List Order) => checkAddress d now api g.1 g.2)
      (fun g => [Lookup.mk chain g.1 (now - 24 * 3600) g.2])]
    rw [flatMap_single, List.nil_append]
    rfl

theorem checkAllL_eq (chains : ChainType → Option ChainAPI) (db : DB) (now : Int) :
    checkAllL chains db now =
      (checkAll chains db now,
        (groupOf (fun o => o.PayChain)
            (db.orders.filter (fun o => decide (o.Status = some 0) && decide (o.ExpireAt > now)))).flatMap
          (fun cg =>
            if (chains cg.1).isSome then
              (groupOf (fun o => o.PayAddr) cg.2).map
                (fun g => Lookup.mk cg.1 g.1 (now - 24 * 3600) g.2)
            else [])) := by
  simp only [checkAllL, checkAll, DB.GetPendingOrders, checkChainL_eq]
  split_ifs with hlen
  · rw [List.length_eq_zero.mp hlen]
    simp [groupOf]
  · rw [foldl_log (fun d (g : String × List Order) => checkChain chains d now g.1 g.2)]
    simp [groupOf, groupByChain]

end payment.APIScheduler

namespace payment.APIScheduler

open database scenario

theorem lookups_mem (chains : ChainType → Option ChainAPI) (now : Int) (pending : List Order)
    (c a : String) (t : Int) (os : List Order) :
    Lookup.mk c a t os ∈
        (groupOf (fun o => o.PayChain) pending).flatMap
          (fun cg =>
            if (chains cg.1).isSome then
              (groupOf (fun o => o.PayAddr) cg.2).map
                (fun g => Lookup.mk cg.1 g.1 (now - 24 * 3600) g.2)
            else []) ↔
      (chains c).isSome = true ∧ t = now - 24 * 3600 ∧
      (∃ o ∈ pending, o.PayChain = some c ∧ o.PayAddr = some a) ∧
      os = pending.filter
        (fun o => decide (o.PayChain = some c) && decide (o.PayAddr = some a)) := by
  have hff : (pending.filter (fun o => decide (o.PayChain = some c))).filter
      (fun o => decide (o.PayAddr = some a)) =
      pending.filter (fun o => decide (o.PayChain = some c) && decide (o.PayAddr = some a)) := by
    rw [List.filter_filter]
    apply List.filter_congr
    intro x _
    exact Bool.and_comm _ _
  rw [List.mem_flatMap]
  constructor
  · rintro ⟨⟨c1, cos⟩, hcg, hmem⟩
    by_cases hsome : (chains c1).isSome = true
    · simp only [hsome, if_true, List.mem_map] at hmem
      obtain ⟨⟨a1, os1⟩, hg, heq⟩ := hmem
      simp only [Lookup.mk.injEq] at heq
      obtain ⟨hc, ha, ht, hos⟩ := heq
      subst hc ha hos
      obtain ⟨_, hcos⟩ := (groupOf_mem _ _ _ _).mp hcg
      obtain ⟨⟨o, ho, hoa⟩, hos1⟩ := (groupOf_mem _ _ _ _).mp hg
      rw [hcos] at ho hos1
      have ho2 := List.mem_filter.mp ho
      refine ⟨hsome, ht.symm, ⟨o, ho2.1, by simpa using ho2.2, hoa⟩, ?_⟩
      rw [hos1, hff]
    · simp only [hsome, Bool.false_eq_true, if_false, List.not_mem_nil] at hmem
  · rintro ⟨hsome, ht, ⟨o, ho, hoc, hoa⟩, hos⟩
    refine ⟨(c, pending.filter (fun o => decide (o.PayChain = some c))), ?_, ?_⟩
    · exact (groupOf_mem _ _ _ _).mpr ⟨⟨o, ho, hoc⟩, rfl⟩
    · simp only [hsome, if_true, List.mem_map]
      refine ⟨(a, (pending.filter (fun o => decide (o.PayChain = some c))).filter
        (fun o => decide (o.PayAddr = some a))), ?_, ?_⟩
      · refine (groupOf_mem _ _ _ _).mpr ⟨⟨o, ?_, hoa⟩, rfl⟩
        exact List.mem_filter.mpr ⟨ho, by simpa using hoc⟩
      · simp only [Lookup.mk.injEq, true_and]
        exact ⟨ht.symm, by rw [hos, hff]⟩

theorem lookups_nodup (chains : ChainType → Option ChainAPI) (now : Int) (pending : List Order) :
    (((groupOf (fun o => o.PayChain) pending).flatMap
        (fun cg =>
          if (chains cg.1).isSome then
            (groupOf (fun o => o.PayAddr) cg.2).map
              (fun g => Lookup.mk cg.1 g.1 (now - 24 * 3600) g.2)
          else [])).map (fun e => (e.chain, e.addr))).Nodup := by
  rw [List.map_flatMap, List.nodup_flatMap]
  constructor
  · rintro ⟨c1, cos⟩ _
    by_cases hsome : (chains c1).isSome = true
    · simp only [hsome, if_true, List.map_map]
      have hk := groupOf_nodup (fun o => o.PayAddr) cos
      have hinj : Function.Injective (fun a : String => (c1, a)) := by
        intro x y hxy
        exact (Prod.mk.injEq _ _ _ _ ▸ hxy).2
      have h2 := List.Nodup.map hinj hk
      rw [List.map_map] at h2
      exact h2
    · simp [hsome]
  · have hk := groupOf_nodup (fun o => o.PayChain) pending
    have hp : List.Pairwise (fun (x y : String × List Order) => x.1 ≠ y.1)
        (groupOf (fun o => o.PayChain) pending) := List.pairwise_map.mp hk
    refine hp.imp ?_
    rintro ⟨c1, cos1⟩ ⟨c2, cos2⟩ hne
    simp only [Function.onFun]
    rw [List.disjoint_left]
    intro x hx1 hx2
    have e1 : x.1 = c1 := by
      simp only [List.mem_map] at hx1
      obtain ⟨l, hl, rfl⟩ := hx1
      split_ifs at hl
      · simp only [List.mem_map] at hl
        obtain ⟨g, _, rfl⟩ := hl
        rfl
      · exact absurd hl (List.not_mem_nil _)
    have e2 : x.1 = c2 := by
      simp only [List.mem_map] at hx2
      obtain ⟨l, hl, rfl⟩ := hx2
      split_ifs at hl
      · simp only [List.mem_map] at hl
        obtain ⟨g, _, rfl⟩ := hl
        rfl
      · exact absurd hl (List.not_mem_nil _)
    exact hne (e1.symm.trans e2)

end payment.APIScheduler

namespace payment.APIScheduler

open database scenario

/-- C24: in one poll cycle over the pending orders, the lookups made are exactly one
`GetTxs(address, now - 86400)` per pair (chain, address) that occurs among the pending
orders and whose chain has a registered adapter: the logged cycle changes the database as
`checkAll` does; a lookup for `(c, a)` with orders `os` is in the log exactly when `c` has
an adapter, the time is `now - 24 * 3600`, some pending order has chain `c` and address
`a`, and `os` is the list of all pending orders of that pair; no pair is looked up twice;
and an empty pending set gives no lookup. -/
theorem checkAll_lookups (chains : ChainType → Option ChainAPI) (db : DB) (now : Int)
    (pending : List Order) (hp : db.GetPendingOrders now = .ok pending) :
    (checkAllL chains db now).1 = checkAll chains db now ∧
    (∀ (c a : String) (t : Int) (os : List Order),
      Lookup.mk c a t os ∈ (checkAllL chains db now).2 ↔
        (chains c).isSome = true ∧ t = now - 24 * 3600 ∧
        (∃ o ∈ pending, o.PayChain = some c ∧ o.PayAddr = some a) ∧
        os = pending.filter
          (fun o => decide (o.PayChain = some c) && decide (o.PayAddr = some a))) ∧
    ((checkAllL chains db now).2.map (fun e => (e.chain, e.addr))).Nodup ∧
    (pending = [] → (checkAllL chains db now).2 = []) := by
  have hpe : pending =
      db.orders.filter (fun o => decide (o.Status = some 0) && decide (o.ExpireAt > now)) := by
    simp only [DB.GetPendingOrders, Except.ok.injEq] at hp
    exact hp.symm
  rw [checkAllL_eq, ← hpe]
  refine ⟨rfl, ?_, ?_, ?_⟩
  · intro c a t os
    exact lookups_mem chains now pending c a t os
  · exact lookups_nodup chains now pending
  · intro he
    rw [he]
    rfl

/-- Witness for C24: a cycle at time 1000 over two pending orders at the address `TADDR`
of chain `TRON` and one at `TOTHER`. -/
theorem checkAll_lookups_witness :
    (dbOf [order100, order100other, order101]).GetPendingOrders 1000 =
        .ok [order100, order100other, order101] ∧
    (checkAllL (chainsOf (apiOf [])) (dbOf [order100, order100other, order101]) 1000).2 =
      [Lookup.mk "TRON" "TADDR" (1000 - 24 * 3600) [order100, order101],
       Lookup.mk "TRON" "TOTHER" (1000 - 24 * 3600) [order100other]] ∧
    ((checkAllL (chainsOf (apiOf [])) (dbOf [order100, order100other, order101]) 1000).2.map
      (fun e => (e.chain, e.addr))).Nodup :=
  ⟨rfl, rfl,
    (checkAll_lookups (chainsOf (apiOf [])) (dbOf [order100, order100other, order101]) 1000
      [order100, order100other, order101] rfl).2.2.1⟩

theorem foldl_flatMap_eq {α β γ : Type} (f : γ → β → γ) (g : α → List β) (l : List α) :
    ∀ d : γ, (l.flatMap g).foldl f d = l.foldl (fun d x => (g x).foldl f d) d := by
  induction l with
  | nil => intro d; rfl
  | cons a rest ih =>
    intro d
    rw [List.flatMap_cons, List.foldl_append, ih, List.foldl_cons]

theorem foldl_filter_skip {α γ : Type} (f : γ → α → γ) (p : α → Bool) (l : List α)
    (hskip : ∀ x ∈ l, p x = false → ∀ d, f d x = d) :
    ∀ d : γ, (l.filter p).foldl f d = l.foldl f d := by
  induction l with
  | nil => intro d; rfl
  | cons a rest ih =>
    intro d
    have ih2 := ih (fun x hx => hskip x (List.mem_cons_of_mem _ hx))
    cases hpa : p a with
    | true => rw [List.filter_cons_of_pos hpa, List.foldl_cons, List.foldl_cons, ih2]
    | false =>
      rw [List.filter_cons_of_neg (by simp [hpa]), List.foldl_cons,
        hskip a (List.mem_cons_self _ _) hpa d, ih2]

theorem checkAddress_error (db : DB) (now : Int) (api : ChainAPI) (addr : String)
    (orders : List Order) (e : String) (hfail : api.GetTxs addr (now - 24 * 3600) = .error e) :
    checkAddress db now api addr orders = db := by
  simp only [checkAddress, hfail]

theorem checkChain_runLookups (chains : ChainType → Option ChainAPI) (db : DB) (now : Int)
    (chain : ChainType) (orders : List Order) :
    checkChain chains db now chain orders =
      runLookups chains db now (checkChainL chains db now chain orders).2 := by
  rw [checkChainL_eq]
  cases hc : chains chain with
  | none => simp [checkChain, runLookups, hc]
  | some api =>
    simp only [checkChain, runLookups, hc, Option.isSome_some, if_true, List.foldl_map]
    rfl

theorem checkAll_runLookups (chains : ChainType → Option ChainAPI) (db : DB) (now : Int) :
    checkAll chains db now = runLookups chains db now (checkAllL chains db now).2 := by
  rw [checkAllL_eq]
  simp only [checkAll, DB.GetPendingOrders]
  split_ifs with hlen
  · rw [List.length_eq_zero.mp hlen]
    rfl
  · simp only [runLookups]
    rw [foldl_flatMap_eq]
    have hstep : ∀ (d : DB) (cg : String × List Order),
        checkChain chains d now cg.1 cg.2 =
          List.foldl (fun d l =>
            match chains l.chain with
            | some api => checkAddress d now api l.addr l.orders
            | none => d) d
            (if (chains cg.1).isSome = true then
              (groupOf (fun o => o.PayAddr) cg.2).map
                (fun g => Lookup.mk cg.1 g.1 (now - 24 * 3600) g.2)
            else []) := by
      intro d cg
      have h := checkChain_runLookups chains d now cg.1 cg.2
      rw [checkChainL_eq] at h
      exact h
    simp only [← hstep]
    rfl

/-- C25: failure isolation between groups. When the adapter of chain `c` answers the
lookup for address `a` with an error, the group of `(c, a)` changes nothing, whatever the
state and its orders, and the poll cycle is the run over all other groups of the cycle,
with the group of `(c, a)` left out. -/
theorem checkAll_failure_isolated (chains : ChainType → Option ChainAPI) (db : DB) (now : Int)
    (c a : String) (api : ChainAPI) (e : String) (hc : chains c = some api)
    (hfail : api.GetTxs a (now - 24 * 3600) = .error e) :
    (∀ (d : DB) (os : List Order),
      checkAddress d now api a os = d ∧ newRecords d (checkAddress d now api a os) = []) ∧
    checkAll chains db now =
      runLookups chains db now
        ((checkAllL chains db now).2.filter
          (fun l => !(decide (l.chain = c) && decide (l.addr = a)))) := by
  have hno : ∀ (d : DB) (os : List Order), checkAddress d now api a os = d :=
    fun d os => checkAddress_error d now api a os e hfail
  refine ⟨fun d os => ⟨hno d os, ?_⟩, ?_⟩
  · rw [hno d os]
    simp [newRecords]
  · rw [checkAll_runLookups]
    simp only [runLookups]
    rw [foldl_filter_skip]
    intro l _ hl d
    simp only [Bool.not_eq_false', Bool.and_eq_true, decide_eq_true_eq] at hl
    obtain ⟨h1, h2⟩ := hl
    rw [h1, hc]
    simp only
    rw [h2]
    exact hno d l.orders

/-- Witness for C25: at time 1000 the adapter of `TRON` fails for the address `TADDR` and
reports a transfer of 100 for `TOTHER`; the order at `TOTHER` is confirmed as in the run
over its group alone. -/
theorem checkAll_failure_isolated_witness :
    chainsOf (apiFailAt "TADDR" [mkTx "H1" 100]) "TRON" =
        some (apiFailAt "TADDR" [mkTx "H1" 100]) ∧
    (apiFailAt "TADDR" [mkTx "H1" 100]).GetTxs "TADDR" (1000 - 24 * 3600) =
        .error "upstream unavailable" ∧
    checkAll (chainsOf (apiFailAt "TADDR" [mkTx "H1" 100]))
        (dbOf [order100, order100other]) 1000 =
      runLookups (chainsOf (apiFailAt "TADDR" [mkTx "H1" 100]))
        (dbOf [order100, order100other]) 1000
        [Lookup.mk "TRON" "TOTHER" (1000 - 24 * 3600) [order100other]] :=
  ⟨rfl, rfl,
    (checkAll_failure_isolated (chainsOf (apiFailAt "TADDR" [mkTx "H1" 100]))
      (dbOf [order100, order100other]) 1000 "TRON" "TADDR"
      (apiFailAt "TADDR" [mkTx "H1" 100]) "upstream unavailable" rfl rfl).2⟩

end payment.APIScheduler

namespace payment

open scenario

theorem EthereumAPI_GetTxs_filtered (e : EthereumAPI) (lib : decimal.Lib) (addr : String)
    (since : Int) (txs : List Transaction) (h : e.GetTxs lib addr since = .ok txs) :
    ∀ tx ∈ txs, e.EqualFold tx.To addr = true := by
  intro tx htx
  cases hf : e.fetch addr since with
  | error err => simp [EthereumAPI.GetTxs, hf] at h
  | ok result =>
    simp only [EthereumAPI.GetTxs, hf, Except.ok.injEq] at h
    subst h
    obtain ⟨row, _, hrow⟩ := List.mem_filterMap.mp htx
    by_cases hq : e.EqualFold row.To addr = true
    · simp only [hq, Bool.not_true, Bool.false_eq_true, if_false, Option.some.injEq] at hrow
      subst hrow
      exact hq
    · simp [hq] at hrow

theorem PolygonAPI_GetTxs_filtered (p : PolygonAPI) (lib : decimal.Lib) (addr : String)
    (since : Int) (txs : List Transaction) (h : p.GetTxs lib addr since = .ok txs) :
    ∀ tx ∈ txs, p.EqualFold tx.To addr = true := by
  intro tx htx
  cases hf : p.fetch addr since with
  | error err => simp [PolygonAPI.GetTxs, hf] at h
  | ok result =>
    simp only [PolygonAPI.GetTxs, hf, Except.ok.injEq] at h
    subst h
    obtain ⟨row, _, hrow⟩ := List.mem_filterMap.mp htx
    by_cases hq : p.EqualFold row.To addr = true
    · simp only [hq, Bool.not_true, Bool.false_eq_true, if_false, Option.some.injEq] at hrow
      subst hrow
      exact hq
    · simp [hq] at hrow

theorem SolanaAPI_GetTxs_filtered (s : SolanaAPI) (addr : String) (since : Int)
    (txs : List Transaction) (h : s.GetTxs addr since = .ok txs) :
    ∀ tx ∈ txs, tx.To = addr := by
  intro tx htx
  cases hf : s.fetch addr with
  | error err => simp [SolanaAPI.GetTxs, hf] at h
  | ok result =>
    simp only [SolanaAPI.GetTxs, hf, Except.ok.injEq] at h
    subst h
    obtain ⟨sig, _, hsig⟩ := List.mem_filterMap.mp htx
    split_ifs at hsig
    cases hd : s.getTransactionDetail sig.Signature with
    | error err => simp [hd] at hsig
    | ok r =>
      cases r with
      | none => simp [hd] at hsig
      | some t =>
        simp only [hd] at hsig
        split_ifs at hsig with hto
        simp only [Option.some.injEq] at hsig
        subst hsig
        exact hto

theorem SolscanAPI_GetTxs_filtered (sol : SolscanAPI) (addr : String) (since : Int)
    (txs : List Transaction) (h : sol.GetTxs addr since = .ok txs) :
    ∀ tx ∈ txs, tx.To = addr := by
  intro tx htx
  cases hf : sol.fetch addr with
  | error err => simp [SolscanAPI.GetTxs, hf] at h
  | ok data =>
    simp only [SolscanAPI.GetTxs, hf, Except.ok.injEq] at h
    subst h
    obtain ⟨row, _, hrow⟩ := List.mem_filterMap.mp htx
    split_ifs at hrow with hc
    simp only [Option.some.injEq] at hrow
    subst hrow
    simp only [Bool.or_eq_true, decide_eq_true_eq, not_or, ne_eq, not_not] at hc
    exact hc.2

theorem TONAPI_GetTxs_filtered (t : TONAPI) (lib : decimal.Lib) (addr : String) (since : Int)
    (txs : List Transaction) (h : t.GetTxs lib addr since = .ok txs) :
    ∀ tx ∈ txs, tx.To = addr := by
  intro tx htx
  cases hf : t.fetch addr with
  | error err => simp [TONAPI.GetTxs, hf] at h
  | ok result =>
    simp only [TONAPI.GetTxs, hf] at h
    split_ifs at h
    simp only [Except.ok.injEq] at h
    subst h
    obtain ⟨row, _, hrow⟩ := List.mem_filterMap.mp htx
    split_ifs at hrow with hc
    simp only [Option.some.injEq] at hrow
    subst hrow
    simp only [Bool.or_eq_true, decide_eq_true_eq, not_or, ne_eq, not_not] at hc
    exact hc.2

theorem TonScanAPI_GetTxs_filtered (t : TonScanAPI) (lib : decimal.Lib) (addr : String)
    (since : Int) (txs : List Transaction) (h : t.GetTxs lib addr since = .ok txs) :
    ∀ tx ∈ txs, tx.To = addr := by
  intro tx htx
  cases hf : t.fetch addr with
  | error err => simp [TonScanAPI.GetTxs, hf] at h
  | ok transfers =>
    simp only [TonScanAPI.GetTxs, hf, Except.ok.injEq] at h
    subst h
    obtain ⟨row, _, hrow⟩ := List.mem_filterMap.mp htx
    split_ifs at hrow with hc
    simp only [Option.some.injEq] at hrow
    subst hrow
    simp only [Bool.or_eq_true, decide_eq_true_eq, not_or, ne_eq, not_not] at hc
    exact hc.2

/-- C23 fails for `TronAPI` and `BSCAPI`: the destinations of the transfers that their
`GetTxs` returns are the destinations of all entries of the upstream response, whatever
the polled address; for a response with one transfer from `TADDR` to `TOTHER`,
`GetTxs("TADDR", 0)` returns that transfer, whose `To` is `TOTHER`. -/
theorem GetTxs_unfiltered :
    (∀ (t : TronAPI) (lib : decimal.Lib) (addr : String) (since : Int),
      (t.GetTxs lib addr since).toOption.map (List.map (fun tx => tx.To)) =
        (t.fetch addr (since * 1000)).toOption.map (List.map (fun row => row.To))) ∧
    (∀ (b : BSCAPI) (lib : decimal.Lib) (addr : String) (since : Int),
      (b.GetTxs lib addr since).toOption.map (List.map (fun tx => tx.To)) =
        (b.fetch addr since).toOption.map (List.map (fun row => row.To))) ∧
    ((TronAPI.mk (fun _ _ => .ok [tronOutgoing])).GetTxs libOf "TADDR" 0).toOption.map
        (List.map (fun tx => (tx.Hash, tx.From, tx.To))) = some [("HOUT", "TADDR", "TOTHER")] ∧
    ((BSCAPI.mk (fun _ _ => .ok [tokenOutgoing])).GetTxs libOf "TADDR" 0).toOption.map
        (List.map (fun tx => (tx.Hash, tx.From, tx.To))) = some [("HOUT", "TADDR", "TOTHER")] := by
  refine ⟨?_, ?_, rfl, rfl⟩
  · intro t lib addr since
    cases hf : t.fetch addr (since * 1000) with
    | error e => simp [TronAPI.GetTxs, hf, Except.toOption]
    | ok data =>
      simp only [TronAPI.GetTxs, hf, Except.toOption, Option.map_some', List.map_map]
      rfl
  · intro b lib addr since
    cases hf : b.fetch addr since with
    | error e => simp [BSCAPI.GetTxs, hf, Except.toOption]
    | ok data =>
      simp only [BSCAPI.GetTxs, hf, Except.toOption, Option.map_some', List.map_map]
      rfl

end payment

namespace service.RateService

open database scenario

theorem calcMedian_zero : calcMedian [0] = 0 := rfl

/-- C28 fails: with the default sources, a Binance client that reports the price `0` for
the pair USD, USDT and a failing CoinGecko client, `GetRate("USD", "USDT")` returns 0, and
`SetPaymentMethod` for an order of 100 USD then divides by zero (the result `none`); the
same holds when the Binance request fails and CoinGecko reports the price 0. -/
theorem GetRate_zero_price :
    ratesBinanceZero.fetchRates "USD" "USDT" = [0] ∧
    (ratesBinanceZero.GetRate 0 0 "USD" "USDT").1 = 0 ∧
    (OrderService.SetPaymentMethod dbQuerier ratesBinanceZero (dbOf [orderUSD]) 0 0 1000
      "PAY11" "TRON" "USDT" "TADDR").1 = none ∧
    ratesCoinGeckoZero.fetchRates "USD" "USDT" = [0] ∧
    (ratesCoinGeckoZero.GetRate 0 0 "USD" "USDT").1 = 0 ∧
    (OrderService.SetPaymentMethod dbQuerier ratesCoinGeckoZero (dbOf [orderUSD]) 0 0 1000
      "PAY11" "TRON" "USDT" "TADDR").1 = none := by
  have f1 : ratesBinanceZero.fetchRates "USD" "USDT" = [0] := rfl
  have f2 : ratesCoinGeckoZero.fetchRates "USD" "USDT" = [0] := rfl
  have g1 : (ratesBinanceZero.GetRate 0 0 "USD" "USDT").1 = 0 := by
    have hc : cacheGet ("USD" ++ "_" ++ "USDT") ratesBinanceZero.cache = none := rfl
    simp only [GetRate, hc, f1, List.length_singleton, one_ne_zero, if_false, calcMedian_zero]
  have g2 : (ratesCoinGeckoZero.GetRate 0 0 "USD" "USDT").1 = 0 := by
    have hc : cacheGet ("USD" ++ "_" ++ "USDT") ratesCoinGeckoZero.cache = none := rfl
    simp only [GetRate, hc, f2, List.length_singleton, one_ne_zero, if_false, calcMedian_zero]
  have o1 : dbQuerier.GetOrder (dbOf [orderUSD]) "PAY11" = .ok orderUSD := rfl
  have c1 : orderUSD.Currency = "USD" := rfl
  refine ⟨f1, g1, ?_, f2, g2, ?_⟩
  · simp only [OrderService.SetPaymentMethod, o1, c1, g1, if_true]
  · simp only [OrderService.SetPaymentMethod, o1, c1, g2, if_true]

end service.RateService

namespace service.NotificationService

open database scenario

/-- C29 fails: `formatPaymentMessage` panics on the slice `TxHash[:16]` exactly for the
orders with a valid transaction hash of fewer than 16 bytes, among them the Paid order
with the empty hash and the one with the hash `HPAID`. -/
theorem formatPaymentMessage_short_hash (fmt2 : ℚ → String) (fmtTime : Int → String) :
    (∀ order : Order, formatPaymentMessage fmt2 fmtTime order = none ↔
      ∃ hash, order.TxHash = some hash ∧ hash.utf8ByteSize < 16) ∧
    formatPaymentMessage fmt2 fmtTime orderEmptyHash = none ∧
    formatPaymentMessage fmt2 fmtTime orderShortHash = none := by
  refine ⟨?_, rfl, rfl⟩
  intro order
  cases ht : order.TxHash with
  | none => simp [formatPaymentMessage, ht]
  | some hash =>
    by_cases hlen : hash.utf8ByteSize < 16
    · simp [formatPaymentMessage, ht, hlen]
    · simp [formatPaymentMessage, ht, hlen]

end service.NotificationService

namespace service.BinanceRate

open database scenario

theorem parse_unparseable (lib : decimal.Lib) (p e : String)
    (h : lib.NewFromString p = .error e) : lib.parse p = 0 := by
  simp only [decimal.Lib.parse, h]

theorem getCNYToUSDT_ok (b : BinanceRate) (lib : decimal.Lib) :
    ∃ r, b.getCNYToUSDT lib = .ok r ∧ r ≠ 0 := by
  cases hg : b.get "https://api.binance.com/api/v3/ticker/price?symbol=USDTCNY" with
  | error e => exact ⟨7.3, by simp only [getCNYToUSDT, hg], by norm_num⟩
  | ok body =>
    cases body with
    | error e => exact ⟨7.3, by simp only [getCNYToUSDT, hg], by norm_num⟩
    | ok p =>
      by_cases hz : lib.parse p = 0
      · exact ⟨7.3, by simp only [getCNYToUSDT, hg, hz, if_true], by norm_num⟩
      · exact ⟨lib.parse p, by simp only [getCNYToUSDT, hg, hz, if_false], hz⟩

/-- C30: `BinanceRate.GetRate("CNY", "USDT")` never reports failure.  It returns 7.3
without error when the request fails, when the body cannot be decoded and when the price
parses to zero, which an unparseable price does; otherwise it returns the price.  So
`fetchRates("CNY", "USDT")` of a service with the default sources is never empty, and
`GetRate("CNY", "USDT")` returns either a cached value or the aggregate of the fetched
rates, which it caches: never the fallback 1 of the empty case. -/
theorem GetRate_CNY_USDT_never_fails (b : BinanceRate) (lib : decimal.Lib)
    (c : CoinGeckoRate) (cache : List (String × Rate)) (ttl now stored : Int) :
    (∃ r, b.GetRate lib "CNY" "USDT" = .ok r) ∧
    (∀ e, b.get "https://api.binance.com/api/v3/ticker/price?symbol=USDTCNY" = .error e →
      b.GetRate lib "CNY" "USDT" = .ok 7.3) ∧
    (∀ e, b.get "https://api.binance.com/api/v3/ticker/price?symbol=USDTCNY" = .ok (.error e) →
      b.GetRate lib "CNY" "USDT" = .ok 7.3) ∧
    (∀ p, b.get "https://api.binance.com/api/v3/ticker/price?symbol=USDTCNY" = .ok (.ok p) →
      (lib.parse p = 0 → b.GetRate lib "CNY" "USDT" = .ok 7.3) ∧
      ((∃ e, lib.NewFromString p = .error e) → b.GetRate lib "CNY" "USDT" = .ok 7.3) ∧
      (lib.parse p ≠ 0 → b.GetRate lib "CNY" "USDT" = .ok (lib.parse p))) ∧
    (RateService.mk [b.toSource lib, c.toSource] cache ttl).fetchRates "CNY" "USDT" ≠ [] ∧
    ((∃ rate, RateService.cacheGet "CNY_USDT" cache = some rate ∧
        (RateService.mk [b.toSource lib, c.toSource] cache ttl).GetRate now stored "CNY" "USDT" =
          (rate.Value, RateService.mk [b.toSource lib, c.toSource] cache ttl)) ∨
      (RateService.mk [b.toSource lib, c.toSource] cache ttl).GetRate now stored "CNY" "USDT" =
        (RateService.calcMedian
            ((RateService.mk [b.toSource lib, c.toSource] cache ttl).fetchRates "CNY" "USDT"),
          RateService.mk [b.toSource lib, c.toSource]
            (RateService.cacheSet "CNY_USDT"
              (Rate.mk "CNY" "USDT"
                (RateService.calcMedian
                  ((RateService.mk [b.toSource lib, c.toSource] cache ttl).fetchRates
                    "CNY" "USDT"))
                stored)
              cache)
            ttl)) := by
  have hG : b.GetRate lib "CNY" "USDT" = b.getCNYToUSDT lib := by
    simp [GetRate]
  obtain ⟨r, hr, _⟩ := getCNYToUSDT_ok b lib
  have hne : (RateService.mk [b.toSource lib, c.toSource] cache ttl).fetchRates "CNY" "USDT" ≠
      [] := by
    simp only [RateService.fetchRates, toSource, hG, hr, List.filterMap_cons]
    exact List.cons_ne_nil _ _
  refine ⟨⟨r, hG.trans hr⟩, ?_, ?_, ?_, hne, ?_⟩
  · intro e he
    rw [hG]
    simp only [getCNYToUSDT, he]
  · intro e he
    rw [hG]
    simp only [getCNYToUSDT, he]
  · intro p hp
    refine ⟨?_, ?_, ?_⟩
    · intro hz
      rw [hG]
      simp only [getCNYToUSDT, hp, hz, if_true]
    · rintro ⟨e, he⟩
      rw [hG]
      simp only [getCNYToUSDT, hp, parse_unparseable lib p e he, if_true]
    · intro hz
      rw [hG]
      simp only [getCNYToUSDT, hp, hz, if_false]
  · have hkey : "CNY" ++ "_" ++ "USDT" = "CNY_USDT" := rfl
    have hlen : ((RateService.mk [b.toSource lib, c.toSource] cache ttl).fetchRates
        "CNY" "USDT").length ≠ 0 := by
      intro h0
      exact hne (List.length_eq_zero.mp h0)
    cases hcg : RateService.cacheGet "CNY_USDT" cache with
    | none =>
      right
      simp only [RateService.GetRate, hkey, hcg, hlen, if_false]
    | some rate =>
      by_cases hfresh : now - rate.Time < ttl
      · left
        exact ⟨rate, rfl, by simp only [RateService.GetRate, hkey, hcg, hfresh, if_true]⟩
      · right
        simp only [RateService.GetRate, hkey, hcg, hfresh, hlen, if_false]

/-- Witness for C30: a Binance client whose request times out and a CoinGecko client whose
request times out; the rate is 7.3 and the aggregate is cached. -/
theorem GetRate_CNY_USDT_never_fails_witness :
    (binanceOf (.error "timeout")).get
        "https://api.binance.com/api/v3/ticker/price?symbol=USDTCNY" = .error "timeout" ∧
    (binanceOf (.error "timeout")).GetRate libOf "CNY" "USDT" = .ok 7.3 ∧
    (RateService.mk [(binanceOf (.error "timeout")).toSource libOf,
        (coinGeckoOf (.error "timeout")).toSource] [] (5 * time.Minute)).fetchRates
      "CNY" "USDT" ≠ [] :=
  ⟨rfl,
    (GetRate_CNY_USDT_never_fails (binanceOf (.error "timeout")) libOf
      (coinGeckoOf (.error "timeout")) [] (5 * time.Minute) 0 0).2.1 "timeout" rfl,
    (GetRate_CNY_USDT_never_fails (binanceOf (.error "timeout")) libOf
      (coinGeckoOf (.error "timeout")) [] (5 * time.Minute) 0 0).2.2.2.2.1⟩

end service.BinanceRate
